import Mathlib

/-!
# TaskBoard-Pro: the automation engine of `server/controllers/tasks.js`

A shallow embedding of the task-update path (`updateTask`), of the rule matcher and
action executor (`checkAndRunAutomationsForTask`, `executeAutomationAction`) and of
the rule handlers of `server/controllers/automations.js` (`createAutomation`,
`updateAutomation`), with the mongoose collections as lists of documents and every
store call able to reject.

Conventions.
* An ObjectId is represented by its 24-character lower-case hex string, which is
  what `toString()` returns for it.
* An optional string field of a document or of a request body is an
  `Option String`; JavaScript truthiness (`x && ...`, `if (x)`) is `truthy`.
* `Date.now()` is the parameter `now`.
* Every function that awaits a store call takes a `Faults` record saying which
  calls reject.
-/

namespace TaskBoard

/-! ## JavaScript values -/

/-- Truthiness of an optional string: `undefined`, `null` and `""` are falsy. -/
def truthy : Option String → Bool
  | none => false
  | some s => !(s == "")

/-- What the code holds in `resolvedAssigneeId` and passes on as
`conditions.assigneeId`: a JavaScript string, or an ObjectId object (given by its hex
string). -/
inductive IdValue where
  | str (s : String)
  | oid (hex : String)
deriving DecidableEq, Repr

/-- The method `toString()`: a string is itself, an ObjectId prints its hex string. -/
def IdValue.toString : IdValue → String
  | .str s => s
  | .oid h => h

/-- Truthiness of `resolvedAssigneeId`: an object is truthy, a string is truthy unless
empty, `null` and `undefined` are falsy. -/
def idTruthy : Option IdValue → Bool
  | none => false
  | some (.str s) => !(s == "")
  | some (.oid _) => true

/-- Strict inequality `s !== v` with a string on the left: against a string it
compares the characters; against an ObjectId object, `null` or `undefined` the types
differ and the result is `true`. -/
def strictNeString (s : String) : Option IdValue → Bool
  | some (.str t) => !(s == t)
  | some (.oid _) => true
  | none => true

/-- Strict inequality `v !== p` where `p` is a string or `null`
(`previousAssigneeId`) and `v` is a truthy `resolvedAssigneeId`. -/
def strictNePrevious (v : IdValue) (p : Option String) : Bool :=
  match v, p with
  | .str s, some t => !(s == t)
  | .str _, none => true
  | .oid _, _ => true

/-- One hexadecimal digit, either case. -/
def isHexDigit (c : Char) : Bool :=
  c.isDigit || ('a' ≤ c && c ≤ 'f') || ('A' ≤ c && c ≤ 'F')

/-- The upper-case hex digits A to F made lower case; every other character is kept. -/
def hexLower (c : Char) : Char :=
  if c = 'A' then 'a' else if c = 'B' then 'b' else if c = 'C' then 'c'
  else if c = 'D' then 'd' else if c = 'E' then 'e' else if c = 'F' then 'f' else c

/-- The test `assigneeId.length !== 24 || !mongoose.Types.ObjectId.isValid(assigneeId)`
negated: for a string of length 24 `isValid` holds exactly when all characters are hex
digits. -/
def isObjectIdString (s : String) : Bool :=
  s.length == 24 && s.data.all isHexDigit

/-- Mongoose casting a valid id string to the ObjectId stored in a document: the hex
string in lower case. -/
def castObjectId (s : String) : String :=
  String.mk (s.data.map hexLower)

/-- The ObjectId a value is stored as when assigned to an ObjectId path. -/
def IdValue.stored : IdValue → String
  | .str s => castObjectId s
  | .oid h => h

/-! ## Documents -/

/-- The sub-document `trigger.conditions` of `models/Automation.js`. -/
structure TriggerConditions where
  fromStatus : Option String := none
  toStatus : Option String := none
  assigneeId : Option String := none
deriving DecidableEq, Repr

/-- The sub-document `trigger` of `models/Automation.js`. -/
structure Trigger where
  type : String
  conditions : TriggerConditions := {}
deriving DecidableEq, Repr

/-- The sub-document `action.params` of `models/Automation.js`. -/
structure ActionParams where
  status : Option String := none
  badgeName : Option String := none
  notificationMessage : Option String := none
  notificationType : Option String := none
deriving DecidableEq, Repr

/-- The sub-document `action` of `models/Automation.js`. -/
structure Action where
  type : String
  params : ActionParams := {}
deriving DecidableEq, Repr

/-- A document of `models/Automation.js`; `updatedAt` is the stamp mongoose keeps for
the schema option `timestamps: true`. -/
structure Automation where
  _id : String
  name : String
  project : String
  createdBy : String
  active : Bool := true
  trigger : Trigger
  action : Action
  executionCount : Nat := 0
  lastExecuted : Option Nat := none
  updatedAt : Nat := 0
deriving DecidableEq, Repr

/-- An element of a task's `history` array, as `updateTask` and
`executeAutomationAction` build it; `oldValue` and `newValue` are kept in printed
form. -/
structure HistoryEntry where
  field : String
  oldValue : String
  newValue : String
  changedBy : String
  changedAt : Nat
deriving DecidableEq, Repr

/-- Modelled from the spec: `models/Task.js` is not among the sources. The fields are
those the controller reads and writes on a task (the spec's Task aggregate: status and
history, plus title, description, project, reporter, assignee, priority, due date and
labels). -/
structure Task where
  _id : String
  title : String
  description : Option String := none
  project : String
  reporter : String
  assignee : Option String := none
  status : String
  priority : String := "Medium"
  dueDate : Option String := none
  labels : List String := []
  history : List HistoryEntry := []
deriving DecidableEq, Repr

/-- A document of `models/User.js` (password and preference fields left out);
`updatedAt` is the stamp mongoose keeps for the schema option `timestamps: true`. -/
structure User where
  _id : String
  name : String
  email : String
  firebaseUid : String
  photoURL : String := ""
  badges : List String := []
  updatedAt : Nat := 0
deriving DecidableEq, Repr

/-- Modelled from the spec: `models/Notification.js` is not among the sources. The
fields are those every `Notification.create` call of the controller supplies (the
spec's Notification aggregate). -/
structure Notification where
  recipient : String
  type : String
  title : String
  message : String
  relatedTask : String
  relatedProject : String
  createdBy : String
deriving DecidableEq, Repr

/-- An element of `statuses` in `models/Project.js`. -/
structure Status where
  _id : String
  name : String
  color : String := "#4A90E2"
  order : Int
deriving DecidableEq, Repr

/-- An element of `members` in `models/Project.js`. -/
structure Member where
  user : String
  role : String := "member"
deriving DecidableEq, Repr

/-- An element of `pendingInvites` in `models/Project.js`. -/
structure Invite where
  email : String
  role : String := "member"
deriving DecidableEq, Repr

/-- A document of `models/Project.js`. -/
structure Project where
  _id : String
  title : String
  description : Option String := none
  owner : String
  members : List Member := []
  pendingInvites : List Invite := []
  statuses : List Status := []
deriving DecidableEq, Repr

/-- The database: one list of documents per collection, in store order. -/
structure DB where
  projects : List Project := []
  tasks : List Task := []
  users : List User := []
  automations : List Automation := []
  notifications : List Notification := []
deriving DecidableEq, Repr

/-- Which store calls reject. The calls made for a rule are keyed by the rule's
`_id`, the rule query by the trigger type it asks for. -/
structure Faults where
  taskFindById : Bool := false
  projectFindById : Bool := false
  userFindOne : Bool := false
  assignNotification : Bool := false
  taskSave : Bool := false
  taskReload : Bool := false
  automationFind : String → Bool := fun _ => false
  taskUpdate : String → Bool := fun _ => false
  userUpdate : String → Bool := fun _ => false
  notificationCreate : String → Bool := fun _ => false
  bookkeeping : String → Bool := fun _ => false
  automationFindById : Bool := false
  automationSave : Bool := false
  automationReload : Bool := false
  projectSave : Bool := false
  userFindByEmail : Bool := false
  memberNotification : Bool := false
  taskCount : Bool := false
  automationRemove : Bool := false

/-- No store call rejects. -/
def Faults.none : Faults := {}

/-! ## Store calls -/

/-- Apply `g` to the first element satisfying `p`, as `findByIdAndUpdate` and `save`
touch one document; a list without such an element is returned as it is. -/
def updateFirst {α : Type} (p : α → Bool) (g : α → α) : List α → List α
  | [] => []
  | x :: xs => if p x then g x :: xs else x :: updateFirst p g xs

/-- The query `Automation.find({ project, 'trigger.type': triggerType, active: true })`:
the documents that satisfy it, in store order. -/
def Automation.find (db : DB) (project triggerType : String) : List Automation :=
  db.automations.filter
    (fun a => a.project == project && a.trigger.type == triggerType && a.active == true)

/-- The update `Automation.findByIdAndUpdate(id, { $inc: { executionCount: 1 },
lastExecuted: Date.now() })`; mongoose adds the `updatedAt` stamp to the update. -/
def Automation.findByIdAndUpdate (db : DB) (id : String) (now : Nat) : DB :=
  let automations := updateFirst (fun a => a._id == id)
    (fun a =>
      { a with executionCount := a.executionCount + 1, lastExecuted := some now,
               updatedAt := now })
    db.automations
  { db with automations := automations }

/-- Modelled from the spec: `models/Task.js` is not among the sources, so what the Task
model does on an update besides the update it is given cannot be read there. The update
`Task.findByIdAndUpdate(id, { status, $push: { history: entry } })` is the spec's
single-document write: it sets the status and appends the entry to the history of the
one task, and does not trigger the automations again for this same write. -/
def Task.findByIdAndUpdate (db : DB) (id status : String) (entry : HistoryEntry) : DB :=
  let tasks := updateFirst (fun t => t._id == id)
    (fun t => { t with status := status, history := t.history ++ [entry] })
    db.tasks
  { db with tasks := tasks }

/-- The operator `$addToSet` on an array of strings. -/
def addToSet (xs : List String) (x : String) : List String :=
  if x ∈ xs then xs else xs ++ [x]

/-- The update `User.findByIdAndUpdate(id, { $addToSet: { badges: badgeName } })` made
at time `now`; mongoose adds the `updatedAt` stamp to the update. -/
def User.findByIdAndUpdate (db : DB) (id badgeName : String) (now : Nat) : DB :=
  let users := updateFirst (fun u => u._id == id)
    (fun u => { u with badges := addToSet u.badges badgeName, updatedAt := now })
    db.users
  { db with users := users }

/-- The call `Notification.create(doc)`. -/
def Notification.create (db : DB) (n : Notification) : DB :=
  { db with notifications := db.notifications ++ [n] }

/-- The call `Task.findById(id)`. -/
def Task.findById (db : DB) (id : String) : Option Task :=
  db.tasks.find? (fun t => t._id == id)

/-- The call `Project.findById(id)`. -/
def Project.findById (db : DB) (id : String) : Option Project :=
  db.projects.find? (fun p => p._id == id)

/-- The call `User.findOne({ firebaseUid })`. -/
def User.findOne (db : DB) (firebaseUid : String) : Option User :=
  db.users.find? (fun u => u.firebaseUid == firebaseUid)

/-- The effect of `.populate('assignee', ...)` on what the controller reads from
`task.assignee`: the referenced user when it exists (still named by its id), `null`
otherwise. -/
def populateAssignee (db : DB) (t : Task) : Task :=
  { t with assignee :=
      match t.assignee with
      | some h => if db.users.any (fun u => u._id == h) then some h else none
      | none => none }

/-- The call `task.save()` for an existing task: the stored document with the task's
`_id` is replaced. -/
def Task.save (db : DB) (t : Task) : DB :=
  { db with tasks := updateFirst (fun x => x._id == t._id) (fun _ => t) db.tasks }

/-! ## `executeAutomationAction` -/

/-- What the object `conditions` passed to the matcher holds; a property the caller did
not supply is `undefined`. -/
structure EventConditions where
  fromStatus : Option String := none
  toStatus : Option String := none
  assigneeId : Option IdValue := none
deriving DecidableEq, Repr

/-- The state after a block that may have thrown, and whether it threw. -/
structure Outcome where
  db : DB
  threw : Bool := false
deriving DecidableEq, Repr

/-- The body of the `try` in `executeAutomationAction` (the `switch` on
`automation.action.type`). A rejected store call throws; writes done before it stay. -/
def executeAutomationActionTry (f : Faults) (now : Nat) (automation : Automation)
    (task : Task) (userId : String) (db : DB) : Outcome :=
  let actionType := automation.action.type
  let params := automation.action.params
  if actionType = "changeTaskStatus" then
    if truthy params.status then
      if f.taskUpdate automation._id then { db := db, threw := true }
      else
        { db := Task.findByIdAndUpdate db task._id (params.status.getD "")
            { field := "status", oldValue := task.status,
              newValue := params.status.getD "", changedBy := userId, changedAt := now } }
    else { db := db }
  else if actionType = "assignBadge" then
    if truthy params.badgeName && task.assignee.isSome then
      if f.userUpdate automation._id then { db := db, threw := true }
      else
        let db1 := User.findByIdAndUpdate db (task.assignee.getD "") (params.badgeName.getD "")
          now
        if f.notificationCreate automation._id then { db := db1, threw := true }
        else
          { db := Notification.create db1
              { recipient := task.assignee.getD "", type := "success",
                title := "Badge Awarded",
                message := "You earned the \"" ++ params.badgeName.getD "" ++ "\" badge!",
                relatedTask := task._id, relatedProject := task.project,
                createdBy := userId } }
    else { db := db }
  else if actionType = "sendNotification" then
    if truthy params.notificationMessage && task.assignee.isSome then
      if f.notificationCreate automation._id then { db := db, threw := true }
      else
        { db := Notification.create db
            { recipient := task.assignee.getD "",
              type := if truthy params.notificationType then params.notificationType.getD ""
                      else "info",
              title := "Task Notification",
              message := params.notificationMessage.getD "",
              relatedTask := task._id, relatedProject := task.project,
              createdBy := userId } }
    else { db := db }
  else { db := db }

/-- The function `executeAutomationAction`: the `try` body with its `catch`, which logs
and returns normally. -/
def executeAutomationAction (f : Faults) (now : Nat) (automation : Automation)
    (task : Task) (userId : String) (db : DB) : DB :=
  (executeAutomationActionTry f now automation task userId db).db

/-! ## `checkAndRunAutomationsForTask` -/

/-- The value of `shouldRun` for one automation (lines 501 to 528); `none` when
destructuring a `null` `conditions` throws a TypeError. -/
def shouldRun (triggerType : String) (conditions : Option EventConditions)
    (automation : Automation) : Option Bool :=
  if triggerType = "taskStatusChange" then
    match conditions with
    | none => none
    | some c =>
      let autoFromStatus := automation.trigger.conditions.fromStatus
      let autoToStatus := automation.trigger.conditions.toStatus
      let s1 := if truthy autoFromStatus && autoFromStatus != c.fromStatus then false else true
      let s2 := if truthy autoToStatus && autoToStatus != c.toStatus then false else s1
      some s2
  else if triggerType = "taskAssigneeChange" then
    match conditions with
    | none => none
    | some c =>
      match automation.trigger.conditions.assigneeId with
      | some autoAssigneeId =>
        some (if strictNeString autoAssigneeId c.assigneeId then false else true)
      | none => some true
  else some true

/-- What one call of the matcher did: the database it left, and the automations it
passed to `executeAutomationAction`, in call order. -/
structure RunResult where
  db : DB
  executed : List Automation := []
deriving DecidableEq, Repr

/-- The loop `for (const automation of automations)` (lines 500 to 540), from a state
reached so far. A TypeError from the conditions, or a rejected bookkeeping update,
leaves the loop for the `catch` of the enclosing `try`. -/
def forAutomations (f : Faults) (now : Nat) (task : Task) (triggerType userId : String)
    (conditions : Option EventConditions) : List Automation → RunResult → RunResult
  | [], r => r
  | automation :: rest, r =>
    match shouldRun triggerType conditions automation with
    | none => r
    | some false => forAutomations f now task triggerType userId conditions rest r
    | some true =>
      let db1 := executeAutomationAction f now automation task userId r.db
      if f.bookkeeping automation._id then
        { db := db1, executed := r.executed ++ [automation] }
      else
        forAutomations f now task triggerType userId conditions rest
          { db := Automation.findByIdAndUpdate db1 automation._id now,
            executed := r.executed ++ [automation] }

/-- The function `checkAndRunAutomationsForTask`. It never throws: a rejected rule
query and whatever leaves the loop end in the `catch`, which logs. -/
def checkAndRunAutomationsForTask (f : Faults) (now : Nat) (db : DB) (task : Task)
    (triggerType userId : String) (conditions : Option EventConditions) : RunResult :=
  if f.automationFind triggerType then { db := db }
  else
    let automations := Automation.find db task.project triggerType
    if automations.length = 0 then { db := db }
    else forAutomations f now task triggerType userId conditions automations { db := db }

/-! ## `updateTask` -/

/-- The body of `PUT /api/tasks/:id` as the controller destructures it. -/
structure UpdateBody where
  title : Option String := none
  description : Option String := none
  dueDate : Option String := none
  assigneeId : Option String := none
  status : Option String := none
  priority : Option String := none
  labels : Option (List String) := none
deriving DecidableEq, Repr

/-- The HTTP response: status code and, on success, the task sent back. -/
structure Response where
  status : Nat
  data : Option Task := none
deriving DecidableEq, Repr

/-- One call of the matcher made by a request: the trigger type and the conditions
object handed over. -/
structure MatcherCall where
  triggerType : String
  conditions : Option EventConditions
deriving DecidableEq, Repr

/-- What a request did: its response, the database it left, the matcher calls it made
and the automations handed to `executeAutomationAction`, both in order. -/
structure UpdateResult where
  response : Response
  db : DB
  calls : List MatcherCall := []
  executed : List Automation := []
deriving DecidableEq, Repr

/-- The route's validator `check('title').optional().not().isEmpty()`: a title that is
present must not be empty. -/
def validationErrors (body : UpdateBody) : Bool :=
  body.title == some ""

/-- The history records `updateTask` builds for title and status (lines 243 to 261). -/
def titleStatusHistory (task : Task) (body : UpdateBody) (user : String) (now : Nat) :
    List HistoryEntry :=
  (if truthy body.title && body.title != some task.title then
    [{ field := "title", oldValue := task.title, newValue := body.title.getD "",
       changedBy := user, changedAt := now }]
   else []) ++
  (if truthy body.status && body.status != some task.status then
    [{ field := "status", oldValue := task.status, newValue := body.status.getD "",
       changedBy := user, changedAt := now }]
   else [])

/-- The value of `resolvedAssigneeId` after lines 264 to 277, given what
`User.findOne` returned for a Firebase UID. -/
def resolveAssigneeId (db : DB) (assigneeId : Option String) : Option IdValue :=
  match assigneeId with
  | none => none
  | some s =>
    if truthy (some s) then
      if !(isObjectIdString s) then
        match User.findOne db s with
        | some assigneeUser => some (.oid assigneeUser._id)
        | none => none
      else some (.str s)
    else some (.str s)

/-- The test of line 279: the resolved assignee is truthy and the task has no
assignee or one printing differently. -/
def assigneeChanges (task : Task) (resolved : Option IdValue) : Bool :=
  match resolved with
  | none => false
  | some v =>
    idTruthy (some v) &&
      (match task.assignee with
       | none => true
       | some h => !(v.toString == h))

/-- The task object after lines 303 to 314. -/
def applyUpdate (task : Task) (body : UpdateBody) (resolved : Option IdValue)
    (history : List HistoryEntry) : Task :=
  { task with
    title := if truthy body.title then body.title.getD "" else task.title
    description := if body.description.isSome then body.description else task.description
    dueDate := if truthy body.dueDate then body.dueDate else task.dueDate
    assignee :=
      match resolved with
      | some v => if idTruthy (some v) then some v.stored else task.assignee
      | none => task.assignee
    status := if truthy body.status then body.status.getD "" else task.status
    priority := if truthy body.priority then body.priority.getD "" else task.priority
    labels := match body.labels with
      | some l => l
      | none => task.labels
    history := if history.length > 0 then task.history ++ history else task.history }

/-- Lines 324 to 347: the two guarded matcher calls, run on the reloaded task. -/
def runAutomations (f : Faults) (now : Nat) (db : DB) (task : Task) (user : String)
    (status : Option String) (previousStatus : String) (resolved : Option IdValue)
    (previousAssigneeId : Option String) : DB × List MatcherCall × List Automation :=
  let c1 : Option EventConditions :=
    some { fromStatus := some previousStatus, toStatus := status }
  let r1 : RunResult × List MatcherCall :=
    if truthy status && status != some previousStatus then
      (checkAndRunAutomationsForTask f now db task "taskStatusChange" user c1,
        [{ triggerType := "taskStatusChange", conditions := c1 }])
    else ({ db := db }, [])
  let c2 : Option EventConditions := some { assigneeId := resolved }
  let r2 : RunResult × List MatcherCall :=
    match resolved with
    | none => ({ db := r1.1.db }, [])
    | some v =>
      if idTruthy (some v) && strictNePrevious v previousAssigneeId then
        (checkAndRunAutomationsForTask f now r1.1.db task "taskAssigneeChange" user c2,
          [{ triggerType := "taskAssigneeChange", conditions := c2 }])
      else ({ db := r1.1.db }, [])
  (r2.1.db, r1.2 ++ r2.2, r1.1.executed ++ r2.1.executed)

/-- The handler `updateTask` for the request of user `user` on task `id`. Every
rejected store call before the automations ends in the handler's `catch` (500), with
the writes made before it kept. The reload cannot miss the document just saved; were
it `null`, the matcher would throw on `task.project` inside its own `try` before any
query and the response would carry `null`. -/
def updateTask (f : Faults) (now : Nat) (db : DB) (user id : String) (body : UpdateBody) :
    UpdateResult :=
  if validationErrors body then { response := { status := 400 }, db := db }
  else if f.taskFindById then { response := { status := 500 }, db := db }
  else
    match Task.findById db id with
    | none => { response := { status := 404 }, db := db }
    | some task =>
      if f.projectFindById then { response := { status := 500 }, db := db }
      else
        match Project.findById db task.project with
        | none => { response := { status := 404 }, db := db }
        | some project =>
          if truthy body.status && !(project.statuses.any (fun s => some s.name == body.status))
          then { response := { status := 400 }, db := db }
          else
            let previousStatus := task.status
            let previousAssigneeId := task.assignee
            let history0 := titleStatusHistory task body user now
            if truthy body.assigneeId && !(isObjectIdString (body.assigneeId.getD ""))
                && f.userFindOne then
              { response := { status := 500 }, db := db }
            else
              let resolved := resolveAssigneeId db body.assigneeId
              let changes := assigneeChanges task resolved
              let resolvedString := (resolved.map IdValue.toString).getD ""
              let history :=
                if changes then
                  history0 ++
                    [{ field := "assignee", oldValue := task.assignee.getD "Unassigned",
                       newValue := resolvedString, changedBy := user, changedAt := now }]
                else history0
              let notifies := changes && !(resolvedString == user)
              if notifies && f.assignNotification then
                { response := { status := 500 }, db := db }
              else
                let db1 :=
                  if notifies then
                    Notification.create db
                      { recipient := (resolved.map IdValue.stored).getD "", type := "info",
                        title := "Task Assigned",
                        message := "You have been assigned to \"" ++ task.title ++ "\"",
                        relatedTask := task._id, relatedProject := task.project,
                        createdBy := user }
                  else db
                if f.taskSave then { response := { status := 500 }, db := db1 }
                else
                  let db2 := Task.save db1 (applyUpdate task body resolved history)
                  if f.taskReload then { response := { status := 500 }, db := db2 }
                  else
                    match Task.findById db2 id with
                    | none => { response := { status := 200 }, db := db2 }
                    | some stored =>
                      let task2 := populateAssignee db2 stored
                      let r := runAutomations f now db2 task2 user body.status previousStatus
                        resolved previousAssigneeId
                      { response := { status := 200, data := some task2 },
                        db := r.1, calls := r.2.1, executed := r.2.2 }

/-! ## Vocabulary of the properties -/

/-- A condition of a rule is unset: the field is absent, or holds the empty string,
which the code's truthiness test treats the same way. -/
@[reducible] def unset (c : Option String) : Prop := c = none ∨ c = some ""

/-- The matcher decided to run the automation: `shouldRun` ended `true`. -/
def ruleMatches (triggerType : String) (conditions : Option EventConditions)
    (automation : Automation) : Bool :=
  shouldRun triggerType conditions automation == some true

/-- The conditions object `updateTask` passes for a status change. -/
def statusEvent (fromStatus toStatus : String) : Option EventConditions :=
  some { fromStatus := some fromStatus, toStatus := some toStatus }

/-- The conditions object `updateTask` passes for an assignee change. -/
def assigneeEvent (assigneeId : IdValue) : Option EventConditions :=
  some { assigneeId := some assigneeId }

/-- The stored automation documents carry pairwise distinct `_id`s. -/
@[reducible] def distinctAutomationIds (db : DB) : Prop :=
  (db.automations.map (fun a => a._id)).Nodup

/-- The stored automation with the given `_id`. -/
def Automation.findById (db : DB) (id : String) : Option Automation :=
  db.automations.find? (fun a => a._id == id)

/-- The history entries of a task that record a status change. -/
def statusEntries (h : List HistoryEntry) : List HistoryEntry :=
  h.filter (fun e => e.field == "status")

/-- The rule document after one bookkeeping update at time `now`. -/
def Automation.bumped (a : Automation) (now : Nat) : Automation :=
  { a with executionCount := a.executionCount + 1, lastExecuted := some now, updatedAt := now }

/-- The history records a request appends to the task (lines 241 to 287): those for
title and status, then the one for the assignee when it changes. -/
def requestHistory (db : DB) (task : Task) (body : UpdateBody) (user : String)
    (now : Nat) : List HistoryEntry :=
  if assigneeChanges task (resolveAssigneeId db body.assigneeId) then
    titleStatusHistory task body user now ++
      [{ field := "assignee", oldValue := task.assignee.getD "Unassigned",
         newValue := ((resolveAssigneeId db body.assigneeId).map IdValue.toString).getD "",
         changedBy := user, changedAt := now }]
  else titleStatusHistory task body user now

/-- The task document a request saves at line 317. -/
def savedTask (db : DB) (task : Task) (body : UpdateBody) (user : String) (now : Nat) :
    Task :=
  applyUpdate task body (resolveAssigneeId db body.assigneeId)
    (requestHistory db task body user now)

/-- The database once a request has notified the new assignee, if it had to, and saved
the task. -/
def afterSave (db : DB) (task : Task) (body : UpdateBody) (user : String) (now : Nat) :
    DB :=
  Task.save
    (if assigneeChanges task (resolveAssigneeId db body.assigneeId) &&
        !(((resolveAssigneeId db body.assigneeId).map IdValue.toString).getD "" == user) then
      Notification.create db
        { recipient := ((resolveAssigneeId db body.assigneeId).map IdValue.stored).getD "",
          type := "info", title := "Task Assigned",
          message := "You have been assigned to \"" ++ task.title ++ "\"",
          relatedTask := task._id, relatedProject := task.project, createdBy := user }
     else db)
    (savedTask db task body user now)

/-- Faults in which every store call made for the automations rejects: the rule query,
each action write and each bookkeeping update. -/
def failAllAutomationCalls : Faults :=
  { automationFind := fun _ => true, taskUpdate := fun _ => true,
    userUpdate := fun _ => true, notificationCreate := fun _ => true,
    bookkeeping := fun _ => true }

/-- Two task documents agree in every field but `status` and `history`. -/
def Task.agreesButStatusHistory (t t2 : Task) : Prop :=
  t2._id = t._id ∧ t2.title = t.title ∧ t2.description = t.description ∧
    t2.project = t.project ∧ t2.reporter = t.reporter ∧ t2.assignee = t.assignee ∧
    t2.priority = t.priority ∧ t2.dueDate = t.dueDate ∧ t2.labels = t.labels

/-- Two user documents agree in every field but `badges` and the `updatedAt` stamp. -/
def User.agreesButBadgesAndStamp (u u2 : User) : Prop :=
  u2._id = u._id ∧ u2.name = u.name ∧ u2.email = u.email ∧
    u2.firebaseUid = u.firebaseUid ∧ u2.photoURL = u.photoURL

/-- Two automation documents agree in every field but `executionCount`,
`lastExecuted` and the `updatedAt` stamp. -/
def Automation.agreesButBookkeeping (a a2 : Automation) : Prop :=
  a2._id = a._id ∧ a2.name = a.name ∧ a2.project = a.project ∧
    a2.createdBy = a.createdBy ∧ a2.active = a.active ∧ a2.trigger = a.trigger ∧
    a2.action = a.action

/-- What may differ between a stored task before and after a matcher call for the
task with `_id` `target`: nothing if it is another task, status and history if it is
that task. -/
def taskFrame (target : String) (t t2 : Task) : Prop :=
  Task.agreesButStatusHistory t t2 ∧ (t._id ≠ target → t2 = t)

/-- What may differ between a stored user before and after a matcher call for a task
with the given assignee: nothing if it is another user, the badges and the `updatedAt`
stamp if it is the assignee. -/
def userFrame (assignee : Option String) (u u2 : User) : Prop :=
  User.agreesButBadgesAndStamp u u2 ∧ (some u._id ≠ assignee → u2 = u)

/-- The frame of a matcher call for `task`: the second database differs from the first
at most in the status and history of that task, the badges and `updatedAt` stamp of its
assignee, added notifications, and the bookkeeping fields and `updatedAt` stamp of
rules; documents keep their places. -/
structure Frame (task : Task) (db db2 : DB) : Prop where
  projects : db2.projects = db.projects
  tasks : List.Forall₂ (taskFrame task._id) db.tasks db2.tasks
  users : List.Forall₂ (userFrame task.assignee) db.users db2.users
  automations : List.Forall₂ Automation.agreesButBookkeeping db.automations db2.automations
  notifications : db.notifications <+: db2.notifications

/-- The action of the rule is one of the no-ops the executor defines for the task:
changeTaskStatus without a status, assignBadge or sendNotification on a task without
assignee, or an action type the `switch` does not know. -/
def isNoOp (a : Automation) (task : Task) : Bool :=
  (a.action.type == "changeTaskStatus" && !(truthy a.action.params.status)) ||
    (a.action.type == "assignBadge" && task.assignee.isNone) ||
    (a.action.type == "sendNotification" && task.assignee.isNone) ||
    !(["changeTaskStatus", "assignBadge", "sendNotification"].contains a.action.type)

/-- The execution count of the second document is not below that of the first. -/
def Automation.countLe (a a2 : Automation) : Prop :=
  a.executionCount ≤ a2.executionCount

/-- One matched rule served by the loop: its action executed once, then its one
bookkeeping update. -/
def serveRule (f : Faults) (now : Nat) (task : Task) (userId : String) (db : DB)
    (a : Automation) : DB :=
  Automation.findByIdAndUpdate (executeAutomationAction f now a task userId db) a._id now

/-- The action of the rule writes a status: type changeTaskStatus with a non-empty
`params.status`. -/
def writesStatus (a : Automation) : Bool :=
  a.action.type == "changeTaskStatus" && truthy a.action.params.status

/-- The history entries the given rules push when each is executed once for `task`, in
order: one entry for each rule that writes a status. -/
def statusWrites (now : Nat) (task : Task) (userId : String) (rules : List Automation) :
    List HistoryEntry :=
  (rules.filter writesStatus).map
    (fun a =>
      { field := "status", oldValue := task.status,
        newValue := a.action.params.status.getD "", changedBy := userId, changedAt := now })

/-- The stored user with the given `_id`. -/
def User.findById (db : DB) (id : String) : Option User :=
  db.users.find? (fun u => u._id == id)

/-! ## `createAutomation` and `updateAutomation` -/

/-- The property `trigger` of a request body. -/
structure TriggerBody where
  type : Option String := none
  conditions : Option TriggerConditions := none
deriving DecidableEq, Repr

/-- The property `action` of a request body. -/
structure ActionBody where
  type : Option String := none
  params : Option ActionParams := none
deriving DecidableEq, Repr

/-- The body of `POST /api/automations` and of `PUT /api/automations/:id` as the
controllers destructure it. -/
structure AutomationBody where
  name : Option String := none
  projectId : Option String := none
  trigger : Option TriggerBody := none
  action : Option ActionBody := none
  active : Option Bool := none
deriving DecidableEq, Repr

/-- What an automation request did: the status code, the document sent back and the
database it left. -/
structure AutomationResult where
  status : Nat
  data : Option Automation := none
  db : DB
deriving DecidableEq, Repr

/-- White space as `String.prototype.trim` removes it. -/
def isJsWhiteSpace (c : Char) : Bool :=
  [9, 10, 11, 12, 13, 32, 160, 5760, 8192, 8193, 8194, 8195, 8196, 8197, 8198, 8199, 8200,
    8201, 8202, 8232, 8233, 8239, 8287, 12288, 65279].contains c.toNat

/-- The schema option `trim: true` of the `name` path. -/
def jsTrim (s : String) : String :=
  String.mk ((((s.data.dropWhile isJsWhiteSpace).reverse).dropWhile isJsWhiteSpace).reverse)

/-- The sub-document mongoose builds from a request's `trigger`. -/
def Trigger.ofBody (t : TriggerBody) : Trigger :=
  { type := t.type.getD "", conditions := t.conditions.getD {} }

/-- The sub-document mongoose builds from a request's `action`. -/
def Action.ofBody (a : ActionBody) : Action :=
  { type := a.type.getD "", params := a.params.getD {} }

/-- The validators of `models/Automation.js` run by `save()`: `name` required, the
enums of `trigger.type`, `action.type` and `action.params.notificationType`. -/
def schemaErrors (a : Automation) : Bool :=
  a.name == "" ||
    !(["taskStatusChange", "taskAssigneeChange", "taskDueDatePassed"].contains a.trigger.type) ||
    !(["changeTaskStatus", "assignBadge", "sendNotification"].contains a.action.type) ||
    (match a.action.params.notificationType with
     | some t => !(["info", "warning", "success"].contains t)
     | none => false)

/-- The validators of the POST route: `name`, `projectId`, `trigger.type` and
`action.type` not empty, `trigger` and `action` objects. -/
def createValidationErrors (body : AutomationBody) : Bool :=
  !(truthy body.name) || !(truthy body.projectId) ||
    (match body.trigger with
     | some t => !(truthy t.type)
     | none => true) ||
    (match body.action with
     | some a => !(truthy a.type)
     | none => true)

/-- The test `action.type === 'changeTaskStatus' && action.params &&
action.params.status` followed by the failed lookup of that status among the project's
statuses (lines 102 to 104 and 176 to 178). -/
def namesUnknownStatus (project : Project) (action : ActionBody) : Bool :=
  action.type == some "changeTaskStatus" &&
    (match action.params with
     | some p => truthy p.status && !(project.statuses.any (fun s => some s.name == p.status))
     | none => false)

/-- The handler `createAutomation` for the request of user `user` at time `now`;
`newId` is the `_id` mongoose gives the new document, which `save()` stamps with the
time. A rejected store call or a schema error ends in the handler's `catch` (500). -/
def createAutomation (f : Faults) (now : Nat) (db : DB) (user newId : String)
    (body : AutomationBody) :
    AutomationResult :=
  if createValidationErrors body then { status := 400, db := db }
  else if f.projectFindById then { status := 500, db := db }
  else
    match Project.findById db (body.projectId.getD "") with
    | none => { status := 404, db := db }
    | some project =>
      match body.action, body.trigger with
      | some action, some trigger =>
        if namesUnknownStatus project action then { status := 400, db := db }
        else
          let newAutomation : Automation :=
            { _id := newId, name := jsTrim (body.name.getD ""),
              project := body.projectId.getD "", createdBy := user,
              active := match body.active with
                | some b => b
                | none => true
              trigger := Trigger.ofBody trigger, action := Action.ofBody action,
              executionCount := 0, lastExecuted := none, updatedAt := now }
          if schemaErrors newAutomation || f.automationSave then { status := 500, db := db }
          else
            let db1 : DB := { db with automations := db.automations ++ [newAutomation] }
            if f.automationReload then { status := 500, db := db1 }
            else { status := 201, data := Automation.findById db1 newId, db := db1 }
      | _, _ => { status := 500, db := db }

/-- The handler `updateAutomation` for the automation `id` at time `now`. The PUT
route declares no validators, so `validationResult` is empty. The `save()` stamps the
document with the time when one of its fields changed. -/
def updateAutomation (f : Faults) (now : Nat) (db : DB) (id : String)
    (body : AutomationBody) :
    AutomationResult :=
  if f.automationFindById then { status := 500, db := db }
  else
    match Automation.findById db id with
    | none => { status := 404, db := db }
    | some automation =>
      if f.projectFindById then { status := 500, db := db }
      else
        match Project.findById db automation.project with
        | none => { status := 404, db := db }
        | some project =>
          if (match body.action with
              | some action => namesUnknownStatus project action
              | none => false)
          then { status := 400, db := db }
          else
            let updated : Automation :=
              { automation with
                name := if truthy body.name then jsTrim (body.name.getD "")
                        else automation.name
                trigger := match body.trigger with
                  | some t => Trigger.ofBody t
                  | none => automation.trigger
                action := match body.action with
                  | some a => Action.ofBody a
                  | none => automation.action
                active := match body.active with
                  | some b => b
                  | none => automation.active }
            if schemaErrors updated || f.automationSave then { status := 500, db := db }
            else
              let saved : Automation :=
                if updated = automation then updated else { updated with updatedAt := now }
              let db1 : DB :=
                { db with automations :=
                    updateFirst (fun a => a._id == id) (fun _ => saved) db.automations }
              if f.automationReload then { status := 500, db := db1 }
              else { status := 200, data := Automation.findById db1 id, db := db1 }

/-! ## `createTask` -/

/-- The body of `POST /api/tasks` as the controller destructures it. -/
structure CreateBody where
  title : Option String := none
  description : Option String := none
  dueDate : Option String := none
  assigneeId : Option String := none
  projectId : Option String := none
  status : Option String := none
  priority : Option String := none
  labels : Option (List String) := none
deriving DecidableEq, Repr

/-- The validators of the POST route: `title` and `projectId` not empty. -/
def createTaskValidationErrors (body : CreateBody) : Bool :=
  !(truthy body.title) || !(truthy body.projectId)

/-- The value of `taskStatus` at line 80:
`status || project.statuses[0]?.name || 'To Do'`. -/
def defaultedStatus (project : Project) (status : Option String) : String :=
  if truthy status then status.getD ""
  else
    match project.statuses with
    | first :: _ => if truthy (some first.name) then first.name else "To Do"
    | [] => "To Do"

/-- The value of `newTask.assignee` after lines 96 to 110. -/
def createdAssignee (db : DB) (assigneeId : Option String) : Option String :=
  match assigneeId with
  | none => none
  | some s =>
    if truthy (some s) then
      if !(isObjectIdString s) then
        match User.findOne db s with
        | some assigneeUser => some assigneeUser._id
        | none => none
      else some (castObjectId s)
    else none

/-- The document `createTask` builds (lines 83 to 112); `newId` is the `_id` mongoose
gives it. -/
def newTaskOf (db : DB) (project : Project) (user newId : String) (body : CreateBody) :
    Task :=
  { _id := newId, title := body.title.getD "", description := body.description,
    project := body.projectId.getD "", reporter := user,
    assignee := createdAssignee db body.assigneeId,
    status := defaultedStatus project body.status,
    priority := if truthy body.priority then body.priority.getD "" else "Medium",
    dueDate := if truthy body.dueDate then body.dueDate else none,
    labels := body.labels.getD [], history := [] }

/-- The handler `createTask` for the request of user `user`. Every rejected store call
ends in the handler's `catch` (500), with the writes made before it kept. -/
def createTask (f : Faults) (now : Nat) (db : DB) (user newId : String) (body : CreateBody) :
    UpdateResult :=
  if createTaskValidationErrors body then { response := { status := 400 }, db := db }
  else if f.projectFindById then { response := { status := 500 }, db := db }
  else
    match Project.findById db (body.projectId.getD "") with
    | none => { response := { status := 404 }, db := db }
    | some project =>
      if !(project.statuses.any (fun s => some s.name == body.status)) && truthy body.status
      then { response := { status := 400 }, db := db }
      else if truthy body.assigneeId && !(isObjectIdString (body.assigneeId.getD ""))
          && f.userFindOne then
        { response := { status := 500 }, db := db }
      else
        let newTask := newTaskOf db project user newId body
        if f.taskSave then { response := { status := 500 }, db := db }
        else
          let db1 : DB := { db with tasks := db.tasks ++ [newTask] }
          if f.taskReload then { response := { status := 500 }, db := db1 }
          else
            match Task.findById db1 newId with
            | none => { response := { status := 500 }, db := db1 }
            | some stored =>
              let task := populateAssignee db1 stored
              let run := checkAndRunAutomationsForTask f now db1 task "taskCreated" user none
              let call : MatcherCall := { triggerType := "taskCreated", conditions := none }
              let notifies :=
                match newTask.assignee with
                | some h => !(h == user)
                | none => false
              if notifies && f.assignNotification then
                { response := { status := 500 }, db := run.db, calls := [call],
                  executed := run.executed }
              else
                { response := { status := 201, data := some task },
                  db := if notifies then
                      Notification.create run.db
                        { recipient := newTask.assignee.getD "", type := "info",
                          title := "New Task Assigned",
                          message := "You have been assigned to \"" ++ body.title.getD "" ++ "\"",
                          relatedTask := newId, relatedProject := body.projectId.getD "",
                          createdBy := user }
                    else run.db,
                  calls := [call], executed := run.executed }

/-! ## The handlers of `server/controllers/projects.js` -/

/-- What a project request did: the status code, the project sent back and the
database it left. -/
structure ProjectResult where
  status : Nat
  data : Option Project := none
  db : DB
deriving DecidableEq, Repr

/-- The setters `trim: true` and `lowercase: true` of the `email` path of
`models/User.js`, which mongoose also applies to the value of a query; letters outside
ASCII are left as they are. -/
def emailSetter (email : String) : String :=
  String.mk ((jsTrim email).data.map Char.toLower)

/-- The call `User.findOne({ email })`. -/
def User.findByEmail (db : DB) (email : String) : Option User :=
  db.users.find? (fun u => u.email == emailSetter email)

/-- The call `project.save()` for a stored project: the document with the project's
`_id` is replaced. -/
def Project.save (db : DB) (p : Project) : DB :=
  { db with projects := updateFirst (fun x => x._id == p._id) (fun _ => p) db.projects }

/-- The comparison behind `statuses.sort((a, b) => a.order - b.order)`. -/
def Status.le (a b : Status) : Prop := a.order ≤ b.order

instance Status.decidableLe : DecidableRel Status.le :=
  fun a b => inferInstanceAs (Decidable (a.order ≤ b.order))

instance Status.le_total : IsTotal Status Status.le :=
  ⟨fun a b => Int.le_total a.order b.order⟩

instance Status.le_trans : IsTrans Status Status.le :=
  ⟨fun _ _ _ h1 h2 => Int.le_trans h1 h2⟩

/-- The call `statuses.sort((a, b) => a.order - b.order)`: ascending by `order`,
statuses of equal order keeping their places. -/
def sortStatuses (l : List Status) : List Status :=
  List.insertionSort Status.le l

/-- The three default statuses the `pre('save')` hook gives a new project without
statuses; `ids` are the `_id`s mongoose gives them. -/
def defaultStatuses (ids : String × String × String) : List Status :=
  [{ _id := ids.1, name := "To Do", color := "#FF5630", order := 0 },
   { _id := ids.2.1, name := "In Progress", color := "#FFAB00", order := 1 },
   { _id := ids.2.2, name := "Done", color := "#36B37E", order := 2 }]

/-- The handler `createProject` for the request of user `user`, with the hook
`ProjectSchema.pre('save')` run by its `save()`: a new project gets the default
statuses and its owner as only member, with role 'owner'. -/
def createProject (f : Faults) (db : DB) (user newId : String)
    (statusIds : String × String × String) (title description : Option String) :
    ProjectResult :=
  if !(truthy title) then { status := 400, db := db }
  else if jsTrim (title.getD "") == "" || f.projectSave then { status := 500, db := db }
  else
    let project : Project :=
      { _id := newId, title := jsTrim (title.getD ""),
        description := description.map jsTrim, owner := user,
        members := [{ user := user, role := "owner" }],
        statuses := defaultStatuses statusIds }
    { status := 201, data := some project,
      db := { db with projects := db.projects ++ [project] } }

/-- The notification the member handlers create: they give no task and no creator. -/
def memberNotice (recipient title message project : String) : Notification :=
  { recipient := recipient, type := "project_invite", title := title, message := message,
    relatedTask := "", relatedProject := project, createdBy := "" }

/-- The handler `inviteProjectMember` for project `id`. The route's validators are
`isEmail` on the e-mail, given here as a parameter, and role in admin or member. A
project that is not found makes the handler throw on `project.members`. -/
def inviteProjectMember (f : Faults) (isEmail : String → Bool) (db : DB)
    (id email role : String) : ProjectResult :=
  if !(isEmail email) || !(["admin", "member"].contains role) then { status := 400, db := db }
  else if f.projectFindById then { status := 500, db := db }
  else if f.userFindByEmail then { status := 500, db := db }
  else
    match Project.findById db id with
    | none => { status := 500, db := db }
    | some project =>
      match User.findByEmail db email with
      | some user =>
        if project.members.any (fun m => m.user == user._id) then { status := 400, db := db }
        else if f.memberNotification then { status := 500, db := db }
        else
          let db1 := Notification.create db
            (memberNotice user._id "New Project Invitation"
              ("You have been added to project \"" ++ project.title ++ "\" as a " ++ role)
              project._id)
          let project1 : Project :=
            { project with members := project.members ++ [{ user := user._id, role := role }] }
          if f.projectSave then { status := 500, db := db1 }
          else { status := 200, data := some project1, db := Project.save db1 project1 }
      | none =>
        let project1 : Project :=
          { project with
            pendingInvites := project.pendingInvites ++ [{ email := email, role := role }] }
        if f.projectSave then { status := 500, db := db }
        else { status := 200, data := some project1, db := Project.save db project1 }

/-- The handler `removeProjectMember` for project `id` and the user named in the
path. -/
def removeProjectMember (f : Faults) (db : DB) (id userId : String) : ProjectResult :=
  if f.projectFindById then { status := 500, db := db }
  else
    match Project.findById db id with
    | none => { status := 500, db := db }
    | some project =>
      if project.owner == userId then { status := 400, db := db }
      else
        let project1 : Project :=
          { project with members := project.members.filter (fun m => !(m.user == userId)) }
        if f.projectSave then { status := 500, db := db }
        else
          let db1 := Project.save db project1
          if f.memberNotification then { status := 500, db := db1 }
          else
            { status := 200, data := some project1,
              db := Notification.create db1
                (memberNotice userId "Project Membership Removed"
                  ("You have been removed from project \"" ++ project.title ++ "\"")
                  project._id) }

/-- The handler `updateMemberRole` for project `id` and the user named in the path.
The route's validator is role in admin or member. -/
def updateMemberRole (f : Faults) (db : DB) (id userId role : String) : ProjectResult :=
  if !(["admin", "member"].contains role) then { status := 400, db := db }
  else if f.projectFindById then { status := 500, db := db }
  else
    match Project.findById db id with
    | none => { status := 500, db := db }
    | some project =>
      if project.owner == userId then { status := 400, db := db }
      else if !(project.members.any (fun m => m.user == userId)) then
        { status := 404, db := db }
      else
        let project1 : Project :=
          { project with
            members := updateFirst (fun m => m.user == userId)
              (fun m => { m with role := role }) project.members }
        if f.projectSave then { status := 500, db := db }
        else
          let db1 := Project.save db project1
          if f.memberNotification then { status := 500, db := db1 }
          else
            { status := 200, data := some project1,
              db := Notification.create db1
                (memberNotice userId "Project Role Updated"
                  ("Your role in project \"" ++ project.title ++ "\" has been changed to " ++
                    role)
                  project._id) }

/-- The body of the status requests; `order` is an integer when it is numeric. -/
structure StatusBody where
  name : Option String := none
  color : Option String := none
  order : Option Int := none
deriving DecidableEq, Repr

/-- The handler `createProjectStatus` for project `id`; `newId` is the `_id` mongoose
gives the new status. The route's validators are name and color not empty and a
numeric order; the schema trims the name and requires it on save. -/
def createProjectStatus (f : Faults) (db : DB) (id newId : String) (body : StatusBody) :
    ProjectResult :=
  if !(truthy body.name) || !(truthy body.color) || body.order.isNone then
    { status := 400, db := db }
  else if f.projectFindById then { status := 500, db := db }
  else
    match Project.findById db id with
    | none => { status := 500, db := db }
    | some project =>
      if project.statuses.any (fun s => some s.name == body.name) then
        { status := 400, db := db }
      else
        let added : Status :=
          { _id := newId, name := jsTrim (body.name.getD ""), color := body.color.getD "",
            order := body.order.getD 0 }
        let project1 : Project :=
          { project with statuses := sortStatuses (project.statuses ++ [added]) }
        if added.name == "" || f.projectSave then { status := 500, db := db }
        else { status := 201, data := some project1, db := Project.save db project1 }

/-- The handler `updateProjectStatus` for project `id` and the status named in the
path. The route declares no validators. -/
def updateProjectStatus (f : Faults) (db : DB) (id statusId : String) (body : StatusBody) :
    ProjectResult :=
  if f.projectFindById then { status := 500, db := db }
  else
    match Project.findById db id with
    | none => { status := 500, db := db }
    | some project =>
      if !(project.statuses.any (fun s => s._id == statusId)) then
        { status := 404, db := db }
      else
        let changed := updateFirst (fun s => s._id == statusId)
          (fun s =>
            { s with
              name := if truthy body.name then jsTrim (body.name.getD "") else s.name
              color := if truthy body.color then body.color.getD "" else s.color
              order := match body.order with
                | some o => o
                | none => s.order })
          project.statuses
        let project1 : Project :=
          { project with
            statuses := if body.order.isSome then sortStatuses changed else changed }
        if project1.statuses.any (fun s => s.name == "") || f.projectSave then
          { status := 500, db := db }
        else { status := 200, data := some project1, db := Project.save db project1 }

/-- The call `Task.countDocuments({ project, status })`. -/
def Task.countDocuments (db : DB) (project status : String) : Nat :=
  (db.tasks.filter (fun t => t.project == project && t.status == status)).length

/-- The handler `deleteProjectStatus` for project `id` and the status named in the
path. -/
def deleteProjectStatus (f : Faults) (db : DB) (id statusId : String) : ProjectResult :=
  if f.projectFindById then { status := 500, db := db }
  else
    match Project.findById db id with
    | none => { status := 500, db := db }
    | some project =>
      let statusName := (project.statuses.find? (fun s => s._id == statusId)).map
        (fun s => s.name)
      if truthy statusName && f.taskCount then { status := 500, db := db }
      else if truthy statusName &&
          decide (Task.countDocuments db project._id (statusName.getD "") > 0) then
        { status := 400, db := db }
      else
        let project1 : Project :=
          { project with statuses := project.statuses.filter (fun s => !(s._id == statusId)) }
        if f.projectSave then { status := 500, db := db }
        else { status := 200, data := some project1, db := Project.save db project1 }

/-- A request to one of the three member handlers. -/
inductive MemberRequest where
  | invite (email role : String)
  | remove (userId : String)
  | updateRole (userId role : String)
deriving DecidableEq, Repr

/-- The database left by one member request, sent for project `id` while the store
calls fail as `f` says. -/
def MemberRequest.run (isEmail : String → Bool) (db : DB) :
    Faults × String × MemberRequest → DB
  | (f, id, MemberRequest.invite email role) =>
    (inviteProjectMember f isEmail db id email role).db
  | (f, id, MemberRequest.remove userId) => (removeProjectMember f db id userId).db
  | (f, id, MemberRequest.updateRole userId role) => (updateMemberRole f db id userId role).db

/-- The database left by a sequence of member requests, first to last. -/
def runMemberRequests (isEmail : String → Bool) (db : DB)
    (requests : List (Faults × String × MemberRequest)) : DB :=
  requests.foldl (MemberRequest.run isEmail) db

/-- The owner is listed as member with role 'owner' and no user is listed twice. -/
@[reducible] def goodMembers (p : Project) : Prop :=
  ({ user := p.owner, role := "owner" } : Member) ∈ p.members ∧
  (p.members.map (fun m => m.user)).Nodup

/-- What a member handler does to the stored projects: nothing, or it saves the
project it found with the same `_id` and owner and members that are still good. -/
def memberStep (db : DB) (id : String) (db1 : DB) : Prop :=
  db1.projects = db.projects ∨
  ∃ project p1, Project.findById db id = some project ∧ p1._id = project._id ∧
    p1.owner = project.owner ∧ (goodMembers project → goodMembers p1) ∧
    db1.projects = (Project.save db p1).projects

/-! ## `projectAdmin` and the routes of `server/routes/automations.js` -/

/-- The flag `TESTING_MODE` of `middleware/auth.js`. -/
def TESTING_MODE : Bool := false

/-- What a middleware did with the request: it called `next()`, or it sent a response
with a status code and an error text. -/
inductive Gate where
  | next
  | sent (status : Nat) (error : String)
deriving DecidableEq, Repr

/-- The middleware `projectAdmin` for the user `user`; `paramsId` is `req.params.id`,
`bodyProjectId` and `bodyProject` are `req.body.projectId` and `req.body.project`. -/
def projectAdmin (f : Faults) (db : DB) (user : String)
    (paramsId bodyProjectId bodyProject : Option String) : Gate :=
  if TESTING_MODE then Gate.next
  else
    let projectId :=
      if truthy paramsId then paramsId
      else if truthy bodyProjectId then bodyProjectId
      else bodyProject
    if !(truthy projectId) then Gate.sent 400 "Project ID is required"
    else if f.projectFindById then Gate.sent 500 "Server error"
    else
      match Project.findById db (projectId.getD "") with
      | none => Gate.sent 404 "Project not found"
      | some project =>
        if project.members.any
            (fun m => m.user == user && (m.role == "admin" || m.role == "owner")) then
          Gate.next
        else
          Gate.sent 403
            "Not authorized. Only project admins and owners can perform this action"

/-- The handler `toggleAutomationStatus` for the automation `id` at time `now`; the
`save()` stamps the document with the time. -/
def toggleAutomationStatus (f : Faults) (now : Nat) (db : DB) (id : String) :
    AutomationResult :=
  if f.automationFindById then { status := 500, db := db }
  else
    match Automation.findById db id with
    | none => { status := 404, db := db }
    | some automation =>
      let toggled : Automation :=
        { automation with active := !automation.active, updatedAt := now }
      if f.automationSave then { status := 500, db := db }
      else
        let saved := updateFirst (fun a => a._id == id) (fun _ => toggled) db.automations
        { status := 200, data := some toggled, db := { db with automations := saved } }

/-- The handler `deleteAutomation` for the automation `id` and the user `user`. A
project that is not found makes the handler throw on `project.members`. -/
def deleteAutomation (f : Faults) (db : DB) (user id : String) : AutomationResult :=
  if f.automationFindById then { status := 500, db := db }
  else
    match Automation.findById db id with
    | none => { status := 404, db := db }
    | some automation =>
      if f.projectFindById then { status := 500, db := db }
      else
        match Project.findById db automation.project with
        | none => { status := 500, db := db }
        | some project =>
          if !(project.members.any
              (fun m => m.user == user && (m.role == "admin" || m.role == "owner"))) then
            { status := 403, db := db }
          else if f.automationRemove then { status := 500, db := db }
          else
            let kept := db.automations.filter (fun a => !(a._id == automation._id))
            { status := 200, db := { db with automations := kept } }

/-- A route that runs `projectAdmin` and then its handler: the handler runs when the
middleware calls `next()`, otherwise the response is the middleware's. -/
def behindProjectAdmin (f : Faults) (db : DB) (user : String)
    (paramsId bodyProjectId bodyProject : Option String) (handler : AutomationResult) :
    AutomationResult :=
  match projectAdmin f db user paramsId bodyProjectId bodyProject with
  | Gate.next => handler
  | Gate.sent status _ => { status := status, db := db }

/-- The route `PUT /api/automations/:id/toggle` for the user `user`. -/
def putToggle (f : Faults) (now : Nat) (db : DB) (user id : String)
    (bodyProjectId bodyProject : Option String) : AutomationResult :=
  behindProjectAdmin f db user (some id) bodyProjectId bodyProject
    (toggleAutomationStatus f now db id)

/-- The route `PUT /api/automations/:id` for the user `user`. -/
def putAutomation (f : Faults) (now : Nat) (db : DB) (user id : String)
    (body : AutomationBody)
    (bodyProject : Option String) : AutomationResult :=
  behindProjectAdmin f db user (some id) body.projectId bodyProject
    (updateAutomation f now db id body)

/-- The route `DELETE /api/automations/:id` for the user `user`. -/
def deleteAutomationRoute (f : Faults) (db : DB) (user id : String)
    (bodyProjectId bodyProject : Option String) : AutomationResult :=
  behindProjectAdmin f db user (some id) bodyProjectId bodyProject
    (deleteAutomation f db user id)

/-! ## The middleware `processTaskStatusChange` of `middleware/automationProcessor.js` -/

/-- The request on its way through a middleware: the database and how often `next`
has been called. -/
structure Passage where
  db : DB
  nextCalls : Nat := 0
deriving DecidableEq, Repr

/-- The call `next()`. -/
def Passage.next (s : Passage) : Passage := { s with nextCalls := s.nextCalls + 1 }

/-- What the rule loop works on: the task document in memory and the database. -/
structure Progress where
  task : Task
  db : DB
deriving DecidableEq, Repr

/-- How the statements for one rule, or the whole loop, ended: at their end, or by
throwing. -/
inductive Flow where
  | done (p : Progress)
  | threw (p : Progress)
deriving DecidableEq, Repr

/-- How the `try` block ended: by `return` or at its end, or by throwing. -/
inductive Ended where
  | returned (s : Passage)
  | threw (s : Passage)
deriving DecidableEq, Repr

/-- The loop `for (const automation of automations)` of lines 40 to 145. The
statements for one rule are the function `rule`: they hold no `return` and no call of
`next`, so they end or throw, with whatever they did to the task and the database. -/
def forRules (rule : Automation → Progress → Flow) : List Automation → Progress → Flow
  | [], p => Flow.done p
  | a :: rest, p =>
    match rule a p with
    | Flow.done p1 => forRules rule rest p1
    | Flow.threw p1 => Flow.threw p1

/-- The `try` block of `processTaskStatusChange`. `paramsId`, `bodyTaskId` and
`newStatus` are `req.params.id`, `req.body.taskId` and `req.body.status`, the body
being an object as `express.json()` leaves it; `found` is what the rule query
resolves to, and `rule oldStatus` stands for the statements of the loop. -/
def processTaskStatusChangeTry (f : Faults) (db : DB)
    (paramsId bodyTaskId newStatus : Option String) (found : List Automation)
    (rule : String → Automation → Progress → Flow) : Ended :=
  let taskId := if truthy paramsId then paramsId else bodyTaskId
  let s : Passage := { db := db }
  if f.taskFindById then Ended.threw s
  else
    match taskId.bind (Task.findById db) with
    | none => Ended.returned s.next
    | some task =>
      if some task.status == newStatus then Ended.returned s.next
      else if f.automationFind "taskStatusChanged" then Ended.threw s
      else if found.length == 0 then Ended.returned s.next
      else
        match forRules (rule task.status) found { task := task, db := db } with
        | Flow.done p => Ended.returned (Passage.next { db := p.db })
        | Flow.threw p => Ended.threw { db := p.db }

/-- What the middleware did: the request as it left it, and whether an error reached
the caller. -/
structure Continued where
  passage : Passage
  raised : Bool
deriving DecidableEq, Repr

/-- The middleware `processTaskStatusChange`: the `try` block, and the `catch` block
that logs the error and calls `next()`. -/
def processTaskStatusChange (f : Faults) (db : DB)
    (paramsId bodyTaskId newStatus : Option String) (found : List Automation)
    (rule : String → Automation → Progress → Flow) : Continued :=
  match processTaskStatusChangeTry f db paramsId bodyTaskId newStatus found rule with
  | Ended.returned s => { passage := s, raised := false }
  | Ended.threw s => { passage := s.next, raised := false }

/-! ## A sample board -/

/-- The acting user. -/
def alice : User :=
  { _id := "aaaaaaaaaaaaaaaaaaaaaaaa", name := "Alice", email := "alice@example.org",
    firebaseUid := "uid-alice" }

/-- A second user, known to Firebase as `uid-bob`. -/
def bob : User :=
  { _id := "bbbbbbbbbbbbbbbbbbbbbbbb", name := "Bob", email := "bob@example.org",
    firebaseUid := "uid-bob" }

/-- A project with the three default statuses. -/
def board : Project :=
  { _id := "111111111111111111111111", title := "Board", owner := alice._id,
    members := [{ user := alice._id, role := "owner" }],
    statuses := [{ _id := "5100000000000000000000a0", name := "To Do", order := 0 },
                 { _id := "5100000000000000000000a1", name := "In Progress", order := 1 },
                 { _id := "5100000000000000000000a2", name := "Done", order := 2 }] }

/-- An unassigned task of the board, in status "To Do". -/
def fixBug : Task :=
  { _id := "222222222222222222222222", title := "Fix bug", project := board._id,
    reporter := alice._id, status := "To Do" }

/-- The same task once moved to "Done". -/
def fixBugDone : Task := { fixBug with status := "Done" }

/-- The same task assigned to Bob. -/
def fixBugOfBob : Task := { fixBug with assignee := some bob._id }

/-- Status rule: from "To Do" to "Done", awards a badge. -/
def rDone : Automation :=
  { _id := "3000000000000000000000d1", name := "finisher", project := board._id,
    createdBy := alice._id,
    trigger := { type := "taskStatusChange",
                 conditions := { fromStatus := some "To Do", toStatus := some "Done" } },
    action := { type := "assignBadge", params := { badgeName := some "task_master" } } }

/-- Status rule with both conditions unset, sends a notification. -/
def rAny : Automation :=
  { _id := "3000000000000000000000d2", name := "any move", project := board._id,
    createdBy := alice._id,
    trigger := { type := "taskStatusChange" },
    action := { type := "sendNotification",
                params := { notificationMessage := some "A task moved" } } }

/-- An inactive copy of the wildcard status rule. -/
def rOff : Automation :=
  { rAny with _id := "3000000000000000000000d3", name := "switched off", active := false }

/-- A wildcard status rule of another project. -/
def rElsewhere : Automation :=
  { rAny with _id := "3000000000000000000000d4", name := "elsewhere",
              project := "999999999999999999999999" }

/-- Due-date rule whose conditions nevertheless name statuses and an assignee. -/
def rDue : Automation :=
  { _id := "3000000000000000000000d5", name := "overdue", project := board._id,
    createdBy := alice._id,
    trigger := { type := "taskDueDatePassed",
                 conditions := { fromStatus := some "To Do", toStatus := some "Done",
                                 assigneeId := some bob._id } },
    action := { type := "changeTaskStatus", params := { status := some "To Do" } } }

/-- Assignee rule for Bob, awards a badge. -/
def rBob : Automation :=
  { _id := "3000000000000000000000d6", name := "welcome bob", project := board._id,
    createdBy := alice._id,
    trigger := { type := "taskAssigneeChange", conditions := { assigneeId := some bob._id } },
    action := { type := "assignBadge", params := { badgeName := some "team_player" } } }

/-- Wildcard assignee rule that moves the task to "In Progress". -/
def rStart : Automation :=
  { _id := "3000000000000000000000d7", name := "start on assignment", project := board._id,
    createdBy := alice._id,
    trigger := { type := "taskAssigneeChange" },
    action := { type := "changeTaskStatus", params := { status := some "In Progress" } } }

/-- Status rule: whatever reaches "Done" is sent back to "To Do". -/
def rReopen : Automation :=
  { _id := "3000000000000000000000d8", name := "reopen", project := board._id,
    createdBy := alice._id,
    trigger := { type := "taskStatusChange", conditions := { toStatus := some "Done" } },
    action := { type := "changeTaskStatus", params := { status := some "To Do" } } }

/-- Status rule: whatever goes from "Done" to "To Do" is put to "Done" again. -/
def rRedo : Automation :=
  { _id := "3000000000000000000000d9", name := "redo", project := board._id,
    createdBy := alice._id,
    trigger := { type := "taskStatusChange",
                 conditions := { fromStatus := some "Done", toStatus := some "To Do" } },
    action := { type := "changeTaskStatus", params := { status := some "Done" } } }

/-- Status rule: whatever reaches "Done" is then put to "In Progress". -/
def rReview : Automation :=
  { _id := "3000000000000000000000da", name := "review", project := board._id,
    createdBy := alice._id,
    trigger := { type := "taskStatusChange", conditions := { toStatus := some "Done" } },
    action := { type := "changeTaskStatus", params := { status := some "In Progress" } } }

/-- The board with the given task and rules stored. -/
def boardDB (task : Task) (rules : List Automation) : DB :=
  { projects := [board], tasks := [task], users := [alice, bob], automations := rules }

/-- The task in status "In Progress", assigned to Bob. -/
def fixBugInProgress : Task := { fixBug with status := "In Progress", assignee := some bob._id }

/-- Bob's task once moved to "Done". -/
def fixBugDoneOfBob : Task := { fixBug with status := "Done", assignee := some bob._id }

/-- Status rule of the end-to-end scenario: whatever reaches "Done" earns "Finisher". -/
def rFinisher : Automation :=
  { _id := "3000000000000000000000db", name := "R1", project := board._id,
    createdBy := alice._id,
    trigger := { type := "taskStatusChange", conditions := { toStatus := some "Done" } },
    action := { type := "assignBadge", params := { badgeName := some "Finisher" } } }

/-- Faults in which the task write of rule `rReview` rejects and nothing else does. -/
def failReviewWrite : Faults := { taskUpdate := fun id => id == rReview._id }

/-- Faults in which the bookkeeping update of rule `rReview` rejects and nothing else
does. -/
def failReviewBookkeeping : Faults := { bookkeeping := fun id => id == rReview._id }

/-- Status rule with an action type the executor does not know. -/
def rUnknown : Automation :=
  { _id := "3000000000000000000000dd", name := "archive", project := board._id,
    createdBy := alice._id,
    trigger := { type := "taskStatusChange", conditions := { toStatus := some "Done" } },
    action := { type := "archiveTask" } }

/-- Statements of the rule loop that give Bob a badge for the first rule and throw at
any other. -/
def badgeThenThrow (_oldStatus : String) (a : Automation) (p : Progress) : Flow :=
  if a._id == "3000000000000000000000d1" then
    Flow.done { p with db := User.findByIdAndUpdate p.db "bbbbbbbbbbbbbbbbbbbbbbbb" "first" 7 }
  else Flow.threw p

/-- Due-date rule that sends the reminder template as a warning. -/
def rRemind : Automation :=
  { _id := "3000000000000000000000dc", name := "remind", project := board._id,
    createdBy := alice._id,
    trigger := { type := "taskDueDatePassed" },
    action := { type := "sendNotification",
                params := { notificationMessage := some "Task \"$\x7btaskTitle\x7d\" is due soon.",
                            notificationType := some "warning" } } }


/-! ## Lemmas on the matcher loop -/


theorem truthy_eq_false_iff (c : Option String) : truthy c = false ↔ unset c := by
  cases c with
  | none => simp [truthy, unset]
  | some s => simp [truthy, unset]

theorem shouldRun_statusChange (c : EventConditions) (a : Automation) :
    shouldRun "taskStatusChange" (some c) a = some true ↔
      (unset a.trigger.conditions.fromStatus ∨ a.trigger.conditions.fromStatus = c.fromStatus) ∧
      (unset a.trigger.conditions.toStatus ∨ a.trigger.conditions.toStatus = c.toStatus) := by
  simp only [shouldRun, if_true, ← truthy_eq_false_iff]
  cases h1 : truthy a.trigger.conditions.fromStatus <;>
    cases h2 : truthy a.trigger.conditions.toStatus <;>
    by_cases h3 : a.trigger.conditions.fromStatus = c.fromStatus <;>
    by_cases h4 : a.trigger.conditions.toStatus = c.toStatus <;>
    simp [h3, h4]

theorem shouldRun_assigneeChange (v : IdValue) (a : Automation) :
    shouldRun "taskAssigneeChange" (assigneeEvent v) a = some true ↔
      a.trigger.conditions.assigneeId = none ∨
        ∃ s, v = .str s ∧ a.trigger.conditions.assigneeId = some s := by
  have hne : ¬ ("taskAssigneeChange" = "taskStatusChange") := by decide
  unfold shouldRun assigneeEvent
  rw [if_neg hne, if_pos rfl]
  cases h : a.trigger.conditions.assigneeId with
  | none => exact ⟨fun _ => Or.inl rfl, fun _ => rfl⟩
  | some x =>
    cases v with
    | str t =>
      by_cases hxt : x = t
      · subst hxt
        simp [strictNeString]
      · have hxt2 : ¬ t = x := fun e => hxt e.symm
        simp [strictNeString, hxt, hxt2]
    | oid t => simp [strictNeString]

theorem shouldRun_ne_none (triggerType : String) (c : EventConditions) (a : Automation) :
    shouldRun triggerType (some c) a ≠ none := by
  unfold shouldRun
  split_ifs <;> simp
  split <;> simp

theorem shouldRun_other (triggerType : String) (conditions : Option EventConditions)
    (a : Automation) (h1 : triggerType ≠ "taskStatusChange")
    (h2 : triggerType ≠ "taskAssigneeChange") :
    shouldRun triggerType conditions a = some true := by
  simp [shouldRun, h1, h2]

theorem forAutomations_executed (f : Faults) (now : Nat) (task : Task)
    (triggerType userId : String) (conditions : Option EventConditions) :
    ∀ (rules : List Automation) (r : RunResult),
      (∀ a ∈ rules, f.bookkeeping a._id = false) →
      (∀ a ∈ rules, shouldRun triggerType conditions a ≠ none) →
      (forAutomations f now task triggerType userId conditions rules r).executed =
        r.executed ++ rules.filter (ruleMatches triggerType conditions) := by
  intro rules
  induction rules with
  | nil => intro r _ _; simp [forAutomations]
  | cons a rest ih =>
    intro r hb hs
    have hb1 : f.bookkeeping a._id = false := hb a (List.mem_cons_self _ _)
    have hbr : ∀ x ∈ rest, f.bookkeeping x._id = false :=
      fun x hx => hb x (List.mem_cons_of_mem _ hx)
    have hsr : ∀ x ∈ rest, shouldRun triggerType conditions x ≠ none :=
      fun x hx => hs x (List.mem_cons_of_mem _ hx)
    have hs1 := hs a (List.mem_cons_self _ _)
    cases hsa : shouldRun triggerType conditions a with
    | none => exact absurd hsa hs1
    | some b =>
      cases b with
      | false =>
        simp [forAutomations, hsa, ih _ hbr hsr, ruleMatches, List.filter_cons]
      | true =>
        simp [forAutomations, hsa, hb1, ih _ hbr hsr, ruleMatches, List.filter_cons]

theorem checkAndRun_executed (f : Faults) (now : Nat) (db : DB) (task : Task)
    (triggerType userId : String) (conditions : Option EventConditions)
    (hq : f.automationFind triggerType = false)
    (hb : ∀ a ∈ Automation.find db task.project triggerType, f.bookkeeping a._id = false)
    (hs : ∀ a ∈ Automation.find db task.project triggerType,
      shouldRun triggerType conditions a ≠ none) :
    (checkAndRunAutomationsForTask f now db task triggerType userId conditions).executed =
      (Automation.find db task.project triggerType).filter (ruleMatches triggerType conditions) := by
  unfold checkAndRunAutomationsForTask
  simp only [hq, Bool.false_eq_true, if_false]
  split_ifs with h0
  · rw [List.length_eq_zero] at h0
    simp [h0]
  · rw [forAutomations_executed f now task triggerType userId conditions _ _ hb hs]
    simp

theorem forAutomations_executed_mem (f : Faults) (now : Nat) (task : Task)
    (triggerType userId : String) (conditions : Option EventConditions) :
    ∀ (rules : List Automation) (r : RunResult) (a : Automation),
      a ∈ (forAutomations f now task triggerType userId conditions rules r).executed →
      a ∈ r.executed ∨ a ∈ rules := by
  intro rules
  induction rules with
  | nil => intro r a h; simpa [forAutomations] using h
  | cons b rest ih =>
    intro r a h
    unfold forAutomations at h
    split at h
    · exact Or.inl h
    · rcases ih _ _ h with h1 | h1
      · exact Or.inl h1
      · exact Or.inr (List.mem_cons_of_mem _ h1)
    · simp only at h
      split_ifs at h
      · simp only [List.mem_append, List.mem_singleton] at h
        rcases h with h1 | h1
        · exact Or.inl h1
        · exact Or.inr (h1 ▸ List.mem_cons_self _ _)
      · rcases ih _ _ h with h1 | h1
        · simp only [List.mem_append, List.mem_singleton] at h1
          rcases h1 with h2 | h2
          · exact Or.inl h2
          · exact Or.inr (h2 ▸ List.mem_cons_self _ _)
        · exact Or.inr (List.mem_cons_of_mem _ h1)

theorem checkAndRun_executed_mem (f : Faults) (now : Nat) (db : DB) (task : Task)
    (triggerType userId : String) (conditions : Option EventConditions) (a : Automation)
    (h : a ∈ (checkAndRunAutomationsForTask f now db task triggerType userId
      conditions).executed) :
    a ∈ Automation.find db task.project triggerType := by
  unfold checkAndRunAutomationsForTask at h
  by_cases hq : f.automationFind triggerType = true
  · simp [hq] at h
  · by_cases h0 : (Automation.find db task.project triggerType).length = 0
    · simp [hq, h0] at h
    · simp only [hq, h0, if_false] at h
      rcases forAutomations_executed_mem _ _ _ _ _ _ _ _ _ h with h1 | h1
      · simp at h1
      · exact h1

theorem mem_find_iff (db : DB) (project triggerType : String) (a : Automation) :
    a ∈ Automation.find db project triggerType ↔
      a ∈ db.automations ∧ a.project = project ∧ a.trigger.type = triggerType ∧
        a.active = true := by
  simp [Automation.find, List.mem_filter, and_assoc]

theorem executeAutomationAction_automations (f : Faults) (now : Nat) (a : Automation)
    (task : Task) (userId : String) (db : DB) :
    (executeAutomationAction f now a task userId db).automations = db.automations := by
  unfold executeAutomationAction executeAutomationActionTry
  simp only []
  split_ifs <;> rfl

theorem find?_updateFirst {α : Type} (p q : α → Bool) (g : α → α)
    (hg : ∀ x, q (g x) = q x) (hpq : ∀ x, p x = true → q x = false) :
    ∀ xs : List α, (updateFirst p g xs).find? q = xs.find? q := by
  intro xs
  induction xs with
  | nil => rfl
  | cons x xs ih =>
    unfold updateFirst
    split_ifs with hp
    · simp [List.find?_cons, hg, hpq x hp]
    · simp [List.find?_cons, ih]

theorem findById_findByIdAndUpdate (db : DB) (id target : String) (now : Nat)
    (h : id ≠ target) :
    Automation.findById (Automation.findByIdAndUpdate db id now) target =
      Automation.findById db target := by
  unfold Automation.findById Automation.findByIdAndUpdate
  simp only []
  apply find?_updateFirst
  · intro x; rfl
  · intro x hx
    simp only [beq_iff_eq] at hx
    simp [hx, h]

theorem forAutomations_findById (f : Faults) (now : Nat) (task : Task)
    (triggerType userId : String) (conditions : Option EventConditions) (target : String) :
    ∀ (rules : List Automation) (r : RunResult),
      (∀ b ∈ rules, b._id ≠ target) →
      Automation.findById
          (forAutomations f now task triggerType userId conditions rules r).db target =
        Automation.findById r.db target := by
  intro rules
  induction rules with
  | nil => intro r _; simp [forAutomations]
  | cons b rest ih =>
    intro r hne
    have hb := hne b (List.mem_cons_self _ _)
    have hr : ∀ x ∈ rest, x._id ≠ target := fun x hx => hne x (List.mem_cons_of_mem _ hx)
    have hexec : ∀ db0 : DB, Automation.findById
        (executeAutomationAction f now b task userId db0) target =
        Automation.findById db0 target := by
      intro db0
      unfold Automation.findById
      rw [executeAutomationAction_automations]
    unfold forAutomations
    split
    · rfl
    · exact ih _ hr
    · simp only []
      split_ifs
      · exact hexec _
      · rw [ih _ hr]
        simp only []
        rw [findById_findByIdAndUpdate _ _ _ _ hb, hexec]

theorem findById_of_mem (db : DB) (hid : distinctAutomationIds db) (a : Automation)
    (ha : a ∈ db.automations) : Automation.findById db a._id = some a := by
  unfold Automation.findById
  unfold distinctAutomationIds at hid
  generalize db.automations = l at hid ha
  induction l with
  | nil => simp at ha
  | cons x xs ih =>
    simp only [List.map_cons, List.nodup_cons, List.mem_map, not_exists, not_and] at hid
    rcases List.mem_cons.mp ha with h | h
    · simp [List.find?_cons, h]
    · have hx : x._id ≠ a._id := fun e => hid.1 a h e.symm
      simp [List.find?_cons, hx, ih hid.2 h]


/-! ## The matcher: which rules run -/


/-- C1. In a run whose rule query and bookkeeping updates succeed, a taskStatusChange
rule returned by the store is executed if and only if its `fromStatus` is unset or
equals the event's `fromStatus` and its `toStatus` is unset or equals the event's
`toStatus`. In particular a rule from "To Do" to "Done" runs for exactly that
transition, and a rule with both conditions unset runs for every event. -/
theorem C1_status_rule_runs_iff_conditions_match
    (f : Faults) (now : Nat) (db : DB) (task : Task) (userId fromStatus toStatus : String)
    (hq : f.automationFind "taskStatusChange" = false)
    (hb : ∀ a ∈ Automation.find db task.project "taskStatusChange",
      f.bookkeeping a._id = false) :
    (∀ a ∈ Automation.find db task.project "taskStatusChange",
      (a ∈ (checkAndRunAutomationsForTask f now db task "taskStatusChange" userId
              (statusEvent fromStatus toStatus)).executed ↔
        (unset a.trigger.conditions.fromStatus ∨
            a.trigger.conditions.fromStatus = some fromStatus) ∧
          (unset a.trigger.conditions.toStatus ∨
            a.trigger.conditions.toStatus = some toStatus))) ∧
    (∀ a ∈ Automation.find db task.project "taskStatusChange",
      a.trigger.conditions.fromStatus = some "To Do" →
      a.trigger.conditions.toStatus = some "Done" →
      (a ∈ (checkAndRunAutomationsForTask f now db task "taskStatusChange" userId
              (statusEvent fromStatus toStatus)).executed ↔
        fromStatus = "To Do" ∧ toStatus = "Done")) ∧
    (∀ a ∈ Automation.find db task.project "taskStatusChange",
      a.trigger.conditions.fromStatus = none →
      a.trigger.conditions.toStatus = none →
      a ∈ (checkAndRunAutomationsForTask f now db task "taskStatusChange" userId
              (statusEvent fromStatus toStatus)).executed) := by
  have key : ∀ a ∈ Automation.find db task.project "taskStatusChange",
      (a ∈ (checkAndRunAutomationsForTask f now db task "taskStatusChange" userId
              (statusEvent fromStatus toStatus)).executed ↔
        (unset a.trigger.conditions.fromStatus ∨
            a.trigger.conditions.fromStatus = some fromStatus) ∧
          (unset a.trigger.conditions.toStatus ∨
            a.trigger.conditions.toStatus = some toStatus)) := by
    intro a ha
    rw [checkAndRun_executed f now db task "taskStatusChange" userId
      (statusEvent fromStatus toStatus) hq hb (fun x _ => shouldRun_ne_none _ _ x)]
    simp only [List.mem_filter, ha, true_and, ruleMatches, beq_iff_eq, statusEvent]
    exact shouldRun_statusChange _ a
  refine ⟨key, ?_, ?_⟩
  · intro a ha h1 h2
    rw [key a ha, h1, h2]
    simp [unset, eq_comm]
  · intro a ha h1 h2
    rw [key a ha, h1, h2]
    simp [unset]

/-- C1 on the sample board: the rule from "To Do" to "Done" runs for that transition
and not for "In Progress" to "Done". -/
theorem C1_status_rule_runs_iff_conditions_match_witness :
    rDone ∈ (checkAndRunAutomationsForTask Faults.none 7 (boardDB fixBugDone [rDone, rAny])
        fixBugDone "taskStatusChange" alice._id (statusEvent "To Do" "Done")).executed ∧
      rDone ∉ (checkAndRunAutomationsForTask Faults.none 7 (boardDB fixBugDone [rDone, rAny])
        fixBugDone "taskStatusChange" alice._id (statusEvent "In Progress" "Done")).executed :=
  ⟨((C1_status_rule_runs_iff_conditions_match Faults.none 7 (boardDB fixBugDone [rDone, rAny])
        fixBugDone alice._id "To Do" "Done" rfl (fun _ _ => rfl)).1 rDone (by decide)).2
      (by decide),
    fun h => absurd
      (((C1_status_rule_runs_iff_conditions_match Faults.none 7
        (boardDB fixBugDone [rDone, rAny]) fixBugDone alice._id "In Progress" "Done" rfl
        (fun _ _ => rfl)).1 rDone (by decide)).1 h)
      (by decide)⟩



theorem checkAndRun_findById (f : Faults) (now : Nat) (db : DB) (task : Task)
    (triggerType userId : String) (conditions : Option EventConditions) (target : String)
    (h : ∀ b ∈ Automation.find db task.project triggerType, b._id ≠ target) :
    Automation.findById
        (checkAndRunAutomationsForTask f now db task triggerType userId conditions).db target =
      Automation.findById db target := by
  unfold checkAndRunAutomationsForTask
  by_cases hq : f.automationFind triggerType = true
  · simp [hq]
  · by_cases h0 : (Automation.find db task.project triggerType).length = 0
    · simp [hq, h0]
    · simp only [hq, h0, if_false]
      exact forAutomations_findById f now task triggerType userId conditions target _ _ h

/-- C2. Whatever the task, the trigger kind, the conditions and the faults, every rule
handed to `executeAutomationAction` is a stored rule that is active, belongs to the
task's project and has the event's trigger type; and a stored rule that is inactive or
of another project is not executed and is found in the store afterwards exactly as it
was, execution count included. -/
theorem C2_only_active_rules_of_the_project_run
    (f : Faults) (now : Nat) (db : DB) (task : Task) (triggerType userId : String)
    (conditions : Option EventConditions) (hid : distinctAutomationIds db) :
    (∀ a ∈ (checkAndRunAutomationsForTask f now db task triggerType userId
              conditions).executed,
      a ∈ db.automations ∧ a.active = true ∧ a.project = task.project ∧
        a.trigger.type = triggerType) ∧
    (∀ a ∈ db.automations, a.active = false ∨ a.project ≠ task.project →
      a ∉ (checkAndRunAutomationsForTask f now db task triggerType userId
              conditions).executed ∧
        Automation.findById
          (checkAndRunAutomationsForTask f now db task triggerType userId conditions).db
          a._id = some a) := by
  constructor
  · intro a ha
    have h := (mem_find_iff db task.project triggerType a).mp
      (checkAndRun_executed_mem f now db task triggerType userId conditions a ha)
    exact ⟨h.1, h.2.2.2, h.2.1, h.2.2.1⟩
  · intro a ha hoff
    have hnot : a ∉ Automation.find db task.project triggerType := by
      intro hmem
      have h := (mem_find_iff db task.project triggerType a).mp hmem
      rcases hoff with h1 | h1
      · rw [h.2.2.2] at h1; exact absurd h1 (by decide)
      · exact h1 h.2.1
    refine ⟨fun hex => hnot
      (checkAndRun_executed_mem f now db task triggerType userId conditions a hex), ?_⟩
    rw [checkAndRun_findById, findById_of_mem db hid a ha]
    intro b hb hbe
    have hbm := ((mem_find_iff db task.project triggerType b).mp hb).1
    have e1 := findById_of_mem db hid b hbm
    rw [hbe, findById_of_mem db hid a ha] at e1
    exact hnot (Option.some.inj e1 ▸ hb)

/-- C2 on the sample board: the inactive rule and the other project's rule are not run
and keep their execution count of zero, while the two live rules run. -/
theorem C2_only_active_rules_of_the_project_run_witness :
    distinctAutomationIds (boardDB fixBugDone [rOff, rDone, rElsewhere, rAny]) ∧
      rOff ∉ (checkAndRunAutomationsForTask Faults.none 7
        (boardDB fixBugDone [rOff, rDone, rElsewhere, rAny]) fixBugDone "taskStatusChange"
        alice._id (statusEvent "To Do" "Done")).executed ∧
      Automation.findById (checkAndRunAutomationsForTask Faults.none 7
        (boardDB fixBugDone [rOff, rDone, rElsewhere, rAny]) fixBugDone "taskStatusChange"
        alice._id (statusEvent "To Do" "Done")).db rElsewhere._id = some rElsewhere :=
  ⟨by decide,
    ((C2_only_active_rules_of_the_project_run Faults.none 7
      (boardDB fixBugDone [rOff, rDone, rElsewhere, rAny]) fixBugDone "taskStatusChange"
      alice._id (statusEvent "To Do" "Done") (by decide)).2 rOff (by decide)
      (Or.inl rfl)).1,
    ((C2_only_active_rules_of_the_project_run Faults.none 7
      (boardDB fixBugDone [rOff, rDone, rElsewhere, rAny]) fixBugDone "taskStatusChange"
      alice._id (statusEvent "To Do" "Done") (by decide)).2 rElsewhere (by decide)
      (Or.inr (by decide))).2⟩

/-- C4. For the trigger kind taskDueDatePassed, in a run whose rule query and
bookkeeping updates succeed, the rules executed are all the active rules of that kind
in the task's project, in store order, whatever their conditions hold and whatever
conditions object the caller passes. -/
theorem C4_due_date_rules_all_run
    (f : Faults) (now : Nat) (db : DB) (task : Task) (userId : String)
    (conditions : Option EventConditions)
    (hq : f.automationFind "taskDueDatePassed" = false)
    (hb : ∀ a ∈ Automation.find db task.project "taskDueDatePassed",
      f.bookkeeping a._id = false) :
    (checkAndRunAutomationsForTask f now db task "taskDueDatePassed" userId
        conditions).executed = Automation.find db task.project "taskDueDatePassed" ∧
    (∀ a ∈ db.automations, a.active = true → a.project = task.project →
      a.trigger.type = "taskDueDatePassed" →
      a ∈ (checkAndRunAutomationsForTask f now db task "taskDueDatePassed" userId
              conditions).executed) := by
  have hs : ∀ a : Automation, shouldRun "taskDueDatePassed" conditions a = some true :=
    fun a => shouldRun_other _ _ a (by decide) (by decide)
  have key : (checkAndRunAutomationsForTask f now db task "taskDueDatePassed" userId
        conditions).executed = Automation.find db task.project "taskDueDatePassed" := by
    rw [checkAndRun_executed f now db task "taskDueDatePassed" userId conditions hq hb
      (fun x _ => by rw [hs x]; simp)]
    apply List.filter_eq_self.mpr
    intro a _
    simp [ruleMatches, hs a]
  refine ⟨key, ?_⟩
  intro a ha h1 h2 h3
  rw [key]
  exact (mem_find_iff db task.project "taskDueDatePassed" a).mpr ⟨ha, h2, h3, h1⟩

/-- C4 on the sample board: the due-date rule runs although its conditions name
statuses and an assignee the task does not have, with no conditions object at all. -/
theorem C4_due_date_rules_all_run_witness :
    (checkAndRunAutomationsForTask Faults.none 7 (boardDB fixBugDone [rDone, rDue, rOff])
        fixBugDone "taskDueDatePassed" alice._id none).executed = [rDue] :=
  (C4_due_date_rules_all_run Faults.none 7 (boardDB fixBugDone [rDone, rDue, rOff])
    fixBugDone alice._id none rfl (fun _ _ => rfl)).1.trans (by decide)

/-- C5. For an event with a conditions object, in a run whose rule query and
bookkeeping updates succeed, the sequence of rules handed to `executeAutomationAction`
is the list the store returned with the rules the matcher rejects removed: every rule
the matcher accepts is there, in store order. -/
theorem C5_executed_rules_are_the_matching_rules_in_store_order
    (f : Faults) (now : Nat) (db : DB) (task : Task) (triggerType userId : String)
    (c : EventConditions)
    (hq : f.automationFind triggerType = false)
    (hb : ∀ a ∈ Automation.find db task.project triggerType, f.bookkeeping a._id = false) :
    (checkAndRunAutomationsForTask f now db task triggerType userId (some c)).executed =
        (Automation.find db task.project triggerType).filter
          (ruleMatches triggerType (some c)) ∧
      List.Sublist
        (checkAndRunAutomationsForTask f now db task triggerType userId (some c)).executed
        (Automation.find db task.project triggerType) := by
  have key := checkAndRun_executed f now db task triggerType userId (some c) hq hb
    (fun x _ => shouldRun_ne_none _ _ x)
  refine ⟨key, ?_⟩
  rw [key]
  exact List.filter_sublist _

/-- C5 on the sample board: of four stored status rules, the three that match the move
from "To Do" to "Done" run, the first match not ending the loop, in store order. -/
theorem C5_executed_rules_are_the_matching_rules_in_store_order_witness :
    (checkAndRunAutomationsForTask Faults.none 7
        (boardDB fixBugDone [rAny, rRedo, rReopen, rDone]) fixBugDone "taskStatusChange"
        alice._id (statusEvent "To Do" "Done")).executed = [rAny, rReopen, rDone] :=
  (C5_executed_rules_are_the_matching_rules_in_store_order Faults.none 7
    (boardDB fixBugDone [rAny, rRedo, rReopen, rDone]) fixBugDone "taskStatusChange"
    alice._id { fromStatus := some "To Do", toStatus := some "Done" } rfl
    (fun _ _ => rfl)).1.trans (by decide)

/-! ## The action executor and the events `updateTask` produces -/


/-- C10. For an assignBadge rule and a task without assignee, whatever the faults, the
`try` body of `executeAutomationAction` throws nothing and the database is left as it
was: no user's badges change and no notification is created. -/
theorem C10_assignBadge_without_assignee_does_nothing
    (f : Faults) (now : Nat) (automation : Automation) (task : Task) (userId : String)
    (db : DB) (ha : automation.action.type = "assignBadge") (ht : task.assignee = none) :
    (executeAutomationActionTry f now automation task userId db).threw = false ∧
      executeAutomationAction f now automation task userId db = db ∧
      (executeAutomationAction f now automation task userId db).users = db.users ∧
      (executeAutomationAction f now automation task userId db).notifications =
        db.notifications := by
  have h : executeAutomationActionTry f now automation task userId db = { db := db } := by
    unfold executeAutomationActionTry
    simp [ha, ht]
  simp [executeAutomationAction, h]

/-- C10 on the sample board: the badge rule run for the unassigned task leaves the
database untouched. -/
theorem C10_assignBadge_without_assignee_does_nothing_witness :
    executeAutomationAction Faults.none 7 rDone fixBugDone alice._id
      (boardDB fixBugDone [rDone]) = boardDB fixBugDone [rDone] :=
  (C10_assignBadge_without_assignee_does_nothing Faults.none 7 rDone fixBugDone alice._id
    (boardDB fixBugDone [rDone]) rfl rfl).2.1

/-- C8, the code at the failing input. Alice moves the task from "To Do" to "Done" and
two changeTaskStatus rules match. After the first the stored status is "In Progress";
the entry the second one appends still carries `oldValue` "Done", the status of the
task object read before the loop, not the stored status at the time of its write. -/
theorem C8_second_status_rule_records_stale_oldValue :
    (updateTask Faults.none 7 (boardDB fixBug [rReview, rReopen]) alice._id fixBug._id
        { status := some "Done" }).executed = [rReview, rReopen] ∧
    (Task.findById
        (executeAutomationAction Faults.none 7 rReview fixBugDone alice._id
          (boardDB fixBugDone [rReview, rReopen])) fixBug._id).map (fun t => t.status) =
      some "In Progress" ∧
    (Task.findById
        (checkAndRunAutomationsForTask Faults.none 7 (boardDB fixBugDone [rReview, rReopen])
          fixBugDone "taskStatusChange" alice._id (statusEvent "To Do" "Done")).db
        fixBug._id).map (fun t => (t.status, t.history)) =
      some ("To Do",
        [{ field := "status", oldValue := "Done", newValue := "In Progress",
           changedBy := alice._id, changedAt := 7 },
         { field := "status", oldValue := "Done", newValue := "To Do",
           changedBy := alice._id, changedAt := 7 }]) ∧
    (Task.findById
        (updateTask Faults.none 7 (boardDB fixBug [rReview, rReopen]) alice._id fixBug._id
          { status := some "Done" }).db fixBug._id).map (fun t => (t.status, t.history)) =
      some ("To Do",
        [{ field := "status", oldValue := "To Do", newValue := "Done",
           changedBy := alice._id, changedAt := 7 },
         { field := "status", oldValue := "Done", newValue := "In Progress",
           changedBy := alice._id, changedAt := 7 },
         { field := "status", oldValue := "Done", newValue := "To Do",
           changedBy := alice._id, changedAt := 7 }]) := by
  decide

/-- C3, the code at the failing input. Alice assigns the unassigned task to Bob by his
Firebase UID. The event carries Bob's `_id` as an ObjectId, the stored task gets Bob
as assignee, and the rule whose `assigneeId` is Bob's `_id` is not executed; the same
request naming Bob by his 24-character id string does execute it. -/
theorem C3_rule_not_run_for_assignee_resolved_from_uid :
    rBob.trigger.conditions.assigneeId = some bob._id ∧
    (updateTask Faults.none 7 (boardDB fixBug [rBob]) alice._id fixBug._id
        { assigneeId := some "uid-bob" }).calls =
      [{ triggerType := "taskAssigneeChange", conditions := assigneeEvent (.oid bob._id) }] ∧
    (Task.findById
        (updateTask Faults.none 7 (boardDB fixBug [rBob]) alice._id fixBug._id
          { assigneeId := some "uid-bob" }).db fixBug._id).map (fun t => t.assignee) =
      some (some bob._id) ∧
    (updateTask Faults.none 7 (boardDB fixBug [rBob]) alice._id fixBug._id
        { assigneeId := some "uid-bob" }).executed = [] ∧
    (updateTask Faults.none 7 (boardDB fixBug [rBob]) alice._id fixBug._id
        { assigneeId := some bob._id }).executed = [rBob] := by
  decide

/-- C7, the code at the failing input. The task is Bob's already and the request names
Bob by his Firebase UID. No assignee history entry is written, the stored assignee is
unchanged, yet the assignee-change rules are evaluated and the wildcard rule is
executed; the same request naming Bob by his id string evaluates nothing. -/
theorem C7_same_assignee_named_by_uid_evaluates_rules :
    (Task.findById (boardDB fixBugOfBob [rStart]) fixBug._id).map (fun t => t.assignee) =
      some (some bob._id) ∧
    (Task.findById
        (updateTask Faults.none 7 (boardDB fixBugOfBob [rStart]) alice._id fixBug._id
          { assigneeId := some "uid-bob" }).db fixBug._id).map (fun t => t.assignee) =
      some (some bob._id) ∧
    (updateTask Faults.none 7 (boardDB fixBugOfBob [rStart]) alice._id fixBug._id
        { assigneeId := some "uid-bob" }).calls =
      [{ triggerType := "taskAssigneeChange", conditions := assigneeEvent (.oid bob._id) }] ∧
    (updateTask Faults.none 7 (boardDB fixBugOfBob [rStart]) alice._id fixBug._id
        { assigneeId := some "uid-bob" }).executed = [rStart] ∧
    (updateTask Faults.none 7 (boardDB fixBugOfBob [rStart]) alice._id fixBug._id
        { assigneeId := some bob._id }).calls = [] := by
  decide

/-- C6 as stated fails. The request carries no status and assigns the task to Bob; the
wildcard assignee rule then moves the task to "In Progress" and appends a status
history entry, although no taskStatusChange rule was evaluated. -/
theorem C6_status_entry_appended_without_status_field :
    ({ assigneeId := some bob._id } : UpdateBody).status = none ∧
    (Task.findById (boardDB fixBug [rStart]) fixBug._id).map
        (fun t => statusEntries t.history) = some [] ∧
    (updateTask Faults.none 7 (boardDB fixBug [rStart]) alice._id fixBug._id
        { assigneeId := some bob._id }).response.status = 200 ∧
    (updateTask Faults.none 7 (boardDB fixBug [rStart]) alice._id fixBug._id
        { assigneeId := some bob._id }).calls.map (fun c => c.triggerType) =
      ["taskAssigneeChange"] ∧
    (Task.findById
        (updateTask Faults.none 7 (boardDB fixBug [rStart]) alice._id fixBug._id
          { assigneeId := some bob._id }).db fixBug._id).map
        (fun t => statusEntries t.history) =
      some [{ field := "status", oldValue := "To Do", newValue := "In Progress",
              changedBy := alice._id, changedAt := 7 }] := by
  decide



theorem executeAutomationAction_tasks (f : Faults) (now : Nat) (a : Automation)
    (task : Task) (userId : String) (db : DB) (h : a.action.type ≠ "changeTaskStatus") :
    (executeAutomationAction f now a task userId db).tasks = db.tasks := by
  unfold executeAutomationAction executeAutomationActionTry
  simp only [h, if_false]
  split_ifs <;> rfl

theorem forAutomations_executed_mono (f : Faults) (now : Nat) (task : Task)
    (triggerType userId : String) (conditions : Option EventConditions) :
    ∀ (rules : List Automation) (r : RunResult) (x : Automation),
      x ∈ r.executed →
      x ∈ (forAutomations f now task triggerType userId conditions rules r).executed := by
  intro rules
  induction rules with
  | nil => intro r x h; simpa [forAutomations] using h
  | cons b rest ih =>
    intro r x h
    unfold forAutomations
    split
    · exact h
    · exact ih _ _ h
    · simp only []
      split_ifs
      · exact List.mem_append_left _ h
      · exact ih _ _ (List.mem_append_left _ h)

theorem forAutomations_tasks (f : Faults) (now : Nat) (task : Task)
    (triggerType userId : String) (conditions : Option EventConditions) :
    ∀ (rules : List Automation) (r : RunResult),
      (∀ a ∈ (forAutomations f now task triggerType userId conditions rules r).executed,
        a.action.type ≠ "changeTaskStatus") →
      (forAutomations f now task triggerType userId conditions rules r).db.tasks =
        r.db.tasks := by
  intro rules
  induction rules with
  | nil => intro r _; simp [forAutomations]
  | cons b rest ih =>
    intro r h
    unfold forAutomations at h ⊢
    split at h
    · rfl
    · exact ih _ h
    · simp only [] at h ⊢
      split_ifs at h ⊢
      · exact executeAutomationAction_tasks f now b task userId r.db
          (h b (List.mem_append_right _ (List.mem_singleton_self b)))
      · rw [ih _ h]
        have hb : b.action.type ≠ "changeTaskStatus" :=
          h b (forAutomations_executed_mono f now task triggerType userId conditions rest _ b
            (List.mem_append_right _ (List.mem_singleton_self b)))
        exact executeAutomationAction_tasks f now b task userId r.db hb

theorem checkAndRun_tasks (f : Faults) (now : Nat) (db : DB) (task : Task)
    (triggerType userId : String) (conditions : Option EventConditions)
    (h : ∀ a ∈ (checkAndRunAutomationsForTask f now db task triggerType userId
      conditions).executed, a.action.type ≠ "changeTaskStatus") :
    (checkAndRunAutomationsForTask f now db task triggerType userId conditions).db.tasks =
      db.tasks := by
  unfold checkAndRunAutomationsForTask at h ⊢
  by_cases hq : f.automationFind triggerType = true
  · simp [hq]
  · by_cases h0 : (Automation.find db task.project triggerType).length = 0
    · simp [hq, h0]
    · simp only [hq, h0, if_false] at h ⊢
      exact forAutomations_tasks f now task triggerType userId conditions _ _ h

theorem statusEntries_titleStatusHistory (task : Task) (body : UpdateBody) (user : String)
    (now : Nat) (hs : body.status = none ∨ body.status = some task.status) :
    statusEntries (titleStatusHistory task body user now) = [] := by
  have h2 : (truthy body.status && body.status != some task.status) = false := by
    rcases hs with h | h
    · simp [h, truthy]
    · simp [h]
  unfold titleStatusHistory statusEntries
  simp only [h2, Bool.false_eq_true, if_false, List.append_nil]
  split_ifs
  · rw [List.filter_cons_of_neg (by simp)]
    rfl
  · rfl

theorem findById_id (db : DB) (id : String) (task : Task)
    (h : Task.findById db id = some task) : task._id = id := by
  unfold Task.findById at h
  have := List.find?_some h
  simpa using this

theorem findById_save (db : DB) (id : String) (task t : Task)
    (h : Task.findById db id = some task) (ht : t._id = id) :
    Task.findById (Task.save db t) id = some t := by
  unfold Task.findById Task.save at *
  simp only []
  generalize db.tasks = l at h
  induction l with
  | nil => simp at h
  | cons x xs ih =>
    unfold updateFirst
    by_cases hx : x._id = id
    · simp [hx, ht, List.find?_cons]
    · have hx2 : (x._id == id) = false := by simpa using hx
      rw [List.find?_cons, hx2] at h
      have ih2 := ih h
      rw [ht] at ih2 ⊢
      simp only [hx2, Bool.false_eq_true, if_false, List.find?_cons]
      exact ih2



theorem runAutomations_without_status_change (f : Faults) (now : Nat) (db : DB)
    (task : Task) (user : String) (status : Option String) (previousStatus : String)
    (resolved : Option IdValue) (previousAssigneeId : Option String)
    (h : (truthy status && status != some previousStatus) = false) :
    (∀ c ∈ (runAutomations f now db task user status previousStatus resolved
        previousAssigneeId).2.1, c.triggerType ≠ "taskStatusChange") ∧
    (∀ a ∈ (runAutomations f now db task user status previousStatus resolved
        previousAssigneeId).2.2, a.trigger.type ≠ "taskStatusChange") ∧
    ((∀ a ∈ (runAutomations f now db task user status previousStatus resolved
        previousAssigneeId).2.2, a.action.type ≠ "changeTaskStatus") →
      (runAutomations f now db task user status previousStatus resolved
        previousAssigneeId).1.tasks = db.tasks) := by
  unfold runAutomations
  simp only [h, Bool.false_eq_true, if_false, List.nil_append]
  cases resolved with
  | none => simp
  | some v =>
    simp only []
    split_ifs
    · refine ⟨?_, ?_, ?_⟩
      · intro c hc
        simp only [List.mem_singleton] at hc
        rw [hc]
        show "taskAssigneeChange" ≠ "taskStatusChange"
        decide
      · intro a ha
        have hm := (mem_find_iff _ _ _ a).mp (checkAndRun_executed_mem _ _ _ _ _ _ _ a ha)
        rw [hm.2.2.1]
        decide
      · intro hex
        exact checkAndRun_tasks _ _ _ _ _ _ _ hex
    · simp



theorem statusEntries_applyUpdate (task : Task) (body : UpdateBody)
    (resolved : Option IdValue) (h : List HistoryEntry) (hh : statusEntries h = []) :
    statusEntries (applyUpdate task body resolved h).history = statusEntries task.history := by
  unfold applyUpdate
  simp only []
  split_ifs
  · unfold statusEntries at hh ⊢
    rw [List.filter_append, hh, List.append_nil]
  · rfl

theorem ite_create_tasks (c : Prop) [Decidable c] (db : DB) (n : Notification) :
    (if c then Notification.create db n else db).tasks = db.tasks := by
  split_ifs <;> rfl

/-- C6, amended. When the request's status is absent or equals the stored status, no
matcher call of the request is for taskStatusChange, no executed rule is a
taskStatusChange rule, and unless a rule with action changeTaskStatus was executed
(which then can only be an assignee-change rule) the status entries of the stored
task's history are what they were before the request. -/
theorem C6_no_status_event_without_status_change
    (f : Faults) (now : Nat) (db : DB) (user id : String) (body : UpdateBody)
    (hs : body.status = none ∨
      (Task.findById db id).map (fun t => t.status) = body.status) :
    (∀ c ∈ (updateTask f now db user id body).calls,
      c.triggerType ≠ "taskStatusChange") ∧
    (∀ a ∈ (updateTask f now db user id body).executed,
      a.trigger.type ≠ "taskStatusChange") ∧
    ((∀ a ∈ (updateTask f now db user id body).executed,
        a.action.type ≠ "changeTaskStatus") →
      (Task.findById (updateTask f now db user id body).db id).map
          (fun t => statusEntries t.history) =
        (Task.findById db id).map (fun t => statusEntries t.history)) := by
  generalize hr : updateTask f now db user id body = r
  unfold updateTask at hr
  split at hr
  · subst hr; simp
  split at hr
  · subst hr; simp
  split at hr
  · subst hr; simp
  rename_i task htask
  split at hr
  · subst hr; simp
  split at hr
  · subst hr; simp
  rename_i project hproject
  split at hr
  · subst hr; simp
  simp only [] at hr
  split at hr
  · subst hr; simp
  split at hr
  · subst hr; simp
  have hs2 : body.status = none ∨ body.status = some task.status := by
    rcases hs with h | h
    · exact Or.inl h
    · rw [htask] at h
      exact Or.inr h.symm
  have hguard : (truthy body.status && body.status != some task.status) = false := by
    rcases hs2 with h | h
    · simp [h, truthy]
    · simp [h]
  have hdb1 : ∀ (c : Prop) [Decidable c] (n : Notification),
      Task.findById (if c then Notification.create db n else db) id = some task := by
    intro c _ n
    unfold Task.findById
    rw [ite_create_tasks]
    exact htask
  have hid : ∀ h : List HistoryEntry,
      (applyUpdate task body (resolveAssigneeId db body.assigneeId) h)._id = id :=
    fun _ => findById_id db id task htask
  have hsaved : ∀ (c : Prop) [Decidable c] (n : Notification) (h : List HistoryEntry),
      statusEntries h = [] →
      Option.map (fun t => statusEntries t.history)
        (Task.findById (Task.save (if c then Notification.create db n else db)
          (applyUpdate task body (resolveAssigneeId db body.assigneeId) h)) id) =
        Option.map (fun t => statusEntries t.history) (Task.findById db id) := by
    intro c _ n h hh
    rw [findById_save _ id task _ (hdb1 c n) (hid h), htask]
    simp only [Option.map_some', Option.some.injEq]
    exact statusEntries_applyUpdate task body _ h hh
  have hhist : ∀ (c : Prop) [Decidable c] (e : HistoryEntry), e.field = "assignee" →
      statusEntries (if c then titleStatusHistory task body user now ++ [e]
        else titleStatusHistory task body user now) = [] := by
    intro c _ e he
    have h0 := statusEntries_titleStatusHistory task body user now hs2
    split_ifs
    · unfold statusEntries at h0 ⊢
      rw [List.filter_append, h0, List.filter_cons_of_neg (by simp [he])]
      rfl
    · exact h0
  split at hr
  · subst hr
    refine ⟨by simp, by simp, fun _ => ?_⟩
    simp only [Task.findById, ite_create_tasks]
  split at hr
  · subst hr
    refine ⟨by simp, by simp, fun _ => ?_⟩
    exact hsaved _ _ _ (hhist _ _ rfl)
  split at hr
  · subst hr
    refine ⟨by simp, by simp, fun _ => ?_⟩
    exact hsaved _ _ _ (hhist _ _ rfl)
  · subst hr
    refine ⟨(runAutomations_without_status_change _ _ _ _ _ _ _ _ _ hguard).1,
      (runAutomations_without_status_change _ _ _ _ _ _ _ _ _ hguard).2.1, fun hex => ?_⟩
    have ht := (runAutomations_without_status_change _ _ _ _ _ _ _ _ _ hguard).2.2 hex
    unfold Task.findById
    simp only [] at ht ⊢
    rw [ht]
    exact hsaved _ _ _ (hhist _ _ rfl)



/-- C6, amended, on the sample board: the request repeats the stored status "To Do"
and assigns the task to Bob; the badge rule for Bob runs, no matcher call is for
taskStatusChange, and the stored status entries are unchanged. -/
theorem C6_no_status_event_without_status_change_witness :
    (({ status := some "To Do", assigneeId := some bob._id } : UpdateBody).status = none ∨
      (Task.findById (boardDB fixBug [rAny, rBob]) fixBug._id).map (fun t => t.status) =
        ({ status := some "To Do", assigneeId := some bob._id } : UpdateBody).status) ∧
    (updateTask Faults.none 7 (boardDB fixBug [rAny, rBob]) alice._id fixBug._id
        { status := some "To Do", assigneeId := some bob._id }).executed = [rBob] ∧
    (Task.findById
        (updateTask Faults.none 7 (boardDB fixBug [rAny, rBob]) alice._id fixBug._id
          { status := some "To Do", assigneeId := some bob._id }).db fixBug._id).map
        (fun t => statusEntries t.history) =
      (Task.findById (boardDB fixBug [rAny, rBob]) fixBug._id).map
        (fun t => statusEntries t.history) :=
  ⟨Or.inr (by decide), by decide,
    (C6_no_status_event_without_status_change Faults.none 7 (boardDB fixBug [rAny, rBob])
      alice._id fixBug._id { status := some "To Do", assigneeId := some bob._id }
      (Or.inr (by decide))).2.2 (by decide)⟩


/-! ## Badges and notifications -/


theorem findById_user_updateFirst (db : DB) (id badge : String) (now : Nat) :
    User.findById (User.findByIdAndUpdate db id badge now) id =
      (User.findById db id).map
        (fun u => { u with badges := addToSet u.badges badge, updatedAt := now }) := by
  unfold User.findById User.findByIdAndUpdate
  simp only []
  generalize db.users = l
  induction l with
  | nil => rfl
  | cons x xs ih =>
    unfold updateFirst
    by_cases hx : (x._id == id) = true
    · simp [hx, List.find?_cons]
    · simp only [hx, if_false, List.find?_cons, Bool.false_eq_true]
      exact ih

theorem executeAutomationAction_assignBadge_users (f : Faults) (now : Nat)
    (a : Automation) (task : Task) (userId : String) (db : DB) (badge u : String)
    (ha : a.action.type = "assignBadge") (hb : a.action.params.badgeName = some badge)
    (hne : badge ≠ "") (ht : task.assignee = some u) (hf : f.userUpdate a._id = false) :
    (executeAutomationAction f now a task userId db).users =
      (User.findByIdAndUpdate db u badge now).users := by
  unfold executeAutomationAction executeAutomationActionTry
  simp only [ha, hb, ht, hf, truthy, Option.getD_some, Option.isSome_some]
  simp only [show ¬ ("assignBadge" = "changeTaskStatus") by decide, if_false, if_true]
  have h1 : (!(badge == "")) = true := by simp [hne]
  simp only [h1, Bool.and_self, if_true, Bool.false_eq_true, if_false]
  split_ifs <;> rfl

theorem count_addToSet_self (xs : List String) (x : String) (h : xs.count x ≤ 1) :
    (addToSet xs x).count x = 1 := by
  unfold addToSet
  split_ifs with hm
  · have := List.count_pos_iff.mpr hm
    omega
  · rw [List.count_append, List.count_eq_zero_of_not_mem hm]
    simp

theorem count_addToSet_of_ne (xs : List String) (x y : String) (h : y ≠ x) :
    (addToSet xs x).count y = xs.count y := by
  unfold addToSet
  split_ifs
  · rfl
  · rw [List.count_append]
    simp [List.count_cons, h.symm]

theorem addToSet_prefix (xs : List String) (x : String) : xs <+: addToSet xs x := by
  unfold addToSet
  split_ifs
  · exact List.prefix_refl _
  · exact List.prefix_append _ _

theorem addToSet_idem (xs : List String) (x : String) :
    addToSet (addToSet xs x) x = addToSet xs x := by
  unfold addToSet
  by_cases h1 : x ∈ xs
  · simp [h1]
  · simp [h1]

/-- C11. A rule awards badge `badge` to the assignee of the task, a stored user who
holds the badge at most once, and its user update does not reject. After the action is
executed twice the user's badge list is what it was after the first execution, holds
the badge exactly once, holds every other badge as often as before, and begins with
the old list. -/
theorem C11_assignBadge_twice_is_one_set_insert
    (f : Faults) (now later : Nat) (a : Automation) (task : Task) (userId : String)
    (db : DB) (badge u : String) (user : User)
    (ha : a.action.type = "assignBadge") (hb : a.action.params.badgeName = some badge)
    (hne : badge ≠ "") (ht : task.assignee = some u) (hu : User.findById db u = some user)
    (hf : f.userUpdate a._id = false) (hcount : user.badges.count badge ≤ 1) :
    ∃ badges : List String,
      (User.findById
        (executeAutomationAction f later a task userId
          (executeAutomationAction f now a task userId db)) u).map (fun x => x.badges) =
        some badges ∧
      (User.findById (executeAutomationAction f now a task userId db) u).map
        (fun x => x.badges) = some badges ∧
      badges.count badge = 1 ∧
      (∀ other, other ≠ badge → badges.count other = user.badges.count other) ∧
      user.badges <+: badges := by
  have h1 : ∀ (t : Nat) (d : DB), User.findById (executeAutomationAction f t a task userId d) u =
      (User.findById d u).map
        (fun x => { x with badges := addToSet x.badges badge, updatedAt := t }) := by
    intro t d
    have := executeAutomationAction_assignBadge_users f t a task userId d badge u ha hb hne ht hf
    unfold User.findById at *
    rw [this]
    exact findById_user_updateFirst d u badge t
  refine ⟨addToSet user.badges badge, ?_, ?_, count_addToSet_self _ _ hcount,
    fun other ho => count_addToSet_of_ne _ _ _ ho, addToSet_prefix _ _⟩
  · rw [h1, h1, hu]
    simp [addToSet_idem]
  · rw [h1, hu]
    rfl

/-- C11 on the sample board: Bob earns "Finisher" twice and holds it once. -/
theorem C11_assignBadge_twice_is_one_set_insert_witness :
    ∃ badges : List String,
      (User.findById
        (executeAutomationAction Faults.none 8 rFinisher fixBugDoneOfBob alice._id
          (executeAutomationAction Faults.none 7 rFinisher fixBugDoneOfBob alice._id
            (boardDB fixBugDoneOfBob [rFinisher]))) bob._id).map (fun x => x.badges) =
        some badges ∧
      (User.findById (executeAutomationAction Faults.none 7 rFinisher fixBugDoneOfBob
        alice._id (boardDB fixBugDoneOfBob [rFinisher])) bob._id).map
        (fun x => x.badges) = some badges ∧
      badges.count "Finisher" = 1 ∧
      (∀ other, other ≠ "Finisher" → badges.count other = bob.badges.count other) ∧
      bob.badges <+: badges :=
  C11_assignBadge_twice_is_one_set_insert Faults.none 7 8 rFinisher fixBugDoneOfBob alice._id
    (boardDB fixBugDoneOfBob [rFinisher]) "Finisher" bob._id bob rfl rfl (by decide) rfl
    (by decide) rfl (by decide)



/-- C12. For a sendNotification rule with a non-empty message: on a task without
assignee no notification is created; on a task with assignee, when the create call
does not reject, exactly one notification is appended, addressed to the assignee, with
the configured message and with the rule's notificationType when one is configured
("info" when none is). -/
theorem C12_sendNotification_creates_one_for_the_assignee
    (f : Faults) (now : Nat) (a : Automation) (task : Task) (userId : String) (db : DB)
    (message : String) (ha : a.action.type = "sendNotification")
    (hm : a.action.params.notificationMessage = some message) (hne : message ≠ "") :
    (task.assignee = none →
      (executeAutomationAction f now a task userId db).notifications = db.notifications) ∧
    (∀ u, task.assignee = some u → f.notificationCreate a._id = false →
      ∃ n : Notification,
        (executeAutomationAction f now a task userId db).notifications =
          db.notifications ++ [n] ∧
        n.recipient = u ∧ n.message = message ∧
        (∀ ty, a.action.params.notificationType = some ty → ty ≠ "" → n.type = ty) ∧
        (a.action.params.notificationType = none → n.type = "info")) := by
  have h1 : (!(message == "")) = true := by simp [hne]
  have hn1 : ¬ ("sendNotification" = "changeTaskStatus") := by decide
  have hn2 : ¬ ("sendNotification" = "assignBadge") := by decide
  constructor
  · intro ht
    unfold executeAutomationAction executeAutomationActionTry
    simp [ha, hm, ht, hn1, hn2]
  · intro u ht hf
    unfold executeAutomationAction executeAutomationActionTry
    simp only [ha, hm, ht, hf, hn1, hn2, if_false, if_true, truthy, h1, Option.isSome_some,
      Bool.and_self, Option.getD_some, Bool.false_eq_true, Notification.create]
    refine ⟨_, rfl, rfl, rfl, ?_, ?_⟩
    · intro ty hty htyne
      simp [hty, htyne]
    · intro hty
      simp [hty]

/-- C12 on the sample board: the reminder rule run for Bob's task appends one warning
for Bob carrying the configured text. -/
theorem C12_sendNotification_creates_one_for_the_assignee_witness :
    ∃ n : Notification,
      (executeAutomationAction Faults.none 7 rRemind fixBugDoneOfBob alice._id
        (boardDB fixBugDoneOfBob [rRemind])).notifications =
        (boardDB fixBugDoneOfBob [rRemind]).notifications ++ [n] ∧
      n.recipient = bob._id ∧ n.message = "Task \"$\x7btaskTitle\x7d\" is due soon." ∧
      (∀ ty, rRemind.action.params.notificationType = some ty → ty ≠ "" → n.type = ty) ∧
      (rRemind.action.params.notificationType = none → n.type = "info") :=
  (C12_sendNotification_creates_one_for_the_assignee Faults.none 7 rRemind fixBugDoneOfBob
    alice._id (boardDB fixBugDoneOfBob [rRemind]) "Task \"$\x7btaskTitle\x7d\" is due soon."
    rfl rfl (by decide)).2 bob._id rfl rfl

/-- C13, the code at the failing input. The rule's message is the template with the
placeholder, the task is Bob's and titled "Fix bug". The one notification stored
carries the template as written, placeholder included, and not the text with the title
filled in. -/
theorem C13_placeholder_is_stored_verbatim :
    fixBugDoneOfBob.title = "Fix bug" ∧
    (executeAutomationAction Faults.none 7 rRemind fixBugDoneOfBob alice._id
        (boardDB fixBugDoneOfBob [rRemind])).notifications.map (fun n => n.message) =
      ["Task \"$\x7btaskTitle\x7d\" is due soon."] ∧
    (executeAutomationAction Faults.none 7 rRemind fixBugDoneOfBob alice._id
        (boardDB fixBugDoneOfBob [rRemind])).notifications.map (fun n => n.message) ≠
      ["Task \"Fix bug\" is due soon."] := by
  decide

/-! ## Failures and bookkeeping -/

theorem findById_findByIdAndUpdate_same (db : DB) (id : String) (now : Nat) :
    Automation.findById (Automation.findByIdAndUpdate db id now) id =
      (Automation.findById db id).map (fun x => x.bumped now) := by
  unfold Automation.findById Automation.findByIdAndUpdate
  simp only []
  generalize db.automations = l
  induction l with
  | nil => rfl
  | cons x xs ih =>
    unfold updateFirst
    by_cases hx : (x._id == id) = true
    · simp [hx, List.find?_cons, Automation.bumped]
    · simp only [hx, if_false, List.find?_cons, Bool.false_eq_true]
      exact ih

theorem forAutomations_findById_bumped (f : Faults) (now : Nat) (task : Task)
    (triggerType userId : String) (conditions : Option EventConditions) (target : String) :
    ∀ (rules : List Automation) (r : RunResult),
      (rules.map (fun a => a._id)).Nodup →
      (∀ a ∈ rules, f.bookkeeping a._id = false) →
      (∀ a ∈ rules, shouldRun triggerType conditions a ≠ none) →
      Automation.findById
          (forAutomations f now task triggerType userId conditions rules r).db target =
        (Automation.findById r.db target).map (fun x =>
          if rules.any (fun a => a._id == target && ruleMatches triggerType conditions a)
          then x.bumped now else x) := by
  intro rules
  induction rules with
  | nil =>
    intro r _ _ _
    simp [forAutomations]
  | cons a rest ih =>
    intro r hnd hb hs
    have hb1 : f.bookkeeping a._id = false := hb a (List.mem_cons_self _ _)
    have hbr : ∀ x ∈ rest, f.bookkeeping x._id = false :=
      fun x hx => hb x (List.mem_cons_of_mem _ hx)
    have hsr : ∀ x ∈ rest, shouldRun triggerType conditions x ≠ none :=
      fun x hx => hs x (List.mem_cons_of_mem _ hx)
    have hs1 := hs a (List.mem_cons_self _ _)
    simp only [List.map_cons, List.nodup_cons, List.mem_map, not_exists, not_and] at hnd
    have hexec : ∀ db0 : DB, Automation.findById
        (executeAutomationAction f now a task userId db0) target =
        Automation.findById db0 target := by
      intro db0
      unfold Automation.findById
      rw [executeAutomationAction_automations]
    cases hsa : shouldRun triggerType conditions a with
    | none => exact absurd hsa hs1
    | some b =>
      cases b with
      | false =>
        unfold forAutomations
        simp only [hsa]
        rw [ih r hnd.2 hbr hsr]
        simp [ruleMatches, hsa]
      | true =>
        unfold forAutomations
        simp only [hsa, hb1, Bool.false_eq_true, if_false]
        rw [ih _ hnd.2 hbr hsr]
        simp only []
        by_cases ht : a._id = target
        · have hrest : rest.any
              (fun x => x._id == target && ruleMatches triggerType conditions x) = false := by
            rw [List.any_eq_false]
            intro x hx
            have : ¬ x._id = target := fun e => hnd.1 x hx (e.trans ht.symm)
            simp [this]
          rw [hrest, ← ht, findById_findByIdAndUpdate_same, ht, hexec]
          simp only [ruleMatches, hsa, ht, List.any_cons, beq_self_eq_true, Bool.and_self,
            Bool.true_or, if_true, Bool.false_eq_true, if_false, Option.map_map]
          rfl
        · rw [findById_findByIdAndUpdate _ _ _ _ ht, hexec]
          have hat : (a._id == target) = false := by simpa using ht
          simp [hat]

theorem checkAndRun_findById_bumped (f : Faults) (now : Nat) (db : DB) (task : Task)
    (triggerType userId : String) (c : EventConditions) (hid : distinctAutomationIds db)
    (hq : f.automationFind triggerType = false)
    (hb : ∀ a ∈ Automation.find db task.project triggerType, f.bookkeeping a._id = false)
    (a : Automation) (ha : a ∈ db.automations) :
    Automation.findById
        (checkAndRunAutomationsForTask f now db task triggerType userId (some c)).db a._id =
      some (if a ∈ Automation.find db task.project triggerType ∧
              ruleMatches triggerType (some c) a = true
            then a.bumped now else a) := by
  have hfind : (Automation.find db task.project triggerType).any
      (fun x => x._id == a._id && ruleMatches triggerType (some c) x) =
      decide (a ∈ Automation.find db task.project triggerType ∧
        ruleMatches triggerType (some c) a = true) := by
    rw [Bool.eq_iff_iff]
    simp only [List.any_eq_true, Bool.and_eq_true, beq_iff_eq, decide_eq_true_eq]
    constructor
    · rintro ⟨x, hx, hxa, hm⟩
      have hxm := ((mem_find_iff db task.project triggerType x).mp hx).1
      have e1 := findById_of_mem db hid x hxm
      rw [hxa, findById_of_mem db hid a ha] at e1
      have : a = x := Option.some.inj e1
      subst this
      exact ⟨hx, hm⟩
    · rintro ⟨hx, hm⟩
      exact ⟨a, hx, rfl, hm⟩
  unfold checkAndRunAutomationsForTask
  simp only [hq, Bool.false_eq_true, if_false]
  by_cases h0 : (Automation.find db task.project triggerType).length = 0
  · simp only [h0, if_true]
    rw [findById_of_mem db hid a ha]
    rw [List.length_eq_zero] at h0
    simp [h0]
  · simp only [h0, if_false]
    have hnd : ((Automation.find db task.project triggerType).map (fun a => a._id)).Nodup :=
      List.Nodup.sublist ((List.filter_sublist _).map _) hid
    rw [forAutomations_findById_bumped f now task triggerType userId (some c) a._id _ _
      hnd hb (fun x _ => shouldRun_ne_none _ _ x)]
    simp only [findById_of_mem db hid a ha, Option.map_some', hfind]
    congr 1
    by_cases hcond : a ∈ Automation.find db task.project triggerType ∧
        ruleMatches triggerType (some c) a = true
    · simp [hcond]
    · simp [hcond]

/-- C14. In a run whose rule query and bookkeeping updates succeed, and whichever
action writes reject: the executed rules are all the matching rules in store order,
and each of them is found afterwards with its execution count raised by one. For three
matching rules r1, r2, r3 this holds in particular when the write of r2 rejects. -/
theorem C14_failing_action_does_not_stop_the_other_rules
    (f : Faults) (now : Nat) (db : DB) (task : Task) (triggerType userId : String)
    (c : EventConditions) (hid : distinctAutomationIds db)
    (hq : f.automationFind triggerType = false)
    (hb : ∀ a ∈ Automation.find db task.project triggerType, f.bookkeeping a._id = false) :
    (checkAndRunAutomationsForTask f now db task triggerType userId (some c)).executed =
      (Automation.find db task.project triggerType).filter
        (ruleMatches triggerType (some c)) ∧
    (∀ a ∈ Automation.find db task.project triggerType,
      ruleMatches triggerType (some c) a = true →
      a ∈ (checkAndRunAutomationsForTask f now db task triggerType userId
            (some c)).executed ∧
        (Automation.findById
          (checkAndRunAutomationsForTask f now db task triggerType userId (some c)).db
          a._id).map (fun x => x.executionCount) = some (a.executionCount + 1)) ∧
    (∀ r1 r2 r3, Automation.find db task.project triggerType = [r1, r2, r3] →
      ruleMatches triggerType (some c) r1 = true →
      ruleMatches triggerType (some c) r2 = true →
      ruleMatches triggerType (some c) r3 = true →
      (f.taskUpdate r2._id = true ∨ f.userUpdate r2._id = true ∨
        f.notificationCreate r2._id = true) →
      (checkAndRunAutomationsForTask f now db task triggerType userId (some c)).executed =
        [r1, r2, r3] ∧
      (Automation.findById
        (checkAndRunAutomationsForTask f now db task triggerType userId (some c)).db
        r1._id).map (fun x => x.executionCount) = some (r1.executionCount + 1) ∧
      (Automation.findById
        (checkAndRunAutomationsForTask f now db task triggerType userId (some c)).db
        r3._id).map (fun x => x.executionCount) = some (r3.executionCount + 1)) := by
  have key := checkAndRun_executed f now db task triggerType userId (some c) hq hb
    (fun x _ => shouldRun_ne_none _ _ x)
  have hcount : ∀ a ∈ Automation.find db task.project triggerType,
      ruleMatches triggerType (some c) a = true →
      (Automation.findById
        (checkAndRunAutomationsForTask f now db task triggerType userId (some c)).db
        a._id).map (fun x => x.executionCount) = some (a.executionCount + 1) := by
    intro a ha hm
    rw [checkAndRun_findById_bumped f now db task triggerType userId c hid hq hb a
      ((mem_find_iff _ _ _ a).mp ha).1]
    simp [ha, hm, Automation.bumped]
  refine ⟨key, ?_, ?_⟩
  · intro a ha hm
    refine ⟨?_, hcount a ha hm⟩
    rw [key]
    exact List.mem_filter.mpr ⟨ha, hm⟩
  · intro r1 r2 r3 hfind h1 h2 h3 _
    refine ⟨?_, hcount r1 (by simp [hfind]) h1, hcount r3 (by simp [hfind]) h3⟩
    rw [key, hfind]
    simp [List.filter_cons, h1, h2, h3]

/-- C14 on the sample board: three rules match the move to "Done", the task write of
the second rejects; all three are executed and the first and third are counted. -/
theorem C14_failing_action_does_not_stop_the_other_rules_witness :
    failReviewWrite.taskUpdate rReview._id = true ∧
    (checkAndRunAutomationsForTask failReviewWrite 7
        (boardDB fixBugDoneOfBob [rAny, rReview, rFinisher]) fixBugDoneOfBob
        "taskStatusChange" alice._id
        (some { fromStatus := some "To Do", toStatus := some "Done" })).executed =
      [rAny, rReview, rFinisher] ∧
    (Automation.findById
      (checkAndRunAutomationsForTask failReviewWrite 7
        (boardDB fixBugDoneOfBob [rAny, rReview, rFinisher]) fixBugDoneOfBob
        "taskStatusChange" alice._id
        (some { fromStatus := some "To Do", toStatus := some "Done" })).db
      rAny._id).map (fun x => x.executionCount) = some (rAny.executionCount + 1) ∧
    (Automation.findById
      (checkAndRunAutomationsForTask failReviewWrite 7
        (boardDB fixBugDoneOfBob [rAny, rReview, rFinisher]) fixBugDoneOfBob
        "taskStatusChange" alice._id
        (some { fromStatus := some "To Do", toStatus := some "Done" })).db
      rFinisher._id).map (fun x => x.executionCount) =
        some (rFinisher.executionCount + 1) :=
  ⟨by decide,
    (C14_failing_action_does_not_stop_the_other_rules failReviewWrite 7
      (boardDB fixBugDoneOfBob [rAny, rReview, rFinisher]) fixBugDoneOfBob
      "taskStatusChange" alice._id { fromStatus := some "To Do", toStatus := some "Done" }
      (by decide) rfl (fun _ _ => rfl)).2.2 rAny rReview rFinisher (by decide)
      (by decide) (by decide) (by decide) (Or.inl (by decide))⟩

/-- C15 as stated fails. The only rule matches the move to "Done" and its task write
rejects: the stored task keeps status "Done" and an empty history, yet the rule is
found afterwards with execution count 1 and its last-executed time set. -/
theorem C15_failed_action_is_still_counted :
    failReviewWrite.taskUpdate rReview._id = true ∧
    (executeAutomationActionTry failReviewWrite 7 rReview fixBugDone alice._id
        (boardDB fixBugDone [rReview])).threw = true ∧
    (checkAndRunAutomationsForTask failReviewWrite 7 (boardDB fixBugDone [rReview])
        fixBugDone "taskStatusChange" alice._id (statusEvent "To Do" "Done")).db.tasks =
      [fixBugDone] ∧
    rReview.executionCount = 0 ∧ rReview.lastExecuted = none ∧
    (Automation.findById
        (checkAndRunAutomationsForTask failReviewWrite 7 (boardDB fixBugDone [rReview])
          fixBugDone "taskStatusChange" alice._id (statusEvent "To Do" "Done")).db
        rReview._id).map (fun x => (x.executionCount, x.lastExecuted)) =
      some (1, some 7) := by
  decide

/-- C15, amended. In a run whose rule query and bookkeeping updates succeed, a stored
rule is found afterwards with its execution count raised by one and its last-executed
time set to the time of the run exactly when it was returned by the query and matched
the event, whether its action write succeeded or threw; every other stored rule is
found as it was. -/
theorem C15_bookkeeping_follows_every_matched_rule
    (f : Faults) (now : Nat) (db : DB) (task : Task) (triggerType userId : String)
    (c : EventConditions) (hid : distinctAutomationIds db)
    (hq : f.automationFind triggerType = false)
    (hb : ∀ a ∈ Automation.find db task.project triggerType, f.bookkeeping a._id = false) :
    (∀ a ∈ Automation.find db task.project triggerType,
      ruleMatches triggerType (some c) a = true →
      Automation.findById
        (checkAndRunAutomationsForTask f now db task triggerType userId (some c)).db
        a._id =
        some { a with executionCount := a.executionCount + 1, lastExecuted := some now,
                      updatedAt := now }) ∧
    (∀ a ∈ db.automations,
      ¬ (a ∈ Automation.find db task.project triggerType ∧
          ruleMatches triggerType (some c) a = true) →
      Automation.findById
        (checkAndRunAutomationsForTask f now db task triggerType userId (some c)).db
        a._id = some a) := by
  constructor
  · intro a ha hm
    rw [checkAndRun_findById_bumped f now db task triggerType userId c hid hq hb a
      ((mem_find_iff _ _ _ a).mp ha).1]
    simp [ha, hm, Automation.bumped]
  · intro a ha hn
    rw [checkAndRun_findById_bumped f now db task triggerType userId c hid hq hb a ha]
    simp [hn]

/-- C15, amended, on the sample board: the rule whose task write rejects is counted
once and stamped with the time of the run. -/
theorem C15_bookkeeping_follows_every_matched_rule_witness :
    failReviewWrite.taskUpdate rReview._id = true ∧
    Automation.findById
      (checkAndRunAutomationsForTask failReviewWrite 7 (boardDB fixBugDone [rReview])
        fixBugDone "taskStatusChange" alice._id
        (some { fromStatus := some "To Do", toStatus := some "Done" })).db rReview._id =
      some { rReview with executionCount := rReview.executionCount + 1,
                          lastExecuted := some 7, updatedAt := 7 } :=
  ⟨by decide,
    (C15_bookkeeping_follows_every_matched_rule failReviewWrite 7
      (boardDB fixBugDone [rReview]) fixBugDone "taskStatusChange" alice._id
      { fromStatus := some "To Do", toStatus := some "Done" } (by decide) rfl
      (fun _ _ => rfl)).1 rReview (by decide) (by decide)⟩

theorem forAutomations_append (f : Faults) (now : Nat) (task : Task)
    (triggerType userId : String) (c : EventConditions) :
    ∀ (pre rest : List Automation) (r : RunResult),
      (∀ a ∈ pre, f.bookkeeping a._id = false) →
      forAutomations f now task triggerType userId (some c) (pre ++ rest) r =
        forAutomations f now task triggerType userId (some c) rest
          (forAutomations f now task triggerType userId (some c) pre r) := by
  intro pre
  induction pre with
  | nil => intro rest r _; simp [forAutomations]
  | cons a pre ih =>
    intro rest r hb
    have hb1 : f.bookkeeping a._id = false := hb a (List.mem_cons_self _ _)
    have hbr : ∀ x ∈ pre, f.bookkeeping x._id = false :=
      fun x hx => hb x (List.mem_cons_of_mem _ hx)
    cases hsa : shouldRun triggerType (some c) a with
    | none => exact absurd hsa (shouldRun_ne_none _ _ _)
    | some b =>
      cases b with
      | false => simp [forAutomations, hsa, ih rest _ hbr]
      | true => simp [forAutomations, hsa, hb1, ih rest _ hbr]

theorem forAutomations_cons_rejected (f : Faults) (now : Nat) (task : Task)
    (triggerType userId : String) (conditions : Option EventConditions) (r : Automation)
    (post : List Automation) (s : RunResult)
    (hsr : shouldRun triggerType conditions r = some true)
    (hfail : f.bookkeeping r._id = true) :
    forAutomations f now task triggerType userId conditions (r :: post) s =
      { db := executeAutomationAction f now r task userId s.db,
        executed := s.executed ++ [r] } := by
  simp [forAutomations, hsr, hfail]

/-- C16 as stated fails. Two rules match the move to "Done" and the bookkeeping update
of the first rejects: the first rule's status write stays applied, the second rule is
not executed, and Bob is left without its badge. -/
theorem C16_rules_after_failed_bookkeeping_are_skipped :
    failReviewBookkeeping.bookkeeping rReview._id = true ∧
    (Automation.find (boardDB fixBugDoneOfBob [rReview, rFinisher]) fixBugDoneOfBob.project
        "taskStatusChange").filter
        (ruleMatches "taskStatusChange" (statusEvent "To Do" "Done")) =
      [rReview, rFinisher] ∧
    (checkAndRunAutomationsForTask failReviewBookkeeping 7
        (boardDB fixBugDoneOfBob [rReview, rFinisher]) fixBugDoneOfBob "taskStatusChange"
        alice._id (statusEvent "To Do" "Done")).executed = [rReview] ∧
    (Task.findById
        (checkAndRunAutomationsForTask failReviewBookkeeping 7
          (boardDB fixBugDoneOfBob [rReview, rFinisher]) fixBugDoneOfBob "taskStatusChange"
          alice._id (statusEvent "To Do" "Done")).db fixBug._id).map (fun t => t.status) =
      some "In Progress" ∧
    (User.findById
        (checkAndRunAutomationsForTask failReviewBookkeeping 7
          (boardDB fixBugDoneOfBob [rReview, rFinisher]) fixBugDoneOfBob "taskStatusChange"
          alice._id (statusEvent "To Do" "Done")).db bob._id).map (fun u => u.badges) =
      some [] := by
  decide

/-- C16, amended. When the rules before r have their bookkeeping updates succeed and
the bookkeeping update of the matching rule r rejects, the failure ends the loop in the
`catch` that encloses it: the run is over with the database exactly as r's action left
it on top of the earlier rules, r is the last rule executed, and no rule after r in
store order is executed. -/
theorem C16_failed_bookkeeping_ends_the_loop_after_the_action
    (f : Faults) (now : Nat) (db : DB) (task : Task) (triggerType userId : String)
    (c : EventConditions) (pre post : List Automation) (r : Automation)
    (hq : f.automationFind triggerType = false)
    (hfind : Automation.find db task.project triggerType = pre ++ r :: post)
    (hpre : ∀ a ∈ pre, f.bookkeeping a._id = false)
    (hr : ruleMatches triggerType (some c) r = true)
    (hfail : f.bookkeeping r._id = true) :
    (checkAndRunAutomationsForTask f now db task triggerType userId (some c)).db =
      executeAutomationAction f now r task userId
        (forAutomations f now task triggerType userId (some c) pre { db := db }).db ∧
    (checkAndRunAutomationsForTask f now db task triggerType userId (some c)).executed =
      pre.filter (ruleMatches triggerType (some c)) ++ [r] ∧
    (∀ a ∈ post, a._id ∉ (pre ++ [r]).map (fun x => x._id) →
      a ∉ (checkAndRunAutomationsForTask f now db task triggerType userId
            (some c)).executed) := by
  have hsr : shouldRun triggerType (some c) r = some true := by
    simpa [ruleMatches] using hr
  have hrun : checkAndRunAutomationsForTask f now db task triggerType userId (some c) =
      { db := executeAutomationAction f now r task userId
          (forAutomations f now task triggerType userId (some c) pre { db := db }).db,
        executed := pre.filter (ruleMatches triggerType (some c)) ++ [r] } := by
    unfold checkAndRunAutomationsForTask
    simp only [hq, Bool.false_eq_true, if_false, hfind]
    have h0 : ¬ (pre ++ r :: post).length = 0 := by simp
    simp only [h0, if_false]
    rw [forAutomations_append f now task triggerType userId c pre (r :: post) _ hpre]
    have hex := forAutomations_executed f now task triggerType userId (some c) pre
      { db := db } hpre (fun x _ => shouldRun_ne_none _ _ x)
    rw [forAutomations_cons_rejected f now task triggerType userId (some c) r post _ hsr hfail,
      hex]
    simp
  rw [hrun]
  refine ⟨rfl, rfl, ?_⟩
  intro a _ hid hmem
  apply hid
  simp only [List.mem_append, List.mem_filter, List.mem_singleton] at hmem
  simp only [List.map_append, List.map_cons, List.map_nil, List.mem_append, List.mem_map,
    List.mem_singleton]
  rcases hmem with h | h
  · exact Or.inl ⟨a, h.1, rfl⟩
  · exact Or.inr (by rw [h])

/-- C16, amended, on the sample board: the badge rule stored after the rule whose
bookkeeping rejects is not executed. -/
theorem C16_failed_bookkeeping_ends_the_loop_after_the_action_witness :
    failReviewBookkeeping.bookkeeping rReview._id = true ∧
    rFinisher ∉ (checkAndRunAutomationsForTask failReviewBookkeeping 7
        (boardDB fixBugDoneOfBob [rAny, rReview, rFinisher]) fixBugDoneOfBob
        "taskStatusChange" alice._id
        (some { fromStatus := some "To Do", toStatus := some "Done" })).executed :=
  ⟨by decide,
    (C16_failed_bookkeeping_ends_the_loop_after_the_action failReviewBookkeeping 7
      (boardDB fixBugDoneOfBob [rAny, rReview, rFinisher]) fixBugDoneOfBob
      "taskStatusChange" alice._id { fromStatus := some "To Do", toStatus := some "Done" }
      [rAny] [rFinisher] rReview rfl (by decide) (by decide) (by decide) (by decide)).2.2
      rFinisher (by decide) (by decide)⟩

/-! ## The response of `updateTask` -/

theorem populateAssignee_congr (db db2 : DB) (t : Task) (h : db2.users = db.users) :
    populateAssignee db2 t = populateAssignee db t := by
  unfold populateAssignee
  rw [h]

theorem afterSave_users (db : DB) (task : Task) (body : UpdateBody) (user : String)
    (now : Nat) : (afterSave db task body user now).users = db.users := by
  unfold afterSave Task.save
  simp only []
  split_ifs <;> rfl

theorem afterSave_automations (db : DB) (task : Task) (body : UpdateBody) (user : String)
    (now : Nat) : (afterSave db task body user now).automations = db.automations := by
  unfold afterSave Task.save
  simp only []
  split_ifs <;> rfl

theorem afterSave_findById (db : DB) (id : String) (task : Task) (body : UpdateBody)
    (user : String) (now : Nat) (htask : Task.findById db id = some task) :
    Task.findById (afterSave db task body user now) id =
      some (savedTask db task body user now) := by
  unfold afterSave
  apply findById_save _ id task
  · unfold Task.findById
    rw [ite_create_tasks]
    exact htask
  · exact findById_id db id task htask

theorem updateTask_success (f : Faults) (now : Nat) (db : DB) (user id : String)
    (body : UpdateBody) (task : Task) (project : Project)
    (hv : validationErrors body = false) (h1 : f.taskFindById = false)
    (htask : Task.findById db id = some task) (h2 : f.projectFindById = false)
    (hproject : Project.findById db task.project = some project)
    (hstatus : truthy body.status = true →
      project.statuses.any (fun s => some s.name == body.status) = true)
    (h3 : f.userFindOne = false) (h4 : f.assignNotification = false)
    (h5 : f.taskSave = false) (h6 : f.taskReload = false) :
    updateTask f now db user id body =
      { response :=
          { status := 200,
            data := some (populateAssignee db (savedTask db task body user now)) },
        db := (runAutomations f now (afterSave db task body user now)
          (populateAssignee db (savedTask db task body user now)) user body.status
          task.status (resolveAssigneeId db body.assigneeId) task.assignee).1,
        calls := (runAutomations f now (afterSave db task body user now)
          (populateAssignee db (savedTask db task body user now)) user body.status
          task.status (resolveAssigneeId db body.assigneeId) task.assignee).2.1,
        executed := (runAutomations f now (afterSave db task body user now)
          (populateAssignee db (savedTask db task body user now)) user body.status
          task.status (resolveAssigneeId db body.assigneeId) task.assignee).2.2 } := by
  have hst : (truthy body.status &&
      !(project.statuses.any (fun s => some s.name == body.status))) = false := by
    cases ht : truthy body.status with
    | false => rfl
    | true => simp [hstatus ht]
  have hfind := afterSave_findById db id task body user now htask
  have hpop := populateAssignee_congr db (afterSave db task body user now)
    (savedTask db task body user now) (afterSave_users db task body user now)
  unfold afterSave savedTask requestHistory at hfind hpop
  unfold updateTask afterSave savedTask requestHistory
  simp only [hv, h1, htask, h2, hproject, hst, h3, h4, h5, h6, Bool.and_false,
    Bool.false_eq_true, if_false, hfind, hpop]

/-- C17. The matcher has no error result: whatever rejects in the rule query, the
action writes and the bookkeeping updates, a request that passes validation, finds its
task and project, names a valid status if any, and whose user lookup, assignment
notification, save and reload do not reject, is answered 200 with the task as saved
and reloaded. -/
theorem C17_automation_failures_do_not_change_the_response
    (f : Faults) (now : Nat) (db : DB) (user id : String) (body : UpdateBody)
    (task : Task) (project : Project)
    (hv : validationErrors body = false) (h1 : f.taskFindById = false)
    (htask : Task.findById db id = some task) (h2 : f.projectFindById = false)
    (hproject : Project.findById db task.project = some project)
    (hstatus : truthy body.status = true →
      project.statuses.any (fun s => some s.name == body.status) = true)
    (h3 : f.userFindOne = false) (h4 : f.assignNotification = false)
    (h5 : f.taskSave = false) (h6 : f.taskReload = false) :
    (updateTask f now db user id body).response =
      { status := 200,
        data := some (populateAssignee db (savedTask db task body user now)) } := by
  rw [updateTask_success f now db user id body task project hv h1 htask h2 hproject hstatus
    h3 h4 h5 h6]

/-- C17 on the sample board: with every automation call rejecting, the move of the
task to "Done" is answered 200 with the task in status "Done". -/
theorem C17_automation_failures_do_not_change_the_response_witness :
    failAllAutomationCalls.automationFind "taskStatusChange" = true ∧
    (updateTask failAllAutomationCalls 7 (boardDB fixBugInProgress [rFinisher, rReview])
        alice._id fixBug._id { status := some "Done" }).response.data.map
        (fun t => (t.status, t.assignee)) = some ("Done", some bob._id) ∧
    (updateTask failAllAutomationCalls 7 (boardDB fixBugInProgress [rFinisher, rReview])
        alice._id fixBug._id { status := some "Done" }).response.status = 200 :=
  ⟨rfl, by decide,
    congrArg Response.status
      (C17_automation_failures_do_not_change_the_response failAllAutomationCalls 7
        (boardDB fixBugInProgress [rFinisher, rReview]) alice._id fixBug._id
        { status := some "Done" } fixBugInProgress board rfl rfl (by decide) rfl (by decide)
        (fun _ => by decide) rfl rfl rfl rfl)⟩

theorem checkAndRun_single (f : Faults) (now : Nat) (db : DB) (task : Task)
    (triggerType userId : String) (conditions : Option EventConditions) (r : Automation)
    (hfind : Automation.find db task.project triggerType = [r])
    (hq : f.automationFind triggerType = false)
    (hm : shouldRun triggerType conditions r = some true)
    (hb : f.bookkeeping r._id = false) :
    checkAndRunAutomationsForTask f now db task triggerType userId conditions =
      { db := Automation.findByIdAndUpdate
          (executeAutomationAction f now r task userId db) r._id now,
        executed := [r] } := by
  unfold checkAndRunAutomationsForTask
  simp [hq, hfind, forAutomations, hm, hb]

theorem executeAutomationAction_assignBadge (f : Faults) (now : Nat) (a : Automation)
    (task : Task) (userId : String) (db : DB) (badge u : String)
    (ha : a.action.type = "assignBadge") (hb : a.action.params.badgeName = some badge)
    (hne : badge ≠ "") (ht : task.assignee = some u) (hf : f.userUpdate a._id = false)
    (hn : f.notificationCreate a._id = false) :
    executeAutomationAction f now a task userId db =
      Notification.create (User.findByIdAndUpdate db u badge now)
        { recipient := u, type := "success", title := "Badge Awarded",
          message := "You earned the \"" ++ badge ++ "\" badge!",
          relatedTask := task._id, relatedProject := task.project, createdBy := userId } := by
  have h1 : (!(badge == "")) = true := by simp [hne]
  unfold executeAutomationAction executeAutomationActionTry
  simp only [ha, hb, ht, hf, hn, truthy, Option.getD_some, Option.isSome_some,
    show ¬ ("assignBadge" = "changeTaskStatus") by decide, if_false, if_true, h1,
    Bool.and_self, Bool.false_eq_true]

/-- C18. End to end, with no store call rejecting: the project's statuses are "To Do",
"In Progress" and "Done"; the only stored rule R1 is active, of the task's project,
triggered by a status change to "Done", awards "Finisher" and has execution count 0;
the task is in status "In Progress" and assigned to the stored user U. The request
setting the status to "Done" is answered 200, leaves "Finisher" among U's badges,
leaves a notification addressed to U, and leaves R1 with execution count 1. -/
theorem C18_end_to_end_finisher
    (now : Nat) (db : DB) (user id : String) (task : Task) (project : Project) (u : User)
    (r1 : Automation)
    (htask : Task.findById db id = some task)
    (hproject : Project.findById db task.project = some project)
    (hstatuses : project.statuses.map (fun s => s.name) = ["To Do", "In Progress", "Done"])
    (hstatus : task.status = "In Progress")
    (hassignee : task.assignee = some u._id)
    (huser : User.findById db u._id = some u)
    (hrules : db.automations = [r1])
    (hp : r1.project = task.project) (hactive : r1.active = true)
    (htrigger : r1.trigger.type = "taskStatusChange")
    (hfrom : r1.trigger.conditions.fromStatus = none)
    (hto : r1.trigger.conditions.toStatus = some "Done")
    (haction : r1.action.type = "assignBadge")
    (hbadge : r1.action.params.badgeName = some "Finisher")
    (hcount : r1.executionCount = 0) :
    (updateTask Faults.none now db user id { status := some "Done" }).response.status = 200 ∧
    (∃ stored, User.findById
        (updateTask Faults.none now db user id { status := some "Done" }).db u._id =
          some stored ∧ "Finisher" ∈ stored.badges) ∧
    (∃ n ∈ (updateTask Faults.none now db user id { status := some "Done" }).db.notifications,
      n.recipient = u._id) ∧
    (Automation.findById
        (updateTask Faults.none now db user id { status := some "Done" }).db r1._id).map
      (fun a => a.executionCount) = some 1 := by
  have hvalid : truthy ({ status := some "Done" } : UpdateBody).status = true →
      project.statuses.any
        (fun s => some s.name == ({ status := some "Done" } : UpdateBody).status) = true := by
    intro _
    have : "Done" ∈ project.statuses.map (fun s => s.name) := by rw [hstatuses]; decide
    rcases List.mem_map.mp this with ⟨s, hs, hn⟩
    exact List.any_eq_true.mpr ⟨s, hs, by simp [hn]⟩
  rw [updateTask_success Faults.none now db user id { status := some "Done" } task project
    rfl rfl htask rfl hproject hvalid rfl rfl rfl rfl]
  have hres : resolveAssigneeId db ({ status := some "Done" } : UpdateBody).assigneeId =
      none := rfl
  have huany : db.users.any (fun x => x._id == u._id) = true := by
    unfold User.findById at huser
    exact List.any_eq_true.mpr
      ⟨u, List.mem_of_find?_eq_some huser, by simp⟩
  have hsaved : savedTask db task { status := some "Done" } user now =
      { task with status := "Done",
                  history := task.history ++
                    [{ field := "status", oldValue := "In Progress", newValue := "Done",
                       changedBy := user, changedAt := now }] } := by
    unfold savedTask requestHistory applyUpdate titleStatusHistory assigneeChanges
    simp [hres, truthy, hstatus]
  have hpop : populateAssignee db (savedTask db task { status := some "Done" } user now) =
      savedTask db task { status := some "Done" } user now := by
    rw [hsaved]
    unfold populateAssignee
    simp [hassignee, huany]
  rw [hpop]
  have hfind : Automation.find (afterSave db task { status := some "Done" } user now)
      (savedTask db task { status := some "Done" } user now).project "taskStatusChange" =
      [r1] := by
    unfold Automation.find
    rw [afterSave_automations, hrules, hsaved]
    simp [hp, hactive, htrigger]
  have hmatch : shouldRun "taskStatusChange"
      (some { fromStatus := some task.status, toStatus := some "Done" }) r1 = some true := by
    simp [shouldRun, hfrom, hto, truthy]
  have hrun := checkAndRun_single Faults.none now
    (afterSave db task { status := some "Done" } user now)
    (savedTask db task { status := some "Done" } user now) "taskStatusChange" user
    (some { fromStatus := some task.status, toStatus := some "Done" }) r1 hfind rfl hmatch rfl
  have hexec := executeAutomationAction_assignBadge Faults.none now r1
    (savedTask db task { status := some "Done" } user now) user
    (afterSave db task { status := some "Done" } user now) "Finisher" u._id haction hbadge
    (by decide) (by rw [hsaved]; exact hassignee) rfl rfl
  rw [hexec] at hrun
  have hguard : (truthy (some "Done") && (some "Done" != some task.status)) = true := by
    rw [hstatus]; decide
  unfold runAutomations
  simp only [hres, hguard, if_true, hrun]
  refine ⟨trivial, ?_, ?_, ?_⟩
  · refine ⟨{ u with badges := addToSet u.badges "Finisher", updatedAt := now }, ?_, ?_⟩
    · show User.findById (User.findByIdAndUpdate _ u._id "Finisher" now) u._id = _
      rw [findById_user_updateFirst]
      unfold User.findById at huser ⊢
      rw [afterSave_users, huser]
      rfl
    · unfold addToSet
      split_ifs with h
      · exact h
      · simp
  · exact ⟨_, List.mem_append_right _ (List.mem_singleton_self _), rfl⟩
  · show (Automation.findById (Automation.findByIdAndUpdate _ r1._id now) r1._id).map _ = _
    rw [findById_findByIdAndUpdate_same]
    unfold Automation.findById
    show Option.map _ (Option.map _ (List.find? _
      (afterSave db task { status := some "Done" } user now).automations)) = _
    rw [afterSave_automations, hrules]
    simp [Automation.bumped, hcount]

/-- C18 on the sample board: Alice moves Bob's task from "In Progress" to "Done" with
the rule R1 stored. -/
theorem C18_end_to_end_finisher_witness :
    (updateTask Faults.none 7 (boardDB fixBugInProgress [rFinisher]) alice._id fixBug._id
        { status := some "Done" }).response.status = 200 ∧
    (∃ stored, User.findById
        (updateTask Faults.none 7 (boardDB fixBugInProgress [rFinisher]) alice._id
          fixBug._id { status := some "Done" }).db bob._id = some stored ∧
        "Finisher" ∈ stored.badges) ∧
    (∃ n ∈ (updateTask Faults.none 7 (boardDB fixBugInProgress [rFinisher]) alice._id
        fixBug._id { status := some "Done" }).db.notifications, n.recipient = bob._id) ∧
    (Automation.findById
        (updateTask Faults.none 7 (boardDB fixBugInProgress [rFinisher]) alice._id
          fixBug._id { status := some "Done" }).db rFinisher._id).map
      (fun a => a.executionCount) = some 1 :=
  C18_end_to_end_finisher 7 (boardDB fixBugInProgress [rFinisher]) alice._id fixBug._id
    fixBugInProgress board bob rFinisher (by decide) (by decide) (by decide) rfl rfl
    (by decide) rfl rfl rfl rfl rfl rfl rfl rfl rfl

/-! ## The frame of a matcher call -/

theorem forall₂_self {α : Type} (R : α → α → Prop) (h : ∀ x, R x x) :
    ∀ l : List α, List.Forall₂ R l l := by
  intro l
  induction l with
  | nil => exact List.Forall₂.nil
  | cons x xs ih => exact List.Forall₂.cons (h x) ih

theorem forall₂_chain {α : Type} (R : α → α → Prop)
    (h : ∀ x y z, R x y → R y z → R x z) :
    ∀ l1 l2 l3 : List α, List.Forall₂ R l1 l2 → List.Forall₂ R l2 l3 →
      List.Forall₂ R l1 l3 := by
  intro l1 l2 l3 h12
  induction h12 generalizing l3 with
  | nil => intro h23; cases h23; exact List.Forall₂.nil
  | cons hab _ ih =>
    intro h23
    cases h23 with
    | cons hbc hrest => exact List.Forall₂.cons (h _ _ _ hab hbc) (ih _ hrest)

theorem forall₂_updateFirst {α : Type} (R : α → α → Prop) (p : α → Bool) (g : α → α)
    (hrefl : ∀ x, R x x) (hg : ∀ x, p x = true → R x (g x)) :
    ∀ l : List α, List.Forall₂ R l (updateFirst p g l) := by
  intro l
  induction l with
  | nil => exact List.Forall₂.nil
  | cons x xs ih =>
    unfold updateFirst
    split_ifs with hp
    · exact List.Forall₂.cons (hg x hp) (forall₂_self R hrefl xs)
    · exact List.Forall₂.cons (hrefl x) ih

theorem taskFrame_self (target : String) (t : Task) : taskFrame target t t :=
  ⟨⟨rfl, rfl, rfl, rfl, rfl, rfl, rfl, rfl, rfl⟩, fun _ => rfl⟩

theorem taskFrame_chain (target : String) (x y z : Task) (h1 : taskFrame target x y)
    (h2 : taskFrame target y z) : taskFrame target x z := by
  obtain ⟨⟨a1, a2, a3, a4, a5, a6, a7, a8, a9⟩, ha⟩ := h1
  obtain ⟨⟨b1, b2, b3, b4, b5, b6, b7, b8, b9⟩, hb⟩ := h2
  refine ⟨⟨b1.trans a1, b2.trans a2, b3.trans a3, b4.trans a4, b5.trans a5, b6.trans a6,
    b7.trans a7, b8.trans a8, b9.trans a9⟩, ?_⟩
  intro hne
  have hy : y = x := ha hne
  rw [hy] at hb
  rw [hb hne]

theorem userFrame_self (assignee : Option String) (u : User) : userFrame assignee u u :=
  ⟨⟨rfl, rfl, rfl, rfl, rfl⟩, fun _ => rfl⟩

theorem userFrame_chain (assignee : Option String) (x y z : User)
    (h1 : userFrame assignee x y) (h2 : userFrame assignee y z) : userFrame assignee x z := by
  obtain ⟨⟨a1, a2, a3, a4, a5⟩, ha⟩ := h1
  obtain ⟨⟨b1, b2, b3, b4, b5⟩, hb⟩ := h2
  refine ⟨⟨b1.trans a1, b2.trans a2, b3.trans a3, b4.trans a4, b5.trans a5⟩, ?_⟩
  intro hne
  have hy : y = x := ha hne
  rw [hy] at hb
  rw [hb hne]

theorem agreesButBookkeeping_self (a : Automation) : Automation.agreesButBookkeeping a a :=
  ⟨rfl, rfl, rfl, rfl, rfl, rfl, rfl⟩

theorem agreesButBookkeeping_chain (x y z : Automation)
    (h1 : Automation.agreesButBookkeeping x y) (h2 : Automation.agreesButBookkeeping y z) :
    Automation.agreesButBookkeeping x z := by
  obtain ⟨a1, a2, a3, a4, a5, a6, a7⟩ := h1
  obtain ⟨b1, b2, b3, b4, b5, b6, b7⟩ := h2
  exact ⟨b1.trans a1, b2.trans a2, b3.trans a3, b4.trans a4, b5.trans a5, b6.trans a6,
    b7.trans a7⟩

theorem Frame.same (task : Task) (db : DB) : Frame task db db :=
  { projects := rfl
    tasks := forall₂_self _ (taskFrame_self _) _
    users := forall₂_self _ (userFrame_self _) _
    automations := forall₂_self _ agreesButBookkeeping_self _
    notifications := List.prefix_refl _ }

theorem Frame.chain (task : Task) (db1 db2 db3 : DB) (h1 : Frame task db1 db2)
    (h2 : Frame task db2 db3) : Frame task db1 db3 :=
  { projects := h2.projects.trans h1.projects
    tasks := forall₂_chain _ (taskFrame_chain _) _ _ _ h1.tasks h2.tasks
    users := forall₂_chain _ (userFrame_chain _) _ _ _ h1.users h2.users
    automations := forall₂_chain _ agreesButBookkeeping_chain _ _ _ h1.automations
      h2.automations
    notifications := List.IsPrefix.trans h1.notifications h2.notifications }

theorem frame_taskUpdate (task : Task) (db : DB) (status : String) (entry : HistoryEntry) :
    Frame task db (Task.findByIdAndUpdate db task._id status entry) :=
  { projects := rfl
    tasks := by
      unfold Task.findByIdAndUpdate
      apply forall₂_updateFirst _ _ _ (taskFrame_self _)
      intro x hx
      refine ⟨⟨rfl, rfl, rfl, rfl, rfl, rfl, rfl, rfl, rfl⟩, ?_⟩
      intro hne
      exact absurd (by simpa using hx) hne
    users := forall₂_self _ (userFrame_self _) _
    automations := forall₂_self _ agreesButBookkeeping_self _
    notifications := List.prefix_refl _ }

theorem frame_userUpdate (task : Task) (db : DB) (u badge : String) (now : Nat)
    (ht : task.assignee = some u) :
    Frame task db (User.findByIdAndUpdate db u badge now) :=
  { projects := rfl
    tasks := forall₂_self _ (taskFrame_self _) _
    users := by
      unfold User.findByIdAndUpdate
      apply forall₂_updateFirst _ _ _ (userFrame_self _)
      intro x hx
      refine ⟨⟨rfl, rfl, rfl, rfl, rfl⟩, ?_⟩
      intro hne
      have hxu : x._id = u := by simpa using hx
      exact absurd (by rw [ht, hxu]) hne
    automations := forall₂_self _ agreesButBookkeeping_self _
    notifications := List.prefix_refl _ }

theorem frame_create (task : Task) (db : DB) (n : Notification) :
    Frame task db (Notification.create db n) :=
  { projects := rfl
    tasks := forall₂_self _ (taskFrame_self _) _
    users := forall₂_self _ (userFrame_self _) _
    automations := forall₂_self _ agreesButBookkeeping_self _
    notifications := List.prefix_append _ _ }

theorem frame_bookkeeping (task : Task) (db : DB) (id : String) (now : Nat) :
    Frame task db (Automation.findByIdAndUpdate db id now) :=
  { projects := rfl
    tasks := forall₂_self _ (taskFrame_self _) _
    users := forall₂_self _ (userFrame_self _) _
    automations := by
      unfold Automation.findByIdAndUpdate
      apply forall₂_updateFirst _ _ _ agreesButBookkeeping_self
      intro x _
      exact ⟨rfl, rfl, rfl, rfl, rfl, rfl, rfl⟩
    notifications := List.prefix_refl _ }

theorem frame_execute (f : Faults) (now : Nat) (a : Automation) (task : Task)
    (userId : String) (db : DB) :
    Frame task db (executeAutomationAction f now a task userId db) := by
  cases hta : task.assignee with
  | none =>
    unfold executeAutomationAction executeAutomationActionTry
    simp only [hta, Option.isSome_none, Bool.and_false, Bool.false_eq_true, if_false]
    split_ifs
    all_goals first
      | exact Frame.same task db
      | exact frame_taskUpdate task db _ _
  | some u =>
    unfold executeAutomationAction executeAutomationActionTry
    simp only [hta, Option.getD_some]
    split_ifs
    all_goals first
      | exact Frame.same task db
      | exact frame_taskUpdate task db _ _
      | exact frame_create task db _
      | exact frame_userUpdate task db u _ _ hta
      | exact Frame.chain task _ _ _ (frame_userUpdate task db u _ _ hta)
          (frame_create task _ _)

theorem frame_forAutomations (f : Faults) (now : Nat) (task : Task)
    (triggerType userId : String) (conditions : Option EventConditions) :
    ∀ (rules : List Automation) (r : RunResult),
      Frame task r.db
        (forAutomations f now task triggerType userId conditions rules r).db := by
  intro rules
  induction rules with
  | nil => intro r; exact Frame.same task _
  | cons a rest ih =>
    intro r
    unfold forAutomations
    split
    · exact Frame.same task _
    · exact ih r
    · simp only []
      split_ifs
      · exact frame_execute f now a task userId r.db
      · exact Frame.chain task _ _ _
          (Frame.chain task _ _ _ (frame_execute f now a task userId r.db)
            (frame_bookkeeping task _ a._id now))
          (ih { db := Automation.findByIdAndUpdate
                  (executeAutomationAction f now a task userId r.db) a._id now,
                executed := r.executed ++ [a] })

theorem frame_checkAndRun (f : Faults) (now : Nat) (db : DB) (task : Task)
    (triggerType userId : String) (conditions : Option EventConditions) :
    Frame task db
      (checkAndRunAutomationsForTask f now db task triggerType userId conditions).db := by
  unfold checkAndRunAutomationsForTask
  simp only []
  split_ifs
  · exact Frame.same task db
  · exact Frame.same task db
  · exact frame_forAutomations f now task triggerType userId conditions _ { db := db }

/-- C20 as stated fails. On the board with the rule that awards "Finisher", the matcher
call for Bob's task moved to "Done" at time 7 leaves Bob with a new `updatedAt` stamp
besides the badge, and the rule with a new `updatedAt` stamp besides its execution
count and last-executed time: with the badge list, the count and the last-executed time
put back, the stored documents are still not what they were. -/
theorem C20_a_matcher_call_rewrites_the_updatedAt_stamps :
    ((User.findById
        (checkAndRunAutomationsForTask Faults.none 7 (boardDB fixBugDoneOfBob [rFinisher])
          fixBugDoneOfBob "taskStatusChange" alice._id
          (some { fromStatus := some "In Progress", toStatus := some "Done" })).db
        bob._id).map (fun u => { u with badges := bob.badges })) ≠ some bob ∧
    ((User.findById
        (checkAndRunAutomationsForTask Faults.none 7 (boardDB fixBugDoneOfBob [rFinisher])
          fixBugDoneOfBob "taskStatusChange" alice._id
          (some { fromStatus := some "In Progress", toStatus := some "Done" })).db
        bob._id).map (fun u => u.updatedAt)) = some 7 ∧
    bob.updatedAt = 0 ∧
    ((Automation.findById
        (checkAndRunAutomationsForTask Faults.none 7 (boardDB fixBugDoneOfBob [rFinisher])
          fixBugDoneOfBob "taskStatusChange" alice._id
          (some { fromStatus := some "In Progress", toStatus := some "Done" })).db
        rFinisher._id).map
      (fun a => { a with executionCount := rFinisher.executionCount,
                         lastExecuted := rFinisher.lastExecuted })) ≠ some rFinisher ∧
    ((Automation.findById
        (checkAndRunAutomationsForTask Faults.none 7 (boardDB fixBugDoneOfBob [rFinisher])
          fixBugDoneOfBob "taskStatusChange" alice._id
          (some { fromStatus := some "In Progress", toStatus := some "Done" })).db
        rFinisher._id).map (fun a => a.updatedAt)) = some 7 ∧
    rFinisher.updatedAt = 0 := by
  decide

/-- C20, amended. For every call of the matcher, whatever rejects: the projects are
unchanged; the stored tasks keep their places, a task other than the one passed is
unchanged and that task changes at most in status and history; the stored users keep
their places, a user other than the task's assignee is unchanged and the assignee
changes at most in badges and `updatedAt` stamp; the stored rules keep their places and
change at most in execution count, last-executed time and `updatedAt` stamp; the
notifications present before are all still there, in front. -/
theorem C20_frame_of_a_matcher_call
    (f : Faults) (now : Nat) (db : DB) (task : Task) (triggerType userId : String)
    (conditions : Option EventConditions) :
    (checkAndRunAutomationsForTask f now db task triggerType userId
        conditions).db.projects = db.projects ∧
    List.Forall₂ (taskFrame task._id) db.tasks
      (checkAndRunAutomationsForTask f now db task triggerType userId conditions).db.tasks ∧
    List.Forall₂ (userFrame task.assignee) db.users
      (checkAndRunAutomationsForTask f now db task triggerType userId conditions).db.users ∧
    List.Forall₂ Automation.agreesButBookkeeping db.automations
      (checkAndRunAutomationsForTask f now db task triggerType userId
        conditions).db.automations ∧
    db.notifications <+:
      (checkAndRunAutomationsForTask f now db task triggerType userId
        conditions).db.notifications :=
  have h := frame_checkAndRun f now db task triggerType userId conditions
  ⟨h.projects, h.tasks, h.users, h.automations, h.notifications⟩

/-! ## Validation of the status a rule writes -/

theorem namesUnknownStatus_iff (project : Project) (action : ActionBody)
    (params : ActionParams) (status : String)
    (htype : action.type = some "changeTaskStatus") (hparams : action.params = some params)
    (hstatus : params.status = some status) (hne : status ≠ "") :
    namesUnknownStatus project action = true ↔ ∀ s ∈ project.statuses, s.name ≠ status := by
  unfold namesUnknownStatus
  simp [htype, hparams, hstatus, truthy, hne]

/-- C19 as stated fails. A request to create a changeTaskStatus rule that carries no
`params.status` passes the route's validators and the controller's check, is answered
201 and is stored. -/
theorem C19_rule_without_status_is_persisted :
    (createAutomation Faults.none 7 (boardDB fixBug []) alice._id "3000000000000000000000ee"
        { name := some "close", projectId := some board._id,
          trigger := some { type := some "taskStatusChange" },
          action := some { type := some "changeTaskStatus" } }).status = 201 ∧
    (createAutomation Faults.none 7 (boardDB fixBug []) alice._id "3000000000000000000000ee"
        { name := some "close", projectId := some board._id,
          trigger := some { type := some "taskStatusChange" },
          action := some { type := some "changeTaskStatus" } }).db.automations.map
        (fun a => (a.action.type, a.action.params.status)) =
      [("changeTaskStatus", none)] := by
  decide

/-- C19, amended. For a request whose action has type changeTaskStatus and a non-empty
`params.status`: when the lookups succeed and the status names no status of the rule's
project, `createAutomation` and `updateAutomation` answer 400 and leave the database
as it was; and whenever either of them answers with success or changes the database,
the status names a status of the rule's project. -/
theorem C19_unknown_status_is_rejected_before_persistence
    (f : Faults) (now : Nat) (db : DB) (user newId id : String) (body : AutomationBody)
    (action : ActionBody) (params : ActionParams) (status : String)
    (haction : body.action = some action) (htype : action.type = some "changeTaskStatus")
    (hparams : action.params = some params) (hstatus : params.status = some status)
    (hne : status ≠ "") :
    (∀ project, createValidationErrors body = false → f.projectFindById = false →
      Project.findById db (body.projectId.getD "") = some project →
      (∀ s ∈ project.statuses, s.name ≠ status) →
      (createAutomation f now db user newId body).status = 400 ∧
        (createAutomation f now db user newId body).db = db) ∧
    (∀ automation project, f.automationFindById = false →
      Automation.findById db id = some automation → f.projectFindById = false →
      Project.findById db automation.project = some project →
      (∀ s ∈ project.statuses, s.name ≠ status) →
      (updateAutomation f now db id body).status = 400 ∧
        (updateAutomation f now db id body).db = db) ∧
    ((createAutomation f now db user newId body).status = 201 ∨
        (createAutomation f now db user newId body).db ≠ db →
      ∃ project, Project.findById db (body.projectId.getD "") = some project ∧
        ∃ s ∈ project.statuses, s.name = status) ∧
    ((updateAutomation f now db id body).status = 200 ∨
        (updateAutomation f now db id body).db ≠ db →
      ∃ automation project, Automation.findById db id = some automation ∧
        Project.findById db automation.project = some project ∧
        ∃ s ∈ project.statuses, s.name = status) := by
  have hiff := fun project =>
    namesUnknownStatus_iff project action params status htype hparams hstatus hne
  refine ⟨?_, ?_, ?_, ?_⟩
  · intro project hv hf hp hno
    have hu : namesUnknownStatus project action = true := (hiff project).mpr hno
    have hv2 := hv
    unfold createValidationErrors at hv2
    rw [haction] at hv2
    cases htr : body.trigger with
    | none => simp [htr] at hv2
    | some trigger =>
      unfold createAutomation
      simp [hv, hf, hp, haction, htr, hu]
  · intro automation project hf ha hf2 hp hno
    have hu : namesUnknownStatus project action = true := (hiff project).mpr hno
    unfold updateAutomation
    simp [hf, ha, hf2, hp, haction, hu]
  · intro hres
    generalize hr : createAutomation f now db user newId body = r at hres
    unfold createAutomation at hr
    split at hr
    · subst hr; simp at hres
    split at hr
    · subst hr; simp at hres
    split at hr
    · subst hr; simp at hres
    rename_i project hproject
    split at hr
    · rename_i action2 trigger hact htrig
      have hact2 : action2 = action := by
        rw [haction] at hact
        exact (Option.some.inj hact).symm
      subst hact2
      split at hr
      · subst hr; simp at hres
      · rename_i hknown
        refine ⟨project, hproject, ?_⟩
        by_contra hcon
        apply hknown
        apply (hiff project).mpr
        intro s hs hn
        exact hcon ⟨s, hs, hn⟩
    · subst hr; simp at hres
  · intro hres
    generalize hr : updateAutomation f now db id body = r at hres
    unfold updateAutomation at hr
    split at hr
    · subst hr; simp at hres
    split at hr
    · subst hr; simp at hres
    rename_i automation hautomation
    split at hr
    · subst hr; simp at hres
    split at hr
    · subst hr; simp at hres
    rename_i project hproject
    split at hr
    · subst hr; simp at hres
    · rename_i hknown
      refine ⟨automation, project, hautomation, hproject, ?_⟩
      by_contra hcon
      apply hknown
      simp only [haction]
      apply (hiff project).mpr
      intro s hs hn
      exact hcon ⟨s, hs, hn⟩

/-- C19, amended, on the sample board: a rule that would write the status "Archived",
which the board does not define, is answered 400 and nothing is stored. -/
theorem C19_unknown_status_is_rejected_before_persistence_witness :
    (createAutomation Faults.none 7 (boardDB fixBug []) alice._id "3000000000000000000000ee"
        { name := some "archive", projectId := some board._id,
          trigger := some { type := some "taskStatusChange" },
          action := some { type := some "changeTaskStatus",
                           params := some { status := some "Archived" } } }).status = 400 ∧
    (createAutomation Faults.none 7 (boardDB fixBug []) alice._id "3000000000000000000000ee"
        { name := some "archive", projectId := some board._id,
          trigger := some { type := some "taskStatusChange" },
          action := some { type := some "changeTaskStatus",
                           params := some { status := some "Archived" } } }).db =
      boardDB fixBug [] :=
  (C19_unknown_status_is_rejected_before_persistence Faults.none 7 (boardDB fixBug [])
    alice._id "3000000000000000000000ee" rDone._id
    { name := some "archive", projectId := some board._id,
      trigger := some { type := some "taskStatusChange" },
      action := some { type := some "changeTaskStatus",
                       params := some { status := some "Archived" } } }
    { type := some "changeTaskStatus", params := some { status := some "Archived" } }
    { status := some "Archived" } "Archived" rfl rfl rfl rfl (by decide)).1 board
    (by decide) rfl (by decide) (by decide)

/-! ## Execution counts -/

theorem forAutomations_count_mono (f : Faults) (now : Nat) (task : Task)
    (triggerType userId : String) (conditions : Option EventConditions) :
    ∀ (rules : List Automation) (r : RunResult),
      List.Forall₂ Automation.countLe r.db.automations
        (forAutomations f now task triggerType userId conditions rules r).db.automations := by
  have hrefl : ∀ l : List Automation, List.Forall₂ Automation.countLe l l :=
    forall₂_self Automation.countLe (fun _ => Nat.le_refl _)
  intro rules
  induction rules with
  | nil => intro r; exact hrefl _
  | cons a rest ih =>
    intro r
    unfold forAutomations
    split
    · exact hrefl _
    · exact ih r
    · simp only []
      split_ifs
      · rw [executeAutomationAction_automations]
        exact hrefl _
      · refine forall₂_chain Automation.countLe (fun x y z h1 h2 => Nat.le_trans h1 h2)
          _ _ _ ?_
          (ih { db := Automation.findByIdAndUpdate
                  (executeAutomationAction f now a task userId r.db) a._id now,
                executed := r.executed ++ [a] })
        show List.Forall₂ _ r.db.automations
          (Automation.findByIdAndUpdate (executeAutomationAction f now a task userId r.db)
            a._id now).automations
        unfold Automation.findByIdAndUpdate
        simp only [executeAutomationAction_automations]
        exact forall₂_updateFirst Automation.countLe _ _ (fun _ => Nat.le_refl _)
          (fun x _ => Nat.le_succ _) _

theorem checkAndRun_count_mono (f : Faults) (now : Nat) (db : DB) (task : Task)
    (triggerType userId : String) (conditions : Option EventConditions) :
    List.Forall₂ Automation.countLe db.automations
      (checkAndRunAutomationsForTask f now db task triggerType userId
        conditions).db.automations := by
  unfold checkAndRunAutomationsForTask
  simp only []
  split_ifs
  · exact forall₂_self Automation.countLe (fun _ => Nat.le_refl _) _
  · exact forall₂_self Automation.countLe (fun _ => Nat.le_refl _) _
  · exact forAutomations_count_mono f now task triggerType userId conditions _ { db := db }

theorem createAutomation_new_count (f : Faults) (now : Nat) (db : DB)
    (user newId : String) (body : AutomationBody) :
    ∀ a ∈ (createAutomation f now db user newId body).db.automations,
      a ∈ db.automations ∨ (a._id = newId ∧ a.executionCount = 0 ∧ a.lastExecuted = none) := by
  generalize hr : createAutomation f now db user newId body = r
  unfold createAutomation at hr
  split at hr
  · subst hr; exact fun a ha => Or.inl ha
  split at hr
  · subst hr; exact fun a ha => Or.inl ha
  split at hr
  · subst hr; exact fun a ha => Or.inl ha
  split at hr
  · split at hr
    · subst hr; exact fun a ha => Or.inl ha
    simp only [] at hr
    split at hr
    · subst hr; exact fun a ha => Or.inl ha
    split at hr
    all_goals
      subst hr
      intro a ha
      simp only [List.mem_append, List.mem_singleton] at ha
      rcases ha with h | h
      · exact Or.inl h
      · exact Or.inr (by rw [h]; exact ⟨rfl, rfl, rfl⟩)
  · subst hr; exact fun a ha => Or.inl ha

/-- C21. A rule stored by `createAutomation` has execution count 0. For every call of
the matcher, whatever rejects, no stored rule's execution count goes down; and in a run
whose rule query and bookkeeping updates succeed (distinct `_id`s), a stored rule's
count afterwards is its count before plus one if the rule was returned by the query
and matched the event, and its count before otherwise. -/
theorem C21_execution_count_starts_at_zero_and_counts_matches
    (f : Faults) (now : Nat) (db : DB) (task : Task) (triggerType userId : String)
    (c : EventConditions) (user newId : String) (body : AutomationBody) :
    (∀ a ∈ (createAutomation f now db user newId body).db.automations,
      a ∉ db.automations → a.executionCount = 0) ∧
    ((createAutomation f now db user newId body).status = 201 →
      ∃ a ∈ (createAutomation f now db user newId body).db.automations,
        a._id = newId ∧ a.executionCount = 0) ∧
    List.Forall₂ Automation.countLe db.automations
      (checkAndRunAutomationsForTask f now db task triggerType userId
        (some c)).db.automations ∧
    (distinctAutomationIds db → f.automationFind triggerType = false →
      (∀ a ∈ Automation.find db task.project triggerType, f.bookkeeping a._id = false) →
      ∀ a ∈ db.automations,
        (Automation.findById
          (checkAndRunAutomationsForTask f now db task triggerType userId (some c)).db
          a._id).map (fun x => x.executionCount) =
        some (a.executionCount +
          (if a ∈ Automation.find db task.project triggerType ∧
              ruleMatches triggerType (some c) a = true then 1 else 0))) := by
  refine ⟨?_, ?_, checkAndRun_count_mono f now db task triggerType userId (some c), ?_⟩
  · intro a ha hnew
    rcases createAutomation_new_count f now db user newId body a ha with h | h
    · exact absurd h hnew
    · exact h.2.1
  · intro hok
    generalize hr : createAutomation f now db user newId body = r at hok
    unfold createAutomation at hr
    split at hr
    · subst hr; simp at hok
    split at hr
    · subst hr; simp at hok
    split at hr
    · subst hr; simp at hok
    split at hr
    · split at hr
      · subst hr; simp at hok
      simp only [] at hr
      split at hr
      · subst hr; simp at hok
      split at hr
      · subst hr; simp at hok
      · subst hr
        exact ⟨_, List.mem_append_right _ (List.mem_singleton_self _), rfl, rfl⟩
    · subst hr; simp at hok
  · intro hid hq hb a ha
    rw [checkAndRun_findById_bumped f now db task triggerType userId c hid hq hb a ha]
    by_cases hcond : a ∈ Automation.find db task.project triggerType ∧
        ruleMatches triggerType (some c) a = true
    · simp [hcond, Automation.bumped]
    · simp [hcond]

/-- C21 on the sample board: of two stored status rules the one that matches the move
from "In Progress" to "Done" goes from 0 to 1 and the other stays at 0. -/
theorem C21_execution_count_starts_at_zero_and_counts_matches_witness :
    (Automation.findById
        (checkAndRunAutomationsForTask Faults.none 7 (boardDB fixBugDone [rDone, rAny])
          fixBugDone "taskStatusChange" alice._id
          (some { fromStatus := some "In Progress", toStatus := some "Done" })).db
        rAny._id).map (fun x => x.executionCount) = some 1 ∧
    (Automation.findById
        (checkAndRunAutomationsForTask Faults.none 7 (boardDB fixBugDone [rDone, rAny])
          fixBugDone "taskStatusChange" alice._id
          (some { fromStatus := some "In Progress", toStatus := some "Done" })).db
        rDone._id).map (fun x => x.executionCount) = some 0 :=
  ⟨((C21_execution_count_starts_at_zero_and_counts_matches Faults.none 7
      (boardDB fixBugDone [rDone, rAny]) fixBugDone "taskStatusChange" alice._id
      { fromStatus := some "In Progress", toStatus := some "Done" } alice._id
      "3000000000000000000000ee" {}).2.2.2 (by decide) rfl (fun _ _ => rfl) rAny
      (by decide)).trans (by decide),
    ((C21_execution_count_starts_at_zero_and_counts_matches Faults.none 7
      (boardDB fixBugDone [rDone, rAny]) fixBugDone "taskStatusChange" alice._id
      { fromStatus := some "In Progress", toStatus := some "Done" } alice._id
      "3000000000000000000000ee" {}).2.2.2 (by decide) rfl (fun _ _ => rfl) rDone
      (by decide)).trans (by decide)⟩

theorem executeAutomationActionTry_noop (f : Faults) (now : Nat) (a : Automation)
    (task : Task) (userId : String) (d : DB) (h : isNoOp a task = true) :
    executeAutomationActionTry f now a task userId d = { db := d } := by
  unfold isNoOp at h
  simp only [Bool.or_eq_true, Bool.and_eq_true, beq_iff_eq, Bool.not_eq_true',
    Option.isNone_iff_eq_none, List.contains_eq_any_beq, List.any_cons, List.any_nil,
    Bool.or_false, Bool.not_eq_true, Bool.or_eq_false_iff, beq_eq_false_iff_ne, ne_eq] at h
  unfold executeAutomationActionTry
  rcases h with ((⟨h1, h2⟩ | ⟨h1, h2⟩) | ⟨h1, h2⟩) | ⟨h1, h2, h3⟩
  · simp [h1, h2]
  · simp [h1, h2, show ¬ ("assignBadge" = "changeTaskStatus") by decide]
  · simp [h1, h2, show ¬ ("sendNotification" = "changeTaskStatus") by decide,
      show ¬ ("sendNotification" = "assignBadge") by decide]
  · simp [h1, h2, h3]

theorem forAutomations_noop (f : Faults) (now : Nat) (task : Task)
    (triggerType userId : String) (conditions : Option EventConditions) :
    ∀ (rules : List Automation) (r : RunResult),
      (∀ b ∈ rules, ruleMatches triggerType conditions b = true → isNoOp b task = true) →
      (forAutomations f now task triggerType userId conditions rules r).db.tasks = r.db.tasks ∧
      (forAutomations f now task triggerType userId conditions rules r).db.users = r.db.users ∧
      (forAutomations f now task triggerType userId conditions rules r).db.notifications =
        r.db.notifications ∧
      (forAutomations f now task triggerType userId conditions rules r).db.projects =
        r.db.projects := by
  intro rules
  induction rules with
  | nil => intro r _; simp [forAutomations]
  | cons a rest ih =>
    intro r h
    have hrest : ∀ b ∈ rest, ruleMatches triggerType conditions b = true →
        isNoOp b task = true := fun b hb => h b (List.mem_cons_of_mem _ hb)
    unfold forAutomations
    split
    · exact ⟨rfl, rfl, rfl, rfl⟩
    · exact ih r hrest
    · rename_i hsa
      have hno : isNoOp a task = true :=
        h a (List.mem_cons_self _ _) (by simp [ruleMatches, hsa])
      have hex : ∀ d : DB, executeAutomationAction f now a task userId d = d := by
        intro d
        unfold executeAutomationAction
        rw [executeAutomationActionTry_noop f now a task userId d hno]
      simp only [hex]
      split_ifs
      · exact ⟨rfl, rfl, rfl, rfl⟩
      · exact ih _ hrest

/-- C29. In a run whose rule query and bookkeeping updates succeed (distinct `_id`s),
a matched rule whose action is a defined no-op for the task leaves every database it is
executed on as it is and throws nothing, and is found afterwards with its execution
count raised by one and its last-executed time set to the time of the run; when every
matched rule is such a no-op, the tasks, users, notifications and projects are what
they were. -/
theorem C29_no_op_actions_are_still_counted
    (f : Faults) (now : Nat) (db : DB) (task : Task) (triggerType userId : String)
    (c : EventConditions) (a : Automation) (hid : distinctAutomationIds db)
    (hq : f.automationFind triggerType = false)
    (hb : ∀ x ∈ Automation.find db task.project triggerType, f.bookkeeping x._id = false)
    (ha : a ∈ Automation.find db task.project triggerType)
    (hm : ruleMatches triggerType (some c) a = true) (hnoop : isNoOp a task = true) :
    (∀ d : DB, executeAutomationActionTry f now a task userId d = { db := d, threw := false }) ∧
    a ∈ (checkAndRunAutomationsForTask f now db task triggerType userId (some c)).executed ∧
    Automation.findById
      (checkAndRunAutomationsForTask f now db task triggerType userId (some c)).db a._id =
      some { a with executionCount := a.executionCount + 1, lastExecuted := some now,
                    updatedAt := now } ∧
    ((∀ b ∈ Automation.find db task.project triggerType,
        ruleMatches triggerType (some c) b = true → isNoOp b task = true) →
      (checkAndRunAutomationsForTask f now db task triggerType userId (some c)).db.tasks =
        db.tasks ∧
      (checkAndRunAutomationsForTask f now db task triggerType userId (some c)).db.users =
        db.users ∧
      (checkAndRunAutomationsForTask f now db task triggerType userId
        (some c)).db.notifications = db.notifications ∧
      (checkAndRunAutomationsForTask f now db task triggerType userId
        (some c)).db.projects = db.projects) := by
  refine ⟨fun d => executeAutomationActionTry_noop f now a task userId d hnoop, ?_, ?_, ?_⟩
  · rw [checkAndRun_executed f now db task triggerType userId (some c) hq hb
      (fun x _ => shouldRun_ne_none _ _ x)]
    exact List.mem_filter.mpr ⟨ha, hm⟩
  · rw [checkAndRun_findById_bumped f now db task triggerType userId c hid hq hb a
      ((mem_find_iff _ _ _ a).mp ha).1]
    simp [ha, hm, Automation.bumped]
  · intro hall
    unfold checkAndRunAutomationsForTask
    simp only [hq, Bool.false_eq_true, if_false]
    split_ifs
    · exact ⟨rfl, rfl, rfl, rfl⟩
    · exact forAutomations_noop f now task triggerType userId (some c) _ { db := db } hall

/-- C29 on the sample board: on the unassigned task the badge rule and the rule with an
unknown action type change nothing and are each counted once. -/
theorem C29_no_op_actions_are_still_counted_witness :
    isNoOp rFinisher fixBugDone = true ∧ isNoOp rUnknown fixBugDone = true ∧
    Automation.findById
      (checkAndRunAutomationsForTask Faults.none 7 (boardDB fixBugDone [rFinisher, rUnknown])
        fixBugDone "taskStatusChange" alice._id
        (some { fromStatus := some "To Do", toStatus := some "Done" })).db rUnknown._id =
      some { rUnknown with executionCount := rUnknown.executionCount + 1,
                           lastExecuted := some 7, updatedAt := 7 } ∧
    (checkAndRunAutomationsForTask Faults.none 7 (boardDB fixBugDone [rFinisher, rUnknown])
        fixBugDone "taskStatusChange" alice._id
        (some { fromStatus := some "To Do", toStatus := some "Done" })).db.users =
      (boardDB fixBugDone [rFinisher, rUnknown]).users :=
  ⟨by decide, by decide,
    (C29_no_op_actions_are_still_counted Faults.none 7
      (boardDB fixBugDone [rFinisher, rUnknown]) fixBugDone "taskStatusChange" alice._id
      { fromStatus := some "To Do", toStatus := some "Done" } rUnknown (by decide) rfl
      (fun _ _ => rfl) (by decide) (by decide) (by decide)).2.2.1,
    ((C29_no_op_actions_are_still_counted Faults.none 7
      (boardDB fixBugDone [rFinisher, rUnknown]) fixBugDone "taskStatusChange" alice._id
      { fromStatus := some "To Do", toStatus := some "Done" } rUnknown (by decide) rfl
      (fun _ _ => rfl) (by decide) (by decide) (by decide)).2.2.2 (by decide)).2.1⟩

/-! ## The history `updateTask` writes -/

theorem findById_task_update_same (db : DB) (id status : String) (entry : HistoryEntry) :
    Task.findById (Task.findByIdAndUpdate db id status entry) id =
      (Task.findById db id).map
        (fun t => { t with status := status, history := t.history ++ [entry] }) := by
  unfold Task.findById Task.findByIdAndUpdate
  simp only []
  generalize db.tasks = l
  induction l with
  | nil => rfl
  | cons x xs ih =>
    unfold updateFirst
    by_cases hx : (x._id == id) = true
    · simp [hx, List.find?_cons]
    · simp only [hx, if_false, List.find?_cons, Bool.false_eq_true]
      exact ih

theorem findById_task_update_other (db : DB) (tid id status : String) (entry : HistoryEntry)
    (h : tid ≠ id) :
    Task.findById (Task.findByIdAndUpdate db tid status entry) id = Task.findById db id := by
  unfold Task.findById Task.findByIdAndUpdate
  simp only []
  apply find?_updateFirst
  · intro x; rfl
  · intro x hx
    simp only [beq_iff_eq] at hx
    simp [hx, h]

theorem executeAutomationAction_history (f : Faults) (now : Nat) (a : Automation)
    (task : Task) (userId : String) (d : DB) (id : String) (t0 : Task)
    (h0 : Task.findById d id = some t0) :
    ∃ t1, Task.findById (executeAutomationAction f now a task userId d) id = some t1 ∧
      t0.history <+: t1.history := by
  by_cases hty : a.action.type = "changeTaskStatus"
  · unfold executeAutomationAction executeAutomationActionTry
    simp only [hty, if_true]
    split_ifs
    · exact ⟨t0, h0, List.prefix_refl _⟩
    · by_cases hid : task._id = id
      · rw [hid, findById_task_update_same, h0]
        exact ⟨_, rfl, List.prefix_append _ _⟩
      · rw [findById_task_update_other _ _ _ _ _ hid]
        exact ⟨t0, h0, List.prefix_refl _⟩
    · exact ⟨t0, h0, List.prefix_refl _⟩
  · refine ⟨t0, ?_, List.prefix_refl _⟩
    unfold Task.findById at h0 ⊢
    rw [executeAutomationAction_tasks f now a task userId d hty]
    exact h0

theorem forAutomations_history (f : Faults) (now : Nat) (task : Task)
    (triggerType userId : String) (conditions : Option EventConditions) (id : String) :
    ∀ (rules : List Automation) (r : RunResult) (t0 : Task),
      Task.findById r.db id = some t0 →
      ∃ t1, Task.findById
          (forAutomations f now task triggerType userId conditions rules r).db id = some t1 ∧
        t0.history <+: t1.history := by
  intro rules
  induction rules with
  | nil => intro r t0 h0; exact ⟨t0, by simpa [forAutomations] using h0, List.prefix_refl _⟩
  | cons a rest ih =>
    intro r t0 h0
    unfold forAutomations
    split
    · exact ⟨t0, h0, List.prefix_refl _⟩
    · exact ih r t0 h0
    · simp only []
      obtain ⟨t1, h1, hp1⟩ := executeAutomationAction_history f now a task userId r.db id t0 h0
      split_ifs
      · exact ⟨t1, h1, hp1⟩
      · obtain ⟨t2, h2, hp2⟩ := ih
          { db := Automation.findByIdAndUpdate
              (executeAutomationAction f now a task userId r.db) a._id now,
            executed := r.executed ++ [a] } t1 h1
        exact ⟨t2, h2, List.IsPrefix.trans hp1 hp2⟩

theorem checkAndRun_history (f : Faults) (now : Nat) (db : DB) (task : Task)
    (triggerType userId : String) (conditions : Option EventConditions) (id : String)
    (t0 : Task) (h0 : Task.findById db id = some t0) :
    ∃ t1, Task.findById
        (checkAndRunAutomationsForTask f now db task triggerType userId conditions).db id =
          some t1 ∧ t0.history <+: t1.history := by
  unfold checkAndRunAutomationsForTask
  simp only []
  split_ifs
  · exact ⟨t0, h0, List.prefix_refl _⟩
  · exact ⟨t0, h0, List.prefix_refl _⟩
  · exact forAutomations_history f now task triggerType userId conditions id _ { db := db }
      t0 h0

theorem runAutomations_history (f : Faults) (now : Nat) (db : DB) (task : Task)
    (user : String) (status : Option String) (previousStatus : String)
    (resolved : Option IdValue) (previousAssigneeId : Option String) (id : String)
    (t0 : Task) (h0 : Task.findById db id = some t0) :
    ∃ t1, Task.findById (runAutomations f now db task user status previousStatus resolved
        previousAssigneeId).1 id = some t1 ∧ t0.history <+: t1.history := by
  unfold runAutomations
  simp only []
  have step2 : ∀ (d : DB) (t1 : Task), Task.findById d id = some t1 →
      t0.history <+: t1.history →
      ∃ t2, Task.findById
        (match resolved with
          | none => (({ db := d } : RunResult), ([] : List MatcherCall))
          | some v =>
            if (idTruthy (some v) && strictNePrevious v previousAssigneeId) = true then
              (checkAndRunAutomationsForTask f now d task "taskAssigneeChange" user
                (some { assigneeId := resolved }),
                [{ triggerType := "taskAssigneeChange",
                   conditions := some { assigneeId := resolved } }])
            else ({ db := d }, [])).1.db id = some t2 ∧ t0.history <+: t2.history := by
    intro d t1 h1 hp1
    cases resolved with
    | none => exact ⟨t1, h1, hp1⟩
    | some v =>
      simp only []
      split_ifs
      · obtain ⟨t2, h2, hp2⟩ := checkAndRun_history f now d task "taskAssigneeChange" user
          (some { assigneeId := some v }) id t1 h1
        exact ⟨t2, h2, List.IsPrefix.trans hp1 hp2⟩
      · exact ⟨t1, h1, hp1⟩
  by_cases hc : (truthy status && status != some previousStatus) = true
  · simp only [hc, if_true]
    obtain ⟨t1, h1, hp1⟩ := checkAndRun_history f now db task "taskStatusChange" user
      (some { fromStatus := some previousStatus, toStatus := status }) id t0 h0
    exact step2 _ t1 h1 hp1
  · simp only [hc, if_false]
    exact step2 db t0 h0 (List.prefix_refl _)

theorem savedTask_history (db : DB) (task : Task) (body : UpdateBody) (user : String)
    (now : Nat) :
    (savedTask db task body user now).history =
      task.history ++ requestHistory db task body user now := by
  unfold savedTask applyUpdate
  simp only []
  split_ifs with h
  · rfl
  · have : requestHistory db task body user now = [] := by
      cases hr : requestHistory db task body user now with
      | nil => rfl
      | cons x xs => simp [hr] at h
    rw [this, List.append_nil]

theorem requestHistory_eq (db : DB) (task : Task) (body : UpdateBody) (user : String)
    (now : Nat) :
    requestHistory db task body user now =
      (if truthy body.title = true ∧ body.title ≠ some task.title then
        [{ field := "title", oldValue := task.title, newValue := body.title.getD "",
           changedBy := user, changedAt := now }]
       else []) ++
      (if truthy body.status = true ∧ body.status ≠ some task.status then
        [{ field := "status", oldValue := task.status, newValue := body.status.getD "",
           changedBy := user, changedAt := now }]
       else []) ++
      (if assigneeChanges task (resolveAssigneeId db body.assigneeId) = true then
        [{ field := "assignee", oldValue := task.assignee.getD "Unassigned",
           newValue := ((resolveAssigneeId db body.assigneeId).map IdValue.toString).getD "",
           changedBy := user, changedAt := now }]
       else []) := by
  unfold requestHistory titleStatusHistory
  by_cases h1 : truthy body.title = true <;> by_cases h2 : body.title = some task.title <;>
    by_cases h3 : truthy body.status = true <;> by_cases h4 : body.status = some task.status <;>
    by_cases h5 : assigneeChanges task (resolveAssigneeId db body.assigneeId) = true <;>
    simp [h1, h2, h3, h4, h5]

/-- C22 as stated fails. First request: the assignee is named by a Firebase UID no user
has; the value is present and differs from the stored assignee, the answer is 200, and
no entry is written. Second request: Bob is named by his Firebase UID; the entry
carries "Unassigned" as `oldValue` and Bob's `_id`, not the requested value, as
`newValue`. Third request: only the status is requested and a rule that writes a
status runs; the stored history ends up with two entries. -/
theorem C22_history_is_not_one_entry_per_requested_field :
    (updateTask Faults.none 7 (boardDB fixBug []) alice._id fixBug._id
        { assigneeId := some "uid-carol" }).response.status = 200 ∧
    (Task.findById
        (updateTask Faults.none 7 (boardDB fixBug []) alice._id fixBug._id
          { assigneeId := some "uid-carol" }).db fixBug._id).map (fun t => t.history) =
      some [] ∧
    (Task.findById
        (updateTask Faults.none 7 (boardDB fixBug []) alice._id fixBug._id
          { assigneeId := some "uid-bob" }).db fixBug._id).map (fun t => t.history) =
      some [{ field := "assignee", oldValue := "Unassigned", newValue := bob._id,
              changedBy := alice._id, changedAt := 7 }] ∧
    (updateTask Faults.none 7 (boardDB fixBug [rReview]) alice._id fixBug._id
        { status := some "Done" }).response.status = 200 ∧
    (Task.findById
        (updateTask Faults.none 7 (boardDB fixBug [rReview]) alice._id fixBug._id
          { status := some "Done" }).db fixBug._id).map (fun t => t.history) =
      some [{ field := "status", oldValue := "To Do", newValue := "Done",
              changedBy := alice._id, changedAt := 7 },
            { field := "status", oldValue := "Done", newValue := "In Progress",
              changedBy := alice._id, changedAt := 7 }] := by
  decide

/-- C22, amended. For a request that passes validation and whose store calls up to the
reload succeed, the task sent back carries the old history followed by: a title entry
when the requested title is non-empty and differs from the stored one; a status entry
likewise; an assignee entry when the requested assignee resolves to an id that prints
differently from the stored assignee, with the stored assignee or "Unassigned" as
`oldValue` and the resolved id as `newValue`. That is the history saved, and the
stored history after the request begins with it. -/
theorem C22_history_written_by_a_request
    (f : Faults) (now : Nat) (db : DB) (user id : String) (body : UpdateBody)
    (task : Task) (project : Project)
    (hv : validationErrors body = false) (h1 : f.taskFindById = false)
    (htask : Task.findById db id = some task) (h2 : f.projectFindById = false)
    (hproject : Project.findById db task.project = some project)
    (hstatus : truthy body.status = true →
      project.statuses.any (fun s => some s.name == body.status) = true)
    (h3 : f.userFindOne = false) (h4 : f.assignNotification = false)
    (h5 : f.taskSave = false) (h6 : f.taskReload = false) :
    ((updateTask f now db user id body).response.data).map (fun t => t.history) =
      some (task.history ++
        (if truthy body.title = true ∧ body.title ≠ some task.title then
          [{ field := "title", oldValue := task.title, newValue := body.title.getD "",
             changedBy := user, changedAt := now }]
         else []) ++
        (if truthy body.status = true ∧ body.status ≠ some task.status then
          [{ field := "status", oldValue := task.status, newValue := body.status.getD "",
             changedBy := user, changedAt := now }]
         else []) ++
        (if assigneeChanges task (resolveAssigneeId db body.assigneeId) = true then
          [{ field := "assignee", oldValue := task.assignee.getD "Unassigned",
             newValue :=
               ((resolveAssigneeId db body.assigneeId).map IdValue.toString).getD "",
             changedBy := user, changedAt := now }]
         else [])) ∧
    (Task.findById (afterSave db task body user now) id).map (fun t => t.history) =
      ((updateTask f now db user id body).response.data).map (fun t => t.history) ∧
    (∃ stored, Task.findById (updateTask f now db user id body).db id = some stored ∧
      ∃ sent, (updateTask f now db user id body).response.data = some sent ∧
        sent.history <+: stored.history) := by
  rw [updateTask_success f now db user id body task project hv h1 htask h2 hproject hstatus
    h3 h4 h5 h6]
  have hpop : (populateAssignee db (savedTask db task body user now)).history =
      (savedTask db task body user now).history := rfl
  have hsaved := afterSave_findById db id task body user now htask
  refine ⟨?_, ?_, ?_⟩
  · simp only [Option.map_some', hpop, savedTask_history, requestHistory_eq,
      List.append_assoc]
  · simp only [Option.map_some', hpop, hsaved]
  · obtain ⟨t1, ht1, hp⟩ := runAutomations_history f now (afterSave db task body user now)
      (populateAssignee db (savedTask db task body user now)) user body.status task.status
      (resolveAssigneeId db body.assigneeId) task.assignee id _ hsaved
    exact ⟨t1, ht1, _, rfl, hp⟩

/-- C22, amended, on the sample board: Alice retitles the task, moves it to "Done" and
assigns it to Bob in one request. -/
theorem C22_history_written_by_a_request_witness :
    ((updateTask Faults.none 7 (boardDB fixBug []) alice._id fixBug._id
        { title := some "Fix the bug", status := some "Done",
          assigneeId := some bob._id }).response.data).map (fun t => t.history) =
      some [{ field := "title", oldValue := "Fix bug", newValue := "Fix the bug",
              changedBy := alice._id, changedAt := 7 },
            { field := "status", oldValue := "To Do", newValue := "Done",
              changedBy := alice._id, changedAt := 7 },
            { field := "assignee", oldValue := "Unassigned", newValue := bob._id,
              changedBy := alice._id, changedAt := 7 }] :=
  (C22_history_written_by_a_request Faults.none 7 (boardDB fixBug []) alice._id fixBug._id
    { title := some "Fix the bug", status := some "Done", assigneeId := some bob._id }
    fixBug board (by decide) rfl (by decide) rfl (by decide) (fun _ => by decide) rfl rfl
    rfl rfl).1.trans (by decide)

/-! ## `createTask` and the status of a new task -/

theorem findById_append_new (db : DB) (t : Task) (h : Task.findById db t._id = none) :
    Task.findById { db with tasks := db.tasks ++ [t] } t._id = some t := by
  unfold Task.findById at *
  simp only [List.find?_append, h, Option.none_or]
  simp [List.find?_cons]

theorem checkAndRun_nothing_found (f : Faults) (now : Nat) (db : DB) (task : Task)
    (triggerType userId : String) (conditions : Option EventConditions)
    (h : Automation.find db task.project triggerType = []) :
    checkAndRunAutomationsForTask f now db task triggerType userId conditions =
      { db := db } := by
  unfold checkAndRunAutomationsForTask
  simp [h]

theorem createTask_success (f : Faults) (now : Nat) (db : DB) (user newId : String)
    (body : CreateBody) (project : Project)
    (hv : createTaskValidationErrors body = false) (hf1 : f.projectFindById = false)
    (hproject : Project.findById db (body.projectId.getD "") = some project)
    (hstatus : truthy body.status = true →
      project.statuses.any (fun s => some s.name == body.status) = true)
    (hf2 : f.userFindOne = false) (hf3 : f.taskSave = false) (hf4 : f.taskReload = false)
    (hf5 : f.assignNotification = false) (hfresh : Task.findById db newId = none) :
    (createTask f now db user newId body).response =
      { status := 201,
        data := some (populateAssignee db (newTaskOf db project user newId body)) } ∧
    (Automation.find db (body.projectId.getD "") "taskCreated" = [] →
      Task.findById (createTask f now db user newId body).db newId =
        some (newTaskOf db project user newId body)) := by
  have hst : (!(project.statuses.any (fun s => some s.name == body.status)) &&
      truthy body.status) = false := by
    cases ht : truthy body.status with
    | false => simp
    | true => simp [hstatus ht]
  have hfind := findById_append_new db (newTaskOf db project user newId body) hfresh
  have hpop : populateAssignee { db with tasks := db.tasks ++ [newTaskOf db project user newId body] }
      (newTaskOf db project user newId body) =
      populateAssignee db (newTaskOf db project user newId body) := rfl
  have hid : (newTaskOf db project user newId body)._id = newId := rfl
  rw [hid] at hfind
  unfold createTask
  simp only [hv, hf1, hproject, hst, hf2, hf3, hf4, hf5, Bool.and_false, Bool.false_eq_true,
    if_false, hfind, hpop]
  refine ⟨trivial, ?_⟩
  intro hnone
  have hproj : (populateAssignee db (newTaskOf db project user newId body)).project =
      body.projectId.getD "" := rfl
  have hnone2 : Automation.find
      { db with tasks := db.tasks ++ [newTaskOf db project user newId body] }
      (populateAssignee db (newTaskOf db project user newId body)).project "taskCreated" =
      [] := by
    rw [hproj]
    exact hnone
  rw [checkAndRun_nothing_found f now _ _ "taskCreated" user none hnone2]
  split_ifs
  · exact hfind
  · exact hfind

/-- C23. For a request that passes the route's validators and finds its project: a
non-empty status that names no status of the project is answered 400 and the database
is left as it was; otherwise, when no store call rejects and the new `_id` is fresh,
the answer is 201 with a task whose status is the status provided, or without one the
name of the project's first status, or "To Do" when the project has no statuses, and
that is the status stored when no rule is stored for the trigger type taskCreated. -/
theorem C23_status_of_a_created_task
    (f : Faults) (now : Nat) (db : DB) (user newId : String) (body : CreateBody)
    (project : Project)
    (hv : createTaskValidationErrors body = false) (hf1 : f.projectFindById = false)
    (hproject : Project.findById db (body.projectId.getD "") = some project) :
    ((truthy body.status = true ∧ ∀ s ∈ project.statuses, some s.name ≠ body.status) →
      (createTask f now db user newId body).response.status = 400 ∧
        (createTask f now db user newId body).db = db) ∧
    ((truthy body.status = false ∨ ∃ s ∈ project.statuses, some s.name = body.status) →
      f.userFindOne = false → f.taskSave = false → f.taskReload = false →
      f.assignNotification = false → Task.findById db newId = none →
      (createTask f now db user newId body).response.status = 201 ∧
      ∃ t, (createTask f now db user newId body).response.data = some t ∧ t._id = newId ∧
        (∀ s, body.status = some s → s ≠ "" → t.status = s) ∧
        (truthy body.status = false → ∀ first rest, project.statuses = first :: rest →
          first.name ≠ "" → t.status = first.name) ∧
        (truthy body.status = false → project.statuses = [] → t.status = "To Do") ∧
        (Automation.find db (body.projectId.getD "") "taskCreated" = [] →
          (Task.findById (createTask f now db user newId body).db newId).map
            (fun x => x.status) = some t.status)) := by
  constructor
  · rintro ⟨ht, hno⟩
    have hany : project.statuses.any (fun s => some s.name == body.status) = false := by
      rw [List.any_eq_false]
      intro s hs
      simpa using hno s hs
    unfold createTask
    simp [hv, hf1, hproject, hany, ht]
  · intro hok hf2 hf3 hf4 hf5 hfresh
    have hstatus : truthy body.status = true →
        project.statuses.any (fun s => some s.name == body.status) = true := by
      intro ht
      rcases hok with h | ⟨s, hs, hn⟩
      · rw [h] at ht; exact absurd ht (by decide)
      · exact List.any_eq_true.mpr ⟨s, hs, by simp [hn]⟩
    obtain ⟨hresp, hstored⟩ := createTask_success f now db user newId body project hv hf1
      hproject hstatus hf2 hf3 hf4 hf5 hfresh
    rw [hresp]
    refine ⟨rfl, _, rfl, rfl, ?_, ?_, ?_, ?_⟩
    · intro s hs hne
      show defaultedStatus project body.status = s
      unfold defaultedStatus
      simp [hs, truthy, hne]
    · intro ht first rest hl hne
      show defaultedStatus project body.status = first.name
      unfold defaultedStatus
      have hfirst : truthy (some first.name) = true := by simp [truthy, hne]
      simp only [ht, hl, hfirst, Bool.false_eq_true, if_false, if_true]
    · intro ht hl
      show defaultedStatus project body.status = "To Do"
      unfold defaultedStatus
      simp [ht, hl]
    · intro hnone
      rw [hstored hnone]
      rfl

/-- C23 on the sample board: without a status the new task starts in "To Do", the
board's first status; with the status "Archived" the request is answered 400. -/
theorem C23_status_of_a_created_task_witness :
    (createTask Faults.none 7 (boardDB fixBug [rDone]) alice._id "222222222222222222222223"
        { title := some "Write tests", projectId := some board._id }).response.status =
      201 ∧
    ((createTask Faults.none 7 (boardDB fixBug [rDone]) alice._id
        "222222222222222222222223"
        { title := some "Write tests", projectId := some board._id }).response.data).map
        (fun t => t.status) = some "To Do" ∧
    (createTask Faults.none 7 (boardDB fixBug [rDone]) alice._id "222222222222222222222223"
        { title := some "Write tests", projectId := some board._id,
          status := some "Archived" }).response.status = 400 :=
  ⟨((C23_status_of_a_created_task Faults.none 7 (boardDB fixBug [rDone]) alice._id
      "222222222222222222222223" { title := some "Write tests", projectId := some board._id }
      board (by decide) rfl (by decide)).2 (Or.inl (by decide)) rfl rfl rfl rfl
      (by decide)).1,
    by decide,
    ((C23_status_of_a_created_task Faults.none 7 (boardDB fixBug [rDone]) alice._id
      "222222222222222222222223"
      { title := some "Write tests", projectId := some board._id,
        status := some "Archived" }
      board (by decide) rfl (by decide)).1 ⟨by decide, by decide⟩).1⟩

/-! ## The status list of a project (C24, C25, C30) -/

theorem project_findById_id (db : DB) (id : String) (p : Project)
    (h : Project.findById db id = some p) : p._id = id := by
  unfold Project.findById at h
  simpa using List.find?_some h

theorem project_findById_save (db : DB) (id : String) (p p1 : Project)
    (h : Project.findById db id = some p) (h1 : p1._id = id) :
    Project.findById (Project.save db p1) id = some p1 := by
  unfold Project.findById Project.save at *
  simp only []
  generalize db.projects = l at h
  induction l with
  | nil => simp at h
  | cons x xs ih =>
    unfold updateFirst
    by_cases hx : x._id = id
    · simp [hx, h1, List.find?_cons]
    · have hx2 : (x._id == id) = false := by simpa using hx
      rw [List.find?_cons, hx2] at h
      have ih2 := ih h
      simp only [h1] at ih2 ⊢
      simp [hx2, List.find?_cons, ih2]

theorem project_findById_save_other (db : DB) (id : String) (p1 : Project)
    (h : p1._id ≠ id) :
    Project.findById (Project.save db p1) id = Project.findById db id := by
  unfold Project.findById Project.save
  simp only []
  generalize db.projects = l
  induction l with
  | nil => rfl
  | cons x xs ih =>
    unfold updateFirst
    split_ifs with hx
    · have hx1 : x._id = p1._id := by simpa using hx
      have hx2 : (x._id == id) = false := by simpa [hx1] using h
      have hx3 : (p1._id == id) = false := by simpa using h
      simp [List.find?_cons, hx2, hx3]
    · simp only [List.find?_cons, ih]

/-- C24: with a valid body and the project found, `createProjectStatus` answers 400
and leaves the database as it was when a status of the project already has the name;
when none has it, the trimmed name is not empty and the save is accepted, it answers
201 and the stored status list is a rearrangement of the previous statuses plus the
new one, in ascending order of `order`, nothing else of the project changing. -/
theorem C24_create_status_rejects_a_taken_name_and_keeps_the_list_sorted
    (f : Faults) (db : DB) (id newId name color : String) (order : Int) (project : Project)
    (hname : name ≠ "") (hcolor : color ≠ "")
    (hf : f.projectFindById = false)
    (hp : Project.findById db id = some project) :
    ((∃ s ∈ project.statuses, s.name = name) →
      (createProjectStatus f db id newId
          { name := some name, color := some color, order := some order }).status = 400 ∧
      (createProjectStatus f db id newId
          { name := some name, color := some color, order := some order }).db = db) ∧
    ((∀ s ∈ project.statuses, s.name ≠ name) → jsTrim name ≠ "" → f.projectSave = false →
      (createProjectStatus f db id newId
          { name := some name, color := some color, order := some order }).status = 201 ∧
      ((createProjectStatus f db id newId
          { name := some name, color := some color, order := some order }).data.map
        (fun p => { p with statuses := project.statuses })) = some project ∧
      Project.findById
          (createProjectStatus f db id newId
            { name := some name, color := some color, order := some order }).db id =
        (createProjectStatus f db id newId
          { name := some name, color := some color, order := some order }).data ∧
      (∀ p, (createProjectStatus f db id newId
          { name := some name, color := some color, order := some order }).data = some p →
        List.Perm p.statuses
          (project.statuses ++
            [{ _id := newId, name := jsTrim name, color := color, order := order }]) ∧
        List.Pairwise (fun a b : Status => a.order ≤ b.order) p.statuses)) := by
  have hid := project_findById_id db id project hp
  have ht1 : truthy (some name) = true := by simp [truthy, hname]
  have ht2 : truthy (some color) = true := by simp [truthy, hcolor]
  constructor
  · rintro ⟨s, hs, hsn⟩
    have hany : ∃ x ∈ project.statuses, x.name = name := ⟨s, hs, hsn⟩
    simp [createProjectStatus, ht1, ht2, hf, hp, hany]
  · intro hnone htrim hsave
    have hany : ¬ ∃ x ∈ project.statuses, x.name = name := by
      rintro ⟨s, hs, hsn⟩
      exact hnone s hs hsn
    have hgo : createProjectStatus f db id newId
          { name := some name, color := some color, order := some order } =
        { status := 201,
          data := some { project with statuses := sortStatuses (project.statuses ++
            [{ _id := newId, name := jsTrim name, color := color, order := order }]) },
          db := Project.save db { project with statuses := sortStatuses (project.statuses ++
            [{ _id := newId, name := jsTrim name, color := color, order := order }]) } } := by
      simp [createProjectStatus, ht1, ht2, hf, hp, hany, htrim, hsave]
    rw [hgo]
    refine ⟨rfl, rfl, project_findById_save db id project _ hp hid, ?_⟩
    intro p hpd
    simp only [Option.some.injEq] at hpd
    subst hpd
    exact ⟨List.perm_insertionSort Status.le _, List.sorted_insertionSort Status.le _⟩

/-- C24 at the board: "Done" is refused, and "Review" with order 1 goes between
"In Progress" and "Done". -/
theorem C24_create_status_rejects_a_taken_name_and_keeps_the_list_sorted_witness :
    ((createProjectStatus Faults.none (boardDB fixBug []) board._id
        "5100000000000000000000a9"
        { name := some "Done", color := some "#123456", order := some 1 }).status = 400 ∧
      (createProjectStatus Faults.none (boardDB fixBug []) board._id
        "5100000000000000000000a9"
        { name := some "Done", color := some "#123456", order := some 1 }).db =
        boardDB fixBug []) ∧
    (createProjectStatus Faults.none (boardDB fixBug []) board._id
        "5100000000000000000000a9"
        { name := some "Review", color := some "#123456", order := some 1 }).status = 201 ∧
    Project.findById
        (createProjectStatus Faults.none (boardDB fixBug []) board._id
          "5100000000000000000000a9"
          { name := some "Review", color := some "#123456", order := some 1 }).db board._id =
      (createProjectStatus Faults.none (boardDB fixBug []) board._id
        "5100000000000000000000a9"
        { name := some "Review", color := some "#123456", order := some 1 }).data :=
  ⟨(C24_create_status_rejects_a_taken_name_and_keeps_the_list_sorted Faults.none
      (boardDB fixBug []) board._id "5100000000000000000000a9" "Done" "#123456" 1 board
      (by decide) (by decide) rfl (by decide)).1 (by decide),
    ((C24_create_status_rejects_a_taken_name_and_keeps_the_list_sorted Faults.none
      (boardDB fixBug []) board._id "5100000000000000000000a9" "Review" "#123456" 1 board
      (by decide) (by decide) rfl (by decide)).2 (by decide) (by decide) rfl).1,
    ((C24_create_status_rejects_a_taken_name_and_keeps_the_list_sorted Faults.none
      (boardDB fixBug []) board._id "5100000000000000000000a9" "Review" "#123456" 1 board
      (by decide) (by decide) rfl (by decide)).2 (by decide) (by decide) rfl).2.2.1⟩

theorem countDocuments_pos_iff (db : DB) (project status : String) :
    0 < Task.countDocuments db project status ↔
      ∃ t ∈ db.tasks, t.project = project ∧ t.status = status := by
  unfold Task.countDocuments
  rw [List.length_pos_iff_exists_mem]
  simp [List.mem_filter]

/-- C25: with the project found and the count answered, `deleteProjectStatus` answers
400 and leaves the database as it was when some task of the project has the name of
the status with the given id; when no task has it and the save is accepted, it answers
200 and the stored status list is the previous list without the statuses of that id,
the others in their order, nothing else of the project changing. -/
theorem C25_delete_status_refuses_a_status_in_use
    (f : Faults) (db : DB) (id statusId : String) (project : Project)
    (hf : f.projectFindById = false) (hc : f.taskCount = false)
    (hp : Project.findById db id = some project) :
    (∀ s, project.statuses.find? (fun s => s._id == statusId) = some s → s.name ≠ "" →
      (∃ t ∈ db.tasks, t.project = project._id ∧ t.status = s.name) →
      (deleteProjectStatus f db id statusId).status = 400 ∧
      (deleteProjectStatus f db id statusId).db = db) ∧
    (f.projectSave = false →
      (∀ t ∈ db.tasks, t.project = project._id →
        some t.status ≠
          (project.statuses.find? (fun s => s._id == statusId)).map (fun s => s.name)) →
      (deleteProjectStatus f db id statusId).status = 200 ∧
      (deleteProjectStatus f db id statusId).data =
        some { project with
               statuses := project.statuses.filter (fun s => !(s._id == statusId)) } ∧
      Project.findById (deleteProjectStatus f db id statusId).db id =
        some { project with
               statuses := project.statuses.filter (fun s => !(s._id == statusId)) }) := by
  have hid := project_findById_id db id project hp
  constructor
  · intro s hs hne hex
    have hpos := (countDocuments_pos_iff db project._id s.name).2 hex
    have ht : truthy (some s.name) = true := by simp [truthy, hne]
    unfold deleteProjectStatus
    simp only [hf, hp, hs, hc, Option.map_some', ht, Option.getD_some, Bool.and_false,
      Bool.false_eq_true, if_false, Bool.true_and, decide_eq_true_eq, gt_iff_lt, hpos, if_true,
      and_self]
  · intro hsave hno
    have hcount : ∀ name, (project.statuses.find? (fun s => s._id == statusId)).map
        (fun s => s.name) = some name → ¬ 0 < Task.countDocuments db project._id name := by
      intro name hn hpos
      obtain ⟨t, ht, htp, hts⟩ := (countDocuments_pos_iff db project._id name).1 hpos
      apply hno t ht htp
      rw [hn, hts]
    have hgo : deleteProjectStatus f db id statusId =
        { status := 200,
          data := some { project with
            statuses := project.statuses.filter (fun s => !(s._id == statusId)) },
          db := Project.save db { project with
            statuses := project.statuses.filter (fun s => !(s._id == statusId)) } } := by
      unfold deleteProjectStatus
      simp only [hf, hp, hc, hsave, Bool.and_false, Bool.false_eq_true, if_false]
      cases hfind : (project.statuses.find? (fun s => s._id == statusId)).map
          (fun s => s.name) with
      | none => simp [truthy]
      | some name =>
        have := hcount name hfind
        simp [this]
    rw [hgo]
    exact ⟨rfl, rfl, project_findById_save db id project _ hp hid⟩

/-- C25 at the board, whose only task is in "To Do": deleting "To Do" is refused,
deleting "Done" leaves "To Do" and "In Progress". -/
theorem C25_delete_status_refuses_a_status_in_use_witness :
    ((deleteProjectStatus Faults.none (boardDB fixBug []) board._id
        "5100000000000000000000a0").status = 400 ∧
      (deleteProjectStatus Faults.none (boardDB fixBug []) board._id
        "5100000000000000000000a0").db = boardDB fixBug []) ∧
    ((deleteProjectStatus Faults.none (boardDB fixBug []) board._id
        "5100000000000000000000a2").status = 200 ∧
      (deleteProjectStatus Faults.none (boardDB fixBug []) board._id
        "5100000000000000000000a2").data =
        some { board with
               statuses := board.statuses.filter
                 (fun s => !(s._id == "5100000000000000000000a2")) } ∧
      Project.findById (deleteProjectStatus Faults.none (boardDB fixBug []) board._id
        "5100000000000000000000a2").db board._id =
        some { board with
               statuses := board.statuses.filter
                 (fun s => !(s._id == "5100000000000000000000a2")) }) :=
  ⟨(C25_delete_status_refuses_a_status_in_use Faults.none (boardDB fixBug []) board._id
      "5100000000000000000000a0" board rfl rfl (by decide)).1
      { _id := "5100000000000000000000a0", name := "To Do", order := 0 }
      (by decide) (by decide) (by decide),
    (C25_delete_status_refuses_a_status_in_use Faults.none (boardDB fixBug []) board._id
      "5100000000000000000000a2" board rfl rfl (by decide)).2 rfl (by decide)⟩

/-- C30: on the board, whose status names are distinct, `updateProjectStatus` accepts
the request that renames "In Progress" to "Done": it answers 200 and the stored status
list has the name "Done" twice, while `createProjectStatus` refuses the same name
with 400. -/
theorem C30_update_status_accepts_a_name_already_in_use :
    (board.statuses.map (fun s => s.name)).Nodup ∧
    (updateProjectStatus Faults.none (boardDB fixBug []) board._id
      "5100000000000000000000a1" { name := some "Done" }).status = 200 ∧
    ((Project.findById
      (updateProjectStatus Faults.none (boardDB fixBug []) board._id
        "5100000000000000000000a1" { name := some "Done" }).db board._id).map
      (fun p => p.statuses.map (fun s => s.name))) = some ["To Do", "Done", "Done"] ∧
    (createProjectStatus Faults.none (boardDB fixBug []) board._id
      "5100000000000000000000a9"
      { name := some "Done", color := some "#36B37E", order := some 3 }).status = 400 := by
  decide

/-! ## The members of a project (C27) -/

theorem mem_updateFirst_of_not {α : Type} (p : α → Bool) (g : α → α) (a : α)
    (ha : p a = false) : ∀ xs : List α, a ∈ xs → a ∈ updateFirst p g xs := by
  intro xs
  induction xs with
  | nil => simp
  | cons x xs ih =>
    intro h
    unfold updateFirst
    split_ifs with hx
    · rcases List.mem_cons.1 h with rfl | h2
      · rw [ha] at hx
        cases hx
      · exact List.mem_cons_of_mem _ h2
    · rcases List.mem_cons.1 h with rfl | h2
      · exact List.mem_cons_self _ _
      · exact List.mem_cons_of_mem _ (ih h2)

theorem map_updateFirst {α β : Type} (p : α → Bool) (g : α → α) (k : α → β)
    (hk : ∀ x, k (g x) = k x) : ∀ xs : List α, (updateFirst p g xs).map k = xs.map k := by
  intro xs
  induction xs with
  | nil => rfl
  | cons x xs ih =>
    unfold updateFirst
    split_ifs with hx
    · simp [hk]
    · simp [ih]

theorem inviteProjectMember_step (f : Faults) (isEmail : String → Bool) (db : DB)
    (id email role : String) :
    memberStep db id (inviteProjectMember f isEmail db id email role).db := by
  generalize hr : inviteProjectMember f isEmail db id email role = r
  unfold inviteProjectMember at hr
  split at hr
  · subst hr; exact Or.inl rfl
  split at hr
  · subst hr; exact Or.inl rfl
  split at hr
  · subst hr; exact Or.inl rfl
  split at hr
  · subst hr; exact Or.inl rfl
  rename_i project hp
  split at hr
  · rename_i user hu
    split at hr
    · subst hr; exact Or.inl rfl
    split at hr
    · subst hr; exact Or.inl rfl
    rename_i hmem _
    simp only [] at hr
    split at hr
    · subst hr; exact Or.inl rfl
    subst hr
    refine Or.inr ⟨project,
      { project with members := project.members ++ [{ user := user._id, role := role }] },
      hp, rfl, rfl, ?_, rfl⟩
    rintro ⟨h1, h2⟩
    have hnot : user._id ∉ project.members.map (fun m => m.user) := by
      intro hin
      apply hmem
      obtain ⟨m, hm, hmu⟩ := List.mem_map.1 hin
      simp only [List.any_eq_true]
      exact ⟨m, hm, by simpa using hmu⟩
    refine ⟨List.mem_append_left _ h1, ?_⟩
    simp only [List.map_append, List.map_cons, List.map_nil]
    rw [List.nodup_append]
    refine ⟨h2, by simp, ?_⟩
    intro a ha hb
    simp only [List.mem_singleton] at hb
    exact hnot (hb ▸ ha)
  · simp only [] at hr
    split at hr
    · subst hr; exact Or.inl rfl
    subst hr
    exact Or.inr ⟨project,
      { project with
        pendingInvites := project.pendingInvites ++ [{ email := email, role := role }] },
      hp, rfl, rfl, fun h => h, rfl⟩


theorem removeProjectMember_step (f : Faults) (db : DB) (id userId : String) :
    memberStep db id (removeProjectMember f db id userId).db := by
  generalize hr : removeProjectMember f db id userId = r
  unfold removeProjectMember at hr
  split at hr
  · subst hr; exact Or.inl rfl
  split at hr
  · subst hr; exact Or.inl rfl
  rename_i project hp
  split at hr
  · subst hr; exact Or.inl rfl
  rename_i howner
  simp only [] at hr
  have hgood : goodMembers project → goodMembers
      { project with members := project.members.filter (fun m => !(m.user == userId)) } := by
    rintro ⟨h1, h2⟩
    refine ⟨?_, ?_⟩
    · simp only [List.mem_filter]
      refine ⟨h1, ?_⟩
      simpa using howner
    · exact h2.sublist ((List.filter_sublist _).map _)
  split at hr
  · subst hr; exact Or.inl rfl
  split at hr
  · subst hr
    exact Or.inr ⟨project,
      { project with members := project.members.filter (fun m => !(m.user == userId)) },
      hp, rfl, rfl, hgood, rfl⟩
  · subst hr
    exact Or.inr ⟨project,
      { project with members := project.members.filter (fun m => !(m.user == userId)) },
      hp, rfl, rfl, hgood, rfl⟩

theorem updateMemberRole_step (f : Faults) (db : DB) (id userId role : String) :
    memberStep db id (updateMemberRole f db id userId role).db := by
  generalize hr : updateMemberRole f db id userId role = r
  unfold updateMemberRole at hr
  split at hr
  · subst hr; exact Or.inl rfl
  split at hr
  · subst hr; exact Or.inl rfl
  split at hr
  · subst hr; exact Or.inl rfl
  rename_i project hp
  split at hr
  · subst hr; exact Or.inl rfl
  rename_i howner
  split at hr
  · subst hr; exact Or.inl rfl
  simp only [] at hr
  have hgood : goodMembers project → goodMembers
      { project with
        members := updateFirst (fun m => m.user == userId)
          (fun m => { m with role := role }) project.members } := by
    rintro ⟨h1, h2⟩
    refine ⟨?_, ?_⟩
    · apply mem_updateFirst_of_not _ _ _ _ _ h1
      simpa using howner
    · simp only []
      have hmap := map_updateFirst (fun m : Member => m.user == userId)
        (fun m => { m with role := role }) (fun m => m.user) (fun _ => rfl) project.members
      rw [hmap]
      exact h2
  split at hr
  · subst hr; exact Or.inl rfl
  split at hr
  · subst hr
    exact Or.inr ⟨project,
      { project with
        members := updateFirst (fun m => m.user == userId)
          (fun m => { m with role := role }) project.members },
      hp, rfl, rfl, hgood, rfl⟩
  · subst hr
    exact Or.inr ⟨project,
      { project with
        members := updateFirst (fun m => m.user == userId)
          (fun m => { m with role := role }) project.members },
      hp, rfl, rfl, hgood, rfl⟩

theorem memberStep_keeps (db db1 : DB) (id newId user : String)
    (hstep : memberStep db id db1)
    (h : ∃ p, Project.findById db newId = some p ∧ p.owner = user ∧ goodMembers p) :
    ∃ p, Project.findById db1 newId = some p ∧ p.owner = user ∧ goodMembers p := by
  obtain ⟨p, hp, ho, hg⟩ := h
  rcases hstep with heq | ⟨project, p1, hfind, hid, hown, hgood, heq⟩
  · refine ⟨p, ?_, ho, hg⟩
    unfold Project.findById at hp ⊢
    rw [heq]
    exact hp
  · have hcongr : Project.findById db1 newId = Project.findById (Project.save db p1) newId := by
      unfold Project.findById
      rw [heq]
    have hpid := project_findById_id db id project hfind
    by_cases hsame : id = newId
    · subst hsame
      have hpp : project = p := Option.some.inj (hfind.symm.trans hp)
      subst hpp
      refine ⟨p1, ?_, hown.trans ho, hgood hg⟩
      rw [hcongr]
      exact project_findById_save db id project p1 hfind (hid.trans hpid)
    · refine ⟨p, ?_, ho, hg⟩
      rw [hcongr, project_findById_save_other db newId p1 ?_]
      · exact hp
      · rw [hid, hpid]
        exact hsame

theorem runMemberRequests_keeps (isEmail : String → Bool) (newId user : String)
    (requests : List (Faults × String × MemberRequest)) :
    ∀ db : DB, (∃ p, Project.findById db newId = some p ∧ p.owner = user ∧ goodMembers p) →
      ∃ p, Project.findById (runMemberRequests isEmail db requests) newId = some p ∧
        p.owner = user ∧ goodMembers p := by
  induction requests with
  | nil => intro db h; exact h
  | cons x xs ih =>
    intro db h
    unfold runMemberRequests
    rw [List.foldl_cons]
    apply ih
    obtain ⟨f, id, req⟩ := x
    cases req with
    | invite email role =>
      exact memberStep_keeps db _ id newId user
        (inviteProjectMember_step f isEmail db id email role) h
    | remove userId =>
      exact memberStep_keeps db _ id newId user (removeProjectMember_step f db id userId) h
    | updateRole userId role =>
      exact memberStep_keeps db _ id newId user
        (updateMemberRole_step f db id userId role) h

theorem project_findById_append_new (db : DB) (newId : String) (p : Project)
    (hfresh : Project.findById db newId = none) (hid : p._id = newId) :
    Project.findById { db with projects := db.projects ++ [p] } newId = some p := by
  unfold Project.findById at *
  simp only [List.find?_append, hfresh, Option.none_or]
  simp [List.find?_cons, hid]

/-- C27: for a project created by `createProject` under a fresh `_id`, and any
sequence of invite, remove and role-update requests, each for any project and with
any store calls failing, the project is still stored afterwards, its owner is who
created it and is listed as member with role 'owner', and no user is listed twice. -/
theorem C27_owner_stays_member_and_no_user_is_listed_twice
    (isEmail : String → Bool) (f0 : Faults) (db0 : DB) (user newId : String)
    (statusIds : String × String × String) (title description : Option String)
    (hfresh : Project.findById db0 newId = none)
    (hcreated : (createProject f0 db0 user newId statusIds title description).status = 201)
    (requests : List (Faults × String × MemberRequest)) :
    ∃ p,
      Project.findById
        (runMemberRequests isEmail
          (createProject f0 db0 user newId statusIds title description).db requests)
        newId = some p ∧
      p.owner = user ∧
      ({ user := user, role := "owner" } : Member) ∈ p.members ∧
      (p.members.map (fun m => m.user)).Nodup := by
  have hstart : ∃ p,
      Project.findById (createProject f0 db0 user newId statusIds title description).db newId =
        some p ∧ p.owner = user ∧ goodMembers p := by
    generalize hr : createProject f0 db0 user newId statusIds title description = r at hcreated
    unfold createProject at hr
    split at hr
    · subst hr; simp at hcreated
    split at hr
    · subst hr; simp at hcreated
    subst hr
    refine ⟨_, project_findById_append_new db0 newId _ hfresh rfl, rfl, ?_⟩
    simp [goodMembers]
  obtain ⟨p, hp, ho, hm, hn⟩ :=
    runMemberRequests_keeps isEmail newId user requests _ hstart
  exact ⟨p, hp, ho, ho ▸ hm, hn⟩

/-- C27 for a project Bob creates next to the board: Bob invites Alice, makes her
admin, a request tries to remove Bob, Alice is invited again and then removed. -/
theorem C27_owner_stays_member_and_no_user_is_listed_twice_witness :
    ∃ p,
      Project.findById
        (runMemberRequests (fun _ => true)
          (createProject Faults.none (boardDB fixBug []) bob._id "121212121212121212121212"
            ("5200000000000000000000a0", "5200000000000000000000a1",
              "5200000000000000000000a2")
            (some "Second") none).db
          [(Faults.none, "121212121212121212121212",
              MemberRequest.invite "alice@example.org" "member"),
           (Faults.none, "121212121212121212121212",
              MemberRequest.updateRole alice._id "admin"),
           (Faults.none, "121212121212121212121212", MemberRequest.remove bob._id),
           (Faults.none, "121212121212121212121212",
              MemberRequest.invite "alice@example.org" "admin"),
           (Faults.none, "121212121212121212121212", MemberRequest.remove alice._id)])
        "121212121212121212121212" = some p ∧
      p.owner = bob._id ∧
      ({ user := bob._id, role := "owner" } : Member) ∈ p.members ∧
      (p.members.map (fun m => m.user)).Nodup :=
  C27_owner_stays_member_and_no_user_is_listed_twice (fun _ => true) Faults.none
    (boardDB fixBug []) bob._id "121212121212121212121212"
    ("5200000000000000000000a0", "5200000000000000000000a1", "5200000000000000000000a2")
    (some "Second") none (by decide) (by decide) _

/-! ## The access check of the automation routes (C26) -/

theorem projectAdmin_of_no_such_project (f : Faults) (db : DB) (user id : String)
    (bodyProjectId bodyProject : Option String) (hid : id ≠ "")
    (hf : f.projectFindById = false) (hnone : Project.findById db id = none) :
    projectAdmin f db user (some id) bodyProjectId bodyProject =
      Gate.sent 404 "Project not found" := by
  have ht : truthy (some id) = true := by simp [truthy, hid]
  simp [projectAdmin, TESTING_MODE, ht, hf, hnone]

/-- The three routes behind `projectAdmin` answer 404 and change nothing whenever no
project has the `_id` of the automation named in the path. -/
theorem automation_routes_look_for_a_project_with_the_rule_id (f : Faults) (now : Nat)
    (db : DB) (user id : String) (body : AutomationBody) (bodyProjectId bodyProject : Option String)
    (hid : id ≠ "") (hf : f.projectFindById = false)
    (hnone : Project.findById db id = none) :
    putToggle f now db user id bodyProjectId bodyProject = { status := 404, db := db } ∧
    putAutomation f now db user id body bodyProject = { status := 404, db := db } ∧
    deleteAutomationRoute f db user id bodyProjectId bodyProject =
      { status := 404, db := db } := by
  simp [putToggle, putAutomation, deleteAutomationRoute, behindProjectAdmin,
    projectAdmin_of_no_such_project f db user id _ _ hid hf hnone]

/-- C26: Alice owns the board and `rDone` is an active rule of the board, yet for her
requests `projectAdmin` looks up a project under the rule's `_id` and answers 404
'Project not found' on the toggle, update and delete routes alike, and the rule stays
stored and active; the handler `toggleAutomationStatus` itself would have answered 200
and switched the rule off. -/
theorem C26_project_admin_takes_the_rule_id_for_a_project_id :
    ({ user := alice._id, role := "owner" } : Member) ∈ board.members ∧
    Automation.findById (boardDB fixBug [rDone]) rDone._id = some rDone ∧
    rDone.project = board._id ∧ rDone.active = true ∧
    projectAdmin Faults.none (boardDB fixBug [rDone]) alice._id (some rDone._id) none none =
      Gate.sent 404 "Project not found" ∧
    putToggle Faults.none 7 (boardDB fixBug [rDone]) alice._id rDone._id none none =
      { status := 404, db := boardDB fixBug [rDone] } ∧
    putToggle Faults.none 7 (boardDB fixBug [rDone]) alice._id rDone._id (some board._id)
        (some board._id) =
      { status := 404, db := boardDB fixBug [rDone] } ∧
    putAutomation Faults.none 7 (boardDB fixBug [rDone]) alice._id rDone._id
        { active := some false } none =
      { status := 404, db := boardDB fixBug [rDone] } ∧
    deleteAutomationRoute Faults.none (boardDB fixBug [rDone]) alice._id rDone._id none none =
      { status := 404, db := boardDB fixBug [rDone] } ∧
    (toggleAutomationStatus Faults.none 7 (boardDB fixBug [rDone]) rDone._id).status = 200 ∧
    (toggleAutomationStatus Faults.none 7 (boardDB fixBug [rDone]) rDone._id).data =
      some { rDone with active := false, updatedAt := 7 } ∧
    projectAdmin Faults.none (boardDB fixBug [rDone]) alice._id (some board._id) none none =
      Gate.next := by
  decide

/-! ## The middleware continues the request (C28) -/

/-- On the board with two rules found, the loop serves the first rule and throws at
the second: the `try` block ends by throwing, with the first rule's badge stored and
`next` not yet called. -/
theorem processTaskStatusChangeTry_throws_in_the_loop :
    processTaskStatusChangeTry Faults.none (boardDB fixBug [rDone, rAny]) (some fixBug._id)
        none (some "Done") [rDone, rAny] badgeThenThrow =
      Ended.threw
        { db := User.findByIdAndUpdate (boardDB fixBug [rDone, rAny]) bob._id "first" 7,
          nextCalls := 0 } ∧
    (processTaskStatusChange Faults.none (boardDB fixBug [rDone, rAny]) (some fixBug._id)
        none (some "Done") [rDone, rAny] badgeThenThrow).passage.nextCalls = 1 := by
  decide

/-- C28: whatever the request names, whether the task lookup or the rule query
rejects, whatever rules the query finds and whatever the statements for a rule do or
throw, `processTaskStatusChange` calls `next` exactly once and no error reaches the
caller. -/
theorem C28_next_is_called_exactly_once (f : Faults) (db : DB)
    (paramsId bodyTaskId newStatus : Option String) (found : List Automation)
    (rule : String → Automation → Progress → Flow) :
    (processTaskStatusChange f db paramsId bodyTaskId newStatus found rule).passage.nextCalls
      = 1 ∧
    (processTaskStatusChange f db paramsId bodyTaskId newStatus found rule).raised = false := by
  unfold processTaskStatusChange
  generalize hr : processTaskStatusChangeTry f db paramsId bodyTaskId newStatus found rule = r
  unfold processTaskStatusChangeTry at hr
  simp only [] at hr
  split at hr
  · subst hr; exact ⟨rfl, rfl⟩
  split at hr
  · subst hr; exact ⟨rfl, rfl⟩
  split at hr
  · subst hr; exact ⟨rfl, rfl⟩
  split at hr
  · subst hr; exact ⟨rfl, rfl⟩
  split at hr
  · subst hr; exact ⟨rfl, rfl⟩
  split at hr
  · subst hr; exact ⟨rfl, rfl⟩
  · subst hr; exact ⟨rfl, rfl⟩

/-- The name check of `createProjectStatus` reads the name as sent, the schema trims it
on the way in: "Done " passes the check on the board and is stored as a second
"Done". -/
theorem createProjectStatus_checks_the_name_before_it_is_trimmed :
    (createProjectStatus Faults.none (boardDB fixBug []) board._id
      "5100000000000000000000a9"
      { name := some "Done ", color := some "#36B37E", order := some 3 }).status = 201 ∧
    ((Project.findById
      (createProjectStatus Faults.none (boardDB fixBug []) board._id
        "5100000000000000000000a9"
        { name := some "Done ", color := some "#36B37E", order := some 3 }).db board._id).map
      (fun p => p.statuses.map (fun s => s.name))) =
      some ["To Do", "In Progress", "Done", "Done"] := by
  decide

/-! ## Each matching rule is served once (C9) -/

theorem forAutomations_db (f : Faults) (now : Nat) (task : Task)
    (triggerType userId : String) (conditions : Option EventConditions) :
    ∀ (rules : List Automation) (r : RunResult),
      (∀ a ∈ rules, f.bookkeeping a._id = false) →
      (∀ a ∈ rules, shouldRun triggerType conditions a ≠ none) →
      (forAutomations f now task triggerType userId conditions rules r).db =
        (rules.filter (ruleMatches triggerType conditions)).foldl
          (serveRule f now task userId) r.db := by
  intro rules
  induction rules with
  | nil => intro r _ _; simp [forAutomations]
  | cons a rest ih =>
    intro r hb hs
    have hb1 : f.bookkeeping a._id = false := hb a (List.mem_cons_self _ _)
    have hbr : ∀ x ∈ rest, f.bookkeeping x._id = false :=
      fun x hx => hb x (List.mem_cons_of_mem _ hx)
    have hsr : ∀ x ∈ rest, shouldRun triggerType conditions x ≠ none :=
      fun x hx => hs x (List.mem_cons_of_mem _ hx)
    have hs1 := hs a (List.mem_cons_self _ _)
    cases hsa : shouldRun triggerType conditions a with
    | none => exact absurd hsa hs1
    | some b =>
      cases b with
      | false =>
        simp [forAutomations, hsa, ih _ hbr hsr, ruleMatches, List.filter_cons]
      | true =>
        simp [forAutomations, hsa, hb1, ih _ hbr hsr, ruleMatches, List.filter_cons,
          serveRule]

theorem checkAndRun_db (f : Faults) (now : Nat) (db : DB) (task : Task)
    (triggerType userId : String) (conditions : Option EventConditions)
    (hq : f.automationFind triggerType = false)
    (hb : ∀ a ∈ Automation.find db task.project triggerType, f.bookkeeping a._id = false)
    (hs : ∀ a ∈ Automation.find db task.project triggerType,
      shouldRun triggerType conditions a ≠ none) :
    (checkAndRunAutomationsForTask f now db task triggerType userId conditions).db =
      ((Automation.find db task.project triggerType).filter
        (ruleMatches triggerType conditions)).foldl (serveRule f now task userId) db := by
  unfold checkAndRunAutomationsForTask
  simp only [hq, Bool.false_eq_true, if_false]
  split_ifs with h0
  · rw [List.length_eq_zero] at h0
    simp [h0]
  · rw [forAutomations_db f now task triggerType userId conditions _ _ hb hs]

theorem serveRule_history (f : Faults) (now : Nat) (task : Task) (userId : String)
    (d : DB) (a : Automation) (hf : f.taskUpdate a._id = false) :
    (Task.findById (serveRule f now task userId d a) task._id).map (fun t => t.history) =
      (Task.findById d task._id).map
        (fun t => t.history ++ statusWrites now task userId [a]) := by
  have hstep : Task.findById (serveRule f now task userId d a) task._id =
      Task.findById (executeAutomationAction f now a task userId d) task._id := rfl
  rw [hstep]
  by_cases hw : writesStatus a = true
  · have hw2 := hw
    unfold writesStatus at hw2
    simp only [Bool.and_eq_true, beq_iff_eq] at hw2
    have hexec : executeAutomationAction f now a task userId d =
        Task.findByIdAndUpdate d task._id (a.action.params.status.getD "")
          { field := "status", oldValue := task.status,
            newValue := a.action.params.status.getD "", changedBy := userId,
            changedAt := now } := by
      unfold executeAutomationAction executeAutomationActionTry
      simp [hw2.1, hw2.2, hf]
    rw [hexec, findById_task_update_same]
    cases Task.findById d task._id with
    | none => rfl
    | some t => simp [statusWrites, hw]
  · have hw3 : writesStatus a = false := by simpa using hw
    have hsame : (executeAutomationAction f now a task userId d).tasks = d.tasks := by
      by_cases hty : a.action.type = "changeTaskStatus"
      · have hst : truthy a.action.params.status = false := by
          unfold writesStatus at hw3
          simpa [hty] using hw3
        unfold executeAutomationAction executeAutomationActionTry
        simp [hty, hst]
      · exact executeAutomationAction_tasks f now a task userId d hty
    unfold Task.findById
    rw [hsame]
    simp [statusWrites, hw3]

theorem foldl_serveRule_history (f : Faults) (now : Nat) (task : Task) (userId : String) :
    ∀ (rules : List Automation) (d : DB), (∀ a ∈ rules, f.taskUpdate a._id = false) →
      (Task.findById (rules.foldl (serveRule f now task userId) d) task._id).map
          (fun t => t.history) =
        (Task.findById d task._id).map
          (fun t => t.history ++ statusWrites now task userId rules) := by
  intro rules
  induction rules with
  | nil => intro d _; simp [statusWrites]
  | cons a rest ih =>
    intro d hf
    rw [List.foldl_cons, ih _ (fun x hx => hf x (List.mem_cons_of_mem _ hx))]
    have h1 := serveRule_history f now task userId d a (hf a (List.mem_cons_self _ _))
    cases hs : Task.findById (serveRule f now task userId d a) task._id with
    | none =>
      rw [hs] at h1
      cases hd : Task.findById d task._id with
      | none => rfl
      | some t => rw [hd] at h1; simp at h1
    | some t1 =>
      rw [hs] at h1
      cases hd : Task.findById d task._id with
      | none => rw [hd] at h1; simp at h1
      | some t =>
        rw [hd] at h1
        simp only [Option.map_some', Option.some.injEq] at h1 ⊢
        rw [h1]
        simp [statusWrites, List.filter_cons]
        split_ifs <;> simp

/-- C9. The matcher is a total function, so every call ends. For an event with a
conditions object, in a run whose rule query and bookkeeping updates succeed (distinct
`_id`s): `executeAutomationAction` is called as often as there are returned rules that
match the event, once for each; the database left is the one reached by serving each
of them once, in store order, its action and then its bookkeeping update, and by
nothing else; executing an action never touches the stored rules, so it does no
bookkeeping and no matching of its own; a stored rule is found afterwards with its
count raised by one if it was returned and matched the event, and as it was otherwise,
also when its conditions fit a status that another rule wrote; and when the task is
stored and the task writes are accepted, its stored history is the old one followed by
one entry for each matching rule that writes a status. -/
theorem C9_each_matching_rule_is_executed_once
    (f : Faults) (now : Nat) (db : DB) (task : Task) (triggerType userId : String)
    (c : EventConditions) (hid : distinctAutomationIds db)
    (hq : f.automationFind triggerType = false)
    (hb : ∀ a ∈ Automation.find db task.project triggerType, f.bookkeeping a._id = false) :
    (checkAndRunAutomationsForTask f now db task triggerType userId (some c)).executed.length =
        ((Automation.find db task.project triggerType).filter
          (ruleMatches triggerType (some c))).length ∧
      (∀ a ∈ Automation.find db task.project triggerType,
        ruleMatches triggerType (some c) a = true →
        (checkAndRunAutomationsForTask f now db task triggerType userId
          (some c)).executed.count a = 1) ∧
      (checkAndRunAutomationsForTask f now db task triggerType userId (some c)).db =
        ((Automation.find db task.project triggerType).filter
          (ruleMatches triggerType (some c))).foldl (serveRule f now task userId) db ∧
      (∀ (a : Automation) (d : DB),
        (executeAutomationAction f now a task userId d).automations = d.automations) ∧
      (∀ a ∈ db.automations,
        Automation.findById
            (checkAndRunAutomationsForTask f now db task triggerType userId (some c)).db
            a._id =
          some (if a ∈ Automation.find db task.project triggerType ∧
                  ruleMatches triggerType (some c) a = true
                then a.bumped now else a)) ∧
      (∀ t0, Task.findById db task._id = some t0 →
        (∀ a ∈ Automation.find db task.project triggerType, f.taskUpdate a._id = false) →
        (Task.findById
            (checkAndRunAutomationsForTask f now db task triggerType userId (some c)).db
            task._id).map (fun t => t.history) =
          some (t0.history ++ statusWrites now task userId
            ((Automation.find db task.project triggerType).filter
              (ruleMatches triggerType (some c))))) := by
  have hs : ∀ x ∈ Automation.find db task.project triggerType,
      shouldRun triggerType (some c) x ≠ none := fun x _ => shouldRun_ne_none _ _ x
  have key := checkAndRun_executed f now db task triggerType userId (some c) hq hb hs
  have hdb := checkAndRun_db f now db task triggerType userId (some c) hq hb hs
  refine ⟨by rw [key], ?_, hdb, ?_, ?_, ?_⟩
  · intro a ha hm
    rw [key]
    have hnd : ((Automation.find db task.project triggerType).filter
        (ruleMatches triggerType (some c))).Nodup := by
      apply List.Nodup.filter
      unfold Automation.find
      apply List.Nodup.filter
      exact List.Nodup.of_map _ hid
    exact List.count_eq_one_of_mem hnd (List.mem_filter.mpr ⟨ha, hm⟩)
  · intro a d
    exact executeAutomationAction_automations f now a task userId d
  · intro a ha
    exact checkAndRun_findById_bumped f now db task triggerType userId c hid hq hb a ha
  · intro t0 ht0 hw
    rw [hdb, foldl_serveRule_history f now task userId _ db
      (fun a ha => hw a (List.mem_filter.mp ha).1), ht0]
    rfl

/-- C9 on the sample board, with two rules that chain into each other: the move to
"Done" is reopened by one rule, the reopening is not fed back to the other. One action
is executed, the task's stored history gains the one entry of the reopening, the
reopening rule is counted once and the other rule is stored as it was. -/
theorem C9_each_matching_rule_is_executed_once_witness :
    (checkAndRunAutomationsForTask Faults.none 7 (boardDB fixBugDone [rReopen, rRedo])
        fixBugDone "taskStatusChange" alice._id
        (statusEvent "To Do" "Done")).executed.length = 1 ∧
      (checkAndRunAutomationsForTask Faults.none 7 (boardDB fixBugDone [rReopen, rRedo])
        fixBugDone "taskStatusChange" alice._id
        (statusEvent "To Do" "Done")).executed.count rReopen = 1 ∧
      Automation.findById
        (checkAndRunAutomationsForTask Faults.none 7 (boardDB fixBugDone [rReopen, rRedo])
          fixBugDone "taskStatusChange" alice._id (statusEvent "To Do" "Done")).db
        rReopen._id = some (rReopen.bumped 7) ∧
      Automation.findById
        (checkAndRunAutomationsForTask Faults.none 7 (boardDB fixBugDone [rReopen, rRedo])
          fixBugDone "taskStatusChange" alice._id (statusEvent "To Do" "Done")).db
        rRedo._id = some rRedo ∧
      (Task.findById
        (checkAndRunAutomationsForTask Faults.none 7 (boardDB fixBugDone [rReopen, rRedo])
          fixBugDone "taskStatusChange" alice._id (statusEvent "To Do" "Done")).db
        fixBugDone._id).map (fun t => t.history) =
        some [{ field := "status", oldValue := "Done", newValue := "To Do",
                changedBy := alice._id, changedAt := 7 }] :=
  ⟨(C9_each_matching_rule_is_executed_once Faults.none 7
      (boardDB fixBugDone [rReopen, rRedo]) fixBugDone "taskStatusChange" alice._id
      { fromStatus := some "To Do", toStatus := some "Done" } (by decide) rfl
      (fun _ _ => rfl)).1.trans (by decide),
    (C9_each_matching_rule_is_executed_once Faults.none 7
      (boardDB fixBugDone [rReopen, rRedo]) fixBugDone "taskStatusChange" alice._id
      { fromStatus := some "To Do", toStatus := some "Done" } (by decide) rfl
      (fun _ _ => rfl)).2.1 rReopen (by decide) (by decide),
    ((C9_each_matching_rule_is_executed_once Faults.none 7
      (boardDB fixBugDone [rReopen, rRedo]) fixBugDone "taskStatusChange" alice._id
      { fromStatus := some "To Do", toStatus := some "Done" } (by decide) rfl
      (fun _ _ => rfl)).2.2.2.2.1 rReopen (by decide)).trans (by decide),
    ((C9_each_matching_rule_is_executed_once Faults.none 7
      (boardDB fixBugDone [rReopen, rRedo]) fixBugDone "taskStatusChange" alice._id
      { fromStatus := some "To Do", toStatus := some "Done" } (by decide) rfl
      (fun _ _ => rfl)).2.2.2.2.1 rRedo (by decide)).trans (by decide),
    ((C9_each_matching_rule_is_executed_once Faults.none 7
      (boardDB fixBugDone [rReopen, rRedo]) fixBugDone "taskStatusChange" alice._id
      { fromStatus := some "To Do", toStatus := some "Done" } (by decide) rfl
      (fun _ _ => rfl)).2.2.2.2.2 fixBugDone (by decide) (fun _ _ => rfl)).trans
      (by decide)⟩

end TaskBoard
